import Mathlib

/-!
# hackgradBackend: the content interaction engine

A shallow embedding of the request handlers of
`routes/content/interactionRoutes.js` and `routes/content/questionRoutes.js`
over the document model of `models/Content.js`.

A handler is a function from the request (path parameters, body fields, the
authenticated caller, the clock reading used by `new Date()`) and the stored
collections to a `Result`: the HTTP status, the message and document of the JSON
body, and the collection as it is after the request.  An exception thrown inside
a handler's `try` block is caught by its `catch` and answered with status 500
before anything is saved.
-/

namespace HackGrad

/-! ## Data model (`models/Content.js`, `models/User.js`) -/

/-- An ObjectId, identified with its `toString()` text: every handler compares ids
through that text. -/
abbrev ObjectId := String

/-- The `contentType` enum of `contentSchema`. -/
inductive ContentType where
  | Post | Job | Event | Project | Tutorial | Books | Question
  deriving DecidableEq, Repr

/-- The `visibility` enum of `contentSchema`. -/
inductive Visibility where
  | Public | Connections | Private
  deriving DecidableEq, Repr

/-- The `voteType` enum of a `votedBy` entry; also a well-formed `direction` of a
vote request. -/
inductive VoteType where
  | up | down
  deriving DecidableEq, Repr

/-- The text of a vote type, as it is stored and as it appears in messages. -/
def VoteType.toString : VoteType → String
  | .up => "up"
  | .down => "down"

/-- One entry of `comments[i].votedBy`. -/
structure Vote where
  userId : ObjectId
  voteType : VoteType
  deriving DecidableEq, Repr

/-- One sub-document of `content.comments`, with the schema's defaults.  `votes` is a
Number; it is kept as the whole value it holds, the handlers adding whole numbers to the
default 0. -/
structure Comment where
  userId : ObjectId
  username : String := "Unknown User"
  text : String
  createdAt : Nat
  isAnswer : Bool := false
  votes : Int := 0
  acceptedAnswer : Bool := false
  votedBy : List Vote := []
  deriving DecidableEq, Repr

/-- A document of the `Content` collection, with the schema's defaults.  Dates are
clock readings; `extraFields` is the open key/value bag. -/
structure Content where
  _id : ObjectId
  userId : ObjectId
  contentType : ContentType
  title : String := "Untitled"
  image : String := "/default-content.gif"
  createdAt : Nat := 0
  lastUpdatedAt : Nat := 0
  visibility : Visibility := .Public
  likes : List ObjectId := []
  dislikes : List ObjectId := []
  comments : List Comment := []
  reposts : List ObjectId := []
  saves : List ObjectId := []
  originalContentId : Option ObjectId := none
  solved : Bool := false
  tags : List String := []
  extraFields : List (String × String) := []
  deriving DecidableEq, Repr

/-- A JSON value as a request body carries it.  Arrays and objects are kept as their JSON
text: no handler here looks inside one. -/
inductive BodyValue where
  | null
  | bool (b : Bool)
  | number (n : Int)
  | text (s : String)
  | composite (json : String)
  deriving DecidableEq, Repr

/-- A document of the `User` collection: the paths the content handlers read, and in
`profile` the values of the further profile paths of `userSchema` by name (`bio`, `skills`,
`education`, `experience`, `favoriteLanguages`, `github`, `linkedin`, `portfolio`,
`createdAt`, `updatedAt`). -/
structure User where
  _id : ObjectId
  username : String
  fullName : String := ""
  email : String := ""
  password : String := ""
  profileImage : String := ""
  areaOfExpertise : String := ""
  connections : List ObjectId := []
  profile : List (String × BodyValue) := []
  deriving DecidableEq, Repr

/-- The `:contentId` path parameter as Mongoose receives it: text that casts to an
ObjectId, or text that does not, for which `findById` throws a CastError. -/
inductive IdParam where
  | malformed
  | wellFormed (id : ObjectId)
  deriving DecidableEq, Repr

/-- The JSON body of a response, next to its message. -/
inductive Body where
  | empty
  | content (c : Content)
  | comments (cs : List Comment)
  | reposted (content repost : Content)
  deriving DecidableEq, Repr

/-- What a handler leaves behind: the response and the `Content` collection.
`message` is `none` where the text is the caught exception's own. -/
structure Result where
  status : Nat
  message : Option String
  body : Body := .empty
  db : List Content
  deriving DecidableEq, Repr

/-! ## The store -/

/-- The query `Content.findById(id)`: throws (`none`) on text that is no ObjectId, otherwise
yields the document with that `_id` or `null`. -/
def findById (db : List Content) : IdParam → Option (Option Content)
  | .malformed => none
  | .wellFormed id => some (db.find? (fun d => d._id == id))

/-- The query `User.findById(id)` for the id carried by a verified token. -/
def findUserById (users : List User) (id : ObjectId) : Option User :=
  users.find? (fun u => u._id == id)

/-- The `pre("save")` hook of `contentSchema`: touches `lastUpdatedAt`. -/
def preSave (now : Nat) (doc : Content) : Content :=
  { doc with lastUpdatedAt := now }

/-- The call `doc.save()` for a document fetched from the collection: runs the hook and
writes the document back under its `_id` (ids are unique in a collection; the list is
rewritten wherever the id occurs). -/
def save (now : Nat) (db : List Content) (doc : Content) : List Content :=
  db.map (fun d => if d._id == doc._id then preSave now doc else d)

/-! ## Numbers (whole values of the Number type) -/

/-- The number of low bits that do not fit into 53 significant bits of `m`; `fuel` bounds
the search and `m` itself is always enough. -/
def droppedBits : Nat → Nat → Nat
  | 0, _ => 0
  | fuel + 1, m => if m < 2 ^ 53 then 0 else droppedBits fuel (m / 2) + 1

/-- The multiple of `2 ^ e` nearest to `m`; of two equally near ones, the even multiple. -/
def roundToMultiple (e m : Nat) : Nat :=
  if 2 * (m % 2 ^ e) > 2 ^ e ∨ (2 * (m % 2 ^ e) = 2 ^ e ∧ (m / 2 ^ e) % 2 = 1) then
    (m / 2 ^ e + 1) * 2 ^ e
  else m / 2 ^ e * 2 ^ e

/-- The whole value that a Number (a double) holds for the exact whole value `n`: `n`
rounded to 53 significant bits, to nearest and ties to even.  Overflow is tested where it
can occur. -/
def roundToDouble (n : Int) : Int :=
  let r := roundToMultiple (droppedBits n.natAbs n.natAbs) n.natAbs
  if n < 0 then -(r : Int) else r

/-- The sum `a + b` of two whole-valued Numbers as the Number type computes it. -/
def jsAdd (a b : Int) : Int :=
  roundToDouble (a + b)

/-! ## Like / dislike (`interactionRoutes.js`, `POST /:contentId/:action`) -/

/-- The in-memory mutation of the like/dislike handler, lines 170-188.  On a Mongoose
array `includes(userId)` compares the stored ids with the caller's id text, `push` appends
and `filter(id => id.toString() !== userId)` drops every occurrence. -/
def toggleLikeDislike (action : String) (userId : ObjectId) (content : Content) : Content :=
  if action == "like" then
    if content.likes.contains userId then
      { content with likes := content.likes.filter (fun id => id != userId) }
    else
      { content with
        likes := content.likes ++ [userId]
        dislikes := content.dislikes.filter (fun id => id != userId) }
  else
    if content.dislikes.contains userId then
      { content with dislikes := content.dislikes.filter (fun id => id != userId) }
    else
      { content with
        dislikes := content.dislikes ++ [userId]
        likes := content.likes.filter (fun id => id != userId) }

/-- The handler `router.post("/:contentId/:action")`. -/
def likeDislike (now : Nat) (db : List Content) (contentId : IdParam) (action : String)
    (user : ObjectId) : Result :=
  if !(["like", "dislike"].contains action) then
    { status := 400, message := some "Invalid action", db := db }
  else
    match findById db contentId with
    | none => { status := 500, message := none, db := db }
    | some none => { status := 404, message := some "Content not found", db := db }
    | some (some content) =>
      let content := toggleLikeDislike action user content
      { status := 200
        message := some ("Content " ++ action ++ " toggled successfully")
        body := .content (preSave now content)
        db := save now db content }

/-! ## Comments (`interactionRoutes.js`, `POST /:contentId/comment`) -/

/-- The code points `String.prototype.trim` strips: ECMAScript white space and line
terminators. -/
def isJsWhitespace (ch : Char) : Bool :=
  let n := ch.toNat
  n == 0x9 || n == 0xA || n == 0xB || n == 0xC || n == 0xD || n == 0x20 || n == 0xA0 ||
  n == 0x1680 || (0x2000 ≤ n && n ≤ 0x200A) || n == 0x2028 || n == 0x2029 ||
  n == 0x202F || n == 0x205F || n == 0x3000 || n == 0xFEFF

/-- The call `text.trim()`. -/
def jsTrim (text : String) : String :=
  String.mk ((text.data.dropWhile isJsWhitespace).reverse.dropWhile isJsWhitespace).reverse

/-- The test `!text?.trim()` for a `text` field that is absent or a string. -/
def isBlank (text : Option String) : Bool :=
  match text with
  | none => true
  | some t => jsTrim t == ""

/-- The handler `router.post("/:contentId/comment")`.  The new sub-document takes the
schema defaults for `isAnswer`, `votes`, `acceptedAnswer` and `votedBy`; reading
`user.username` of a caller who has no user record throws. -/
def postComment (now : Nat) (users : List User) (db : List Content) (contentId : IdParam)
    (text : Option String) (user : ObjectId) : Result :=
  if isBlank text then
    { status := 400, message := some "Comment text cannot be empty", db := db }
  else
    match findById db contentId with
    | none => { status := 500, message := none, db := db }
    | some none => { status := 404, message := some "Content not found", db := db }
    | some (some content) =>
      match findUserById users user with
      | none => { status := 500, message := none, db := db }
      | some author =>
        let content := { content with
          comments := content.comments ++
            [{ userId := user
               username := author.username
               text := jsTrim (text.getD "")
               createdAt := now }] }
        { status := 200
          message := some "Comment added"
          body := .comments content.comments
          db := save now db content }

/-! ## Questions (`questionRoutes.js`) -/

/-- The handler `router.post("/:contentId/answer")`. -/
def postAnswer (now : Nat) (users : List User) (db : List Content) (contentId : IdParam)
    (text : Option String) (user : ObjectId) : Result :=
  if isBlank text then
    { status := 400, message := some "Answer text cannot be empty", db := db }
  else
    match findById db contentId with
    | none => { status := 500, message := none, db := db }
    | some none => { status := 404, message := some "Content not found", db := db }
    | some (some content) =>
      if content.contentType != .Question then
        { status := 400, message := some "This content is not a question", db := db }
      else
        match findUserById users user with
        | none => { status := 500, message := none, db := db }
        | some author =>
          let content := { content with
            comments := content.comments ++
              [{ userId := user
                 username := author.username
                 text := jsTrim (text.getD "")
                 createdAt := now
                 isAnswer := true
                 votes := 0
                 acceptedAnswer := false }] }
          { status := 200
            message := some "Answer added"
            body := .comments content.comments
            db := save now db content }

/-- Lines 146-157 of the accept-answer handler: the `forEach` that clears the flag on
every index other than `commentIndex`, the assignment that sets it on
`comments[commentIndex]`, and `solved = true`. -/
def markAccepted (commentIndex : Int) (content : Content) : Content :=
  let comments := content.comments.mapIdx (fun index comment =>
    if (index : Int) != commentIndex then { comment with acceptedAnswer := false } else comment)
  let comments := comments.modify (fun comment => { comment with acceptedAnswer := true })
    commentIndex.toNat
  { content with comments := comments, solved := true }

/-- The handler `router.post("/:contentId/accept-answer")`.  `commentIndex` is the body
field: absent (`undefined`) or an integer.  The checks run in the order of lines 118-144;
an index that passed the range check always addresses a comment. -/
def acceptAnswer (now : Nat) (db : List Content) (contentId : IdParam)
    (commentIndex : Option Int) (user : ObjectId) : Result :=
  match commentIndex with
  | none => { status := 400, message := some "Comment index is required", db := db }
  | some commentIndex =>
    match findById db contentId with
    | none => { status := 500, message := none, db := db }
    | some none => { status := 404, message := some "Question not found", db := db }
    | some (some content) =>
      if content.contentType != .Question then
        { status := 400, message := some "This content is not a question", db := db }
      else if content.userId != user then
        { status := 403, message := some "Only the question owner can accept an answer", db := db }
      else if commentIndex < 0 ∨ commentIndex ≥ content.comments.length then
        { status := 400, message := some "Invalid comment index", db := db }
      else
        match content.comments[commentIndex.toNat]? with
        | none => { status := 500, message := none, db := db }
        | some target =>
          if !target.isAnswer then
            { status := 400, message := some "The selected comment is not an answer", db := db }
          else
            let content := markAccepted commentIndex content
            { status := 200
              message := some "Answer accepted"
              body := .content (preSave now content)
              db := save now db content }

/-- The vote type a validated `direction` is stored as. -/
def VoteType.ofDirection (direction : String) : VoteType :=
  if direction == "up" then .up else .down

/-- The assignment `existingVote.voteType = direction` on the entry that
`votedBy.find(vote => vote.userId.toString() === userId)` returned: the first entry
of that user, rewritten where it stands. -/
def updateExistingVote (userId : ObjectId) (voteType : VoteType) : List Vote → List Vote
  | [] => []
  | vote :: rest =>
    if vote.userId == userId then { vote with voteType := voteType } :: rest
    else vote :: updateExistingVote userId voteType rest

/-- Lines 203-237 of the vote-answer handler, on the target answer: `none` when the
request is rejected because the caller's existing vote has the requested direction.  The
statements `answer.votes += 2` and the like compute in the Number type. -/
def castVote (direction : String) (userId : ObjectId) (answer : Comment) : Option Comment :=
  match answer.votedBy.find? (fun vote => vote.userId == userId) with
  | some existingVote =>
    if existingVote.voteType.toString == direction then none
    else
      some { answer with
        votedBy := updateExistingVote userId (VoteType.ofDirection direction) answer.votedBy
        votes := if direction == "up" then jsAdd answer.votes 2 else jsAdd answer.votes (-2) }
  | none =>
    some { answer with
      votedBy := answer.votedBy ++
        [{ userId := userId, voteType := VoteType.ofDirection direction }]
      votes := if direction == "up" then jsAdd answer.votes 1 else jsAdd answer.votes (-1) }

/-- The handler `router.post("/:contentId/vote-answer")`.  `commentIndex` is absent or an
integer; `direction` is the body's text. -/
def voteAnswer (now : Nat) (db : List Content) (contentId : IdParam)
    (commentIndex : Option Int) (direction : String) (user : ObjectId) : Result :=
  match commentIndex with
  | none => { status := 400, message := some "Comment index is required", db := db }
  | some commentIndex =>
    if !(["up", "down"].contains direction) then
      { status := 400, message := some "Direction must be 'up' or 'down'", db := db }
    else
      match findById db contentId with
      | none => { status := 500, message := none, db := db }
      | some none => { status := 404, message := some "Question not found", db := db }
      | some (some content) =>
        if content.contentType != .Question then
          { status := 400, message := some "This content is not a question", db := db }
        else if commentIndex < 0 ∨ commentIndex ≥ content.comments.length then
          { status := 400, message := some "Invalid comment index", db := db }
        else
          match content.comments[commentIndex.toNat]? with
          | none => { status := 500, message := none, db := db }
          | some answer =>
            if !answer.isAnswer then
              { status := 400, message := some "The selected comment is not an answer", db := db }
            else
              match castVote direction user answer with
              | none =>
                { status := 400
                  message := some ("You have already " ++
                    (if direction == "up" then "upvoted" else "downvoted") ++ " this answer")
                  db := db }
              | some answer =>
                let content := { content with
                  comments := content.comments.set commentIndex.toNat answer }
                { status := 200
                  message := some ("Vote " ++ direction ++ " registered successfully")
                  body := .content (preSave now content)
                  db := save now db content }

/-! ## Save and repost (`interactionRoutes.js`) -/

/-- The in-memory mutation of the save handler, lines 75-88: remove every occurrence
of the caller when `saves.includes(userId)`, append the caller otherwise. -/
def toggleSave (userId : ObjectId) (content : Content) : Content :=
  if content.saves.contains userId then
    { content with saves := content.saves.filter (fun id => id != userId) }
  else
    { content with saves := content.saves ++ [userId] }

/-- The handler `router.post("/:contentId/save")`. -/
def saveContent (now : Nat) (db : List Content) (contentId : IdParam) (user : ObjectId) :
    Result :=
  match findById db contentId with
  | none => { status := 500, message := none, db := db }
  | some none => { status := 404, message := some "Content not found", db := db }
  | some (some content) =>
    let alreadySaved := content.saves.contains user
    let content := toggleSave user content
    { status := 200
      message := some (if alreadySaved then "Content unsaved successfully"
        else "Content saved successfully")
      body := .content (preSave now content)
      db := save now db content }

/-- The value of `fields[key]` in an `extraFields` bag, `none` when the key is missing. -/
def getField (key : String) (fields : List (String × String)) : Option String :=
  (fields.find? (fun kv => kv.1 == key)).map (fun kv => kv.2)

/-- The object `{ ...fields, key: value }`: the key keeps its place when present and is
added last otherwise. -/
def setField (key value : String) : List (String × String) → List (String × String)
  | [] => [(key, value)]
  | kv :: rest =>
    if kv.1 == key then (kv.1, value) :: rest else kv :: setField key value rest

/-- The document `new Content({ ... })` of lines 126-137 as `repost.save()` stores it,
under the id `newId` that the constructor generates.  Fields not listed take the schema
defaults; both dates are the clock reading. -/
def makeRepost (now : Nat) (newId userId : ObjectId) (repostNote : Option String)
    (originalContent : Content) : Content :=
  { _id := newId
    userId := userId
    contentType := originalContent.contentType
    title := originalContent.title
    image := originalContent.image
    createdAt := now
    lastUpdatedAt := now
    visibility := .Public
    originalContentId := some originalContent._id
    extraFields := setField "repostNote" (repostNote.getD "") originalContent.extraFields }

/-- The handler `router.post("/:contentId/repost")`.  `repostNote` is the body field,
absent or text; `newId` is the id generated for the document a repost creates.
`Content.deleteOne` removes the first stored document that matches its filter, and saving
an original that is no longer stored throws. -/
def repost (now : Nat) (newId : ObjectId) (db : List Content) (contentId : IdParam)
    (repostNote : Option String) (user : ObjectId) : Result :=
  match findById db contentId with
  | none => { status := 500, message := none, db := db }
  | some none => { status := 404, message := some "Content not found", db := db }
  | some (some originalContent) =>
    if originalContent.reposts.contains user then
      let db := db.eraseP (fun d =>
        d.userId == user && d.originalContentId == some originalContent._id)
      let originalContent := { originalContent with
        reposts := originalContent.reposts.filter (fun id => id != user) }
      if db.any (fun d => d._id == originalContent._id) then
        { status := 200
          message := some "Content unreposted successfully"
          body := .content (preSave now originalContent)
          db := save now db originalContent }
      else
        { status := 500, message := none, db := db }
    else
      let savedRepost := makeRepost now newId user repostNote originalContent
      let db := db ++ [savedRepost]
      let originalContent := { originalContent with
        reposts := originalContent.reposts ++ [user] }
      { status := 201
        message := some "Content reposted successfully"
        body := .reposted (preSave now originalContent) savedRepost
        db := save now db originalContent }

/-! ## Listing (`contentRoutes.js`, `GET /` and `GET /user/:userId`) -/

/-- The value of a character as a digit, for radix up to 36. -/
def digitValue (ch : Char) : Option Nat :=
  if '0' ≤ ch ∧ ch ≤ '9' then some (ch.toNat - 48)
  else if 'a' ≤ ch ∧ ch ≤ 'z' then some (ch.toNat - 87)
  else if 'A' ≤ ch ∧ ch ≤ 'Z' then some (ch.toNat - 55)
  else none

/-- The values of the longest run of leading digits that are valid in the radix. -/
def leadingDigits (radix : Nat) : List Char → List Nat
  | [] => []
  | ch :: rest =>
    match digitValue ch with
    | some v => if v < radix then v :: leadingDigits radix rest else []
    | none => []

/-- A Number that `parseInt` returns or that is computed from such: `NaN`, a whole value,
or an infinity. -/
inductive JsInt where
  | nan
  | finite (value : Int)
  | infinite (negative : Bool)
  deriving DecidableEq, Repr

/-- The magnitude `2 ^ 1024 - 2 ^ 970`, from which on a value rounds to an infinity. -/
def overflowThreshold : Nat :=
  179769313486231580793728971405303415079934132710037826936173778980444968292764750946649017977587207096330286416692887910946555547851940402630657488671505820681908902000708383676273854845817711531764475730270069855571366959622842914819860834936475292719074168444365510704342711559699508093042880177904174497792

/-- The Number for the exact whole value `n`: the nearest double, which is an infinity
from the magnitude `overflowThreshold` on. -/
def JsInt.ofExact (n : Int) : JsInt :=
  if n.natAbs ≥ overflowThreshold then .infinite (decide (n < 0))
  else .finite (roundToDouble n)

/-- The difference `a - b` for a whole `b`. -/
def JsInt.sub (a : JsInt) (b : Int) : JsInt :=
  match a with
  | .nan => .nan
  | .finite value => .ofExact (value - b)
  | .infinite negative => .infinite negative

/-- The product `a * b`; zero times an infinity is `NaN`. -/
def JsInt.mul (a b : JsInt) : JsInt :=
  match a, b with
  | .nan, _ => .nan
  | _, .nan => .nan
  | .finite x, .finite y => .ofExact (x * y)
  | .finite x, .infinite negative =>
    if x = 0 then .nan else .infinite (negative != decide (x < 0))
  | .infinite negative, .finite y =>
    if y = 0 then .nan else .infinite (negative != decide (y < 0))
  | .infinite negative, .infinite other => .infinite (negative != other)

/-- The call `parseInt(text)` without a radix: leading white space is skipped, a sign and a
`0x` mark are read, and the longest run of digits is the value, as the Number nearest to
it; no digit gives `NaN`. -/
def jsParseInt (text : String) : JsInt :=
  let chars := text.data.dropWhile isJsWhitespace
  let signed : Bool × List Char :=
    match chars with
    | '-' :: rest => (true, rest)
    | '+' :: rest => (false, rest)
    | _ => (false, chars)
  let based : Nat × List Char :=
    match signed.2 with
    | '0' :: 'x' :: rest => (16, rest)
    | '0' :: 'X' :: rest => (16, rest)
    | _ => (10, signed.2)
  match leadingDigits based.1 based.2 with
  | [] => .nan
  | digits =>
    let n : Int := (digits.foldl (fun acc v => acc * based.1 + v) 0 : Nat)
    .ofExact (if signed.1 then -n else n)

/-- The expression `parseInt(req.query.name) || fallback` for a query parameter that is
absent or text: `NaN` and `0` give the fallback, every other Number is kept. -/
def queryInt (param : Option String) (fallback : Int) : JsInt :=
  match param with
  | none => .finite fallback
  | some text =>
    match jsParseInt text with
    | .nan => .finite fallback
    | .finite value => if value = 0 then .finite fallback else .finite value
    | .infinite negative => .infinite negative

/-- The exact ceiling of `total / limit` for a whole non-zero `limit`. -/
def ceilDiv (total : Nat) (limit : Int) : Int :=
  -((-(total : Int)).fdiv limit)

/-- The expression `Math.ceil(total / limit)` for a count and the limit that `queryInt`
gave, which is neither `NaN` nor 0.  The quotient of a count below `2 ^ 53` by a whole
Number has the ceiling of the exact quotient; a count divided by an infinity is 0. -/
def jsCeilDiv (total : Nat) : JsInt → Int
  | .finite limit => ceilDiv total limit
  | _ => 0

/-- The `pagination` object of a listing response. -/
structure Pagination where
  total : Nat
  page : JsInt
  pages : Int
  deriving DecidableEq, Repr

/-- The response of a listing handler. -/
structure ListResult where
  status : Nat
  contents : List Content := []
  pagination : Option Pagination := none
  deriving DecidableEq, Repr

/-- The cursor stage `.sort({ createdAt: -1 })`: newest first, documents of equal date in
stored order. -/
def sortNewestFirst (docs : List Content) : List Content :=
  docs.insertionSort (fun a b => a.createdAt ≥ b.createdAt)

/-- The cursor stages `.skip(skip).limit(limit)` as the database runs them on whole
numbers of 64 bits: a negative skip is rejected (`none`), a limit of 0 is no limit, and a
negative limit caps the result at its absolute value.  `outOfRange` is what the database
does with a skip or a limit that is no such number. -/
def skipLimit (outOfRange : JsInt → JsInt → List Content → Option (List Content))
    (skip limit : JsInt) (docs : List Content) : Option (List Content) :=
  match skip, limit with
  | .finite s, .finite l =>
    if s.natAbs ≥ 2 ^ 63 ∨ l.natAbs ≥ 2 ^ 63 then outOfRange skip limit docs
    else if s < 0 then none
    else if l = 0 then some (docs.drop s.toNat)
    else some ((docs.drop s.toNat).take l.natAbs)
  | _, _ => outOfRange skip limit docs

/-- Lines 32-50 and 60-84, shared by both listing handlers, over the documents that match
the handler's filter. -/
def paginate (outOfRange : JsInt → JsInt → List Content → Option (List Content))
    (matching : List Content) (pageParam limitParam : Option String) : ListResult :=
  let page := queryInt pageParam 1
  let limit := queryInt limitParam 10
  let skip := (page.sub 1).mul limit
  match skipLimit outOfRange skip limit (sortNewestFirst matching) with
  | none => { status := 500 }
  | some contents =>
    let total := matching.length
    { status := 200
      contents := contents
      pagination := some { total := total, page := page, pages := jsCeilDiv total limit } }

/-- The handler `router.get("/")`. -/
def listContents (outOfRange : JsInt → JsInt → List Content → Option (List Content))
    (db : List Content) (pageParam limitParam : Option String) : ListResult :=
  paginate outOfRange db pageParam limitParam

/-- The handler `router.get("/user/:userId")`: text that is no ObjectId fails
`ObjectId.isValid` and is answered with 400. -/
def listUserContents (outOfRange : JsInt → JsInt → List Content → Option (List Content))
    (db : List Content) (userId : IdParam) (pageParam limitParam : Option String) :
    ListResult :=
  match userId with
  | .malformed => { status := 400 }
  | .wellFormed id =>
    paginate outOfRange (db.filter (fun d => d.userId == id)) pageParam limitParam

/-- A sample database for the runs below: it refuses every skip and limit that is no whole
number of 64 bits. -/
def refuseOutOfRange (_skip _limit : JsInt) (_docs : List Content) : Option (List Content) :=
  none

/-! ## Search (`searchRoutes.js`, `GET /`) -/

/-- The text of a content type, as it is stored. -/
def ContentType.toString : ContentType → String
  | .Post => "Post"
  | .Job => "Job"
  | .Event => "Event"
  | .Project => "Project"
  | .Tutorial => "Tutorial"
  | .Books => "Books"
  | .Question => "Question"

/-- The chain `a || b || ... || fallback` over text operands, a missing field being
`undefined`: the first operand that is present and not the empty text, else the fallback. -/
def firstTruthy (fallback : String) : List (Option String) → String
  | [] => fallback
  | none :: rest => firstTruthy fallback rest
  | some text :: rest => if text == "" then firstTruthy fallback rest else text

/-- One element of `contents` in the search response. -/
structure SearchHit where
  _id : ObjectId
  userId : ObjectId
  title : String
  description : String
  image : String
  type : ContentType
  contentType : ContentType
  createdAt : Nat
  deriving DecidableEq, Repr

/-- The callback of `contents.map` at lines 49-66. -/
def formatContent (content : Content) : SearchHit :=
  let fields := content.extraFields
  { _id := content._id
    userId := content.userId
    title := firstTruthy "Untitled"
      [some content.title, getField "title" fields, getField "postTitle" fields,
        getField "tutorialTitle" fields]
    description := firstTruthy "No description" [getField "description" fields]
    image := firstTruthy "/default-content.gif"
      [some content.image, getField "image" fields, getField "postImage" fields]
    type := content.contentType
    contentType := content.contentType
    createdAt := content.createdAt }

/-- The test `{ "extraFields.key": { $regex: regex } }`: a missing key does not match. -/
def fieldMatches (test : String → Bool) (key : String) (fields : List (String × String)) :
    Bool :=
  match getField key fields with
  | some value => test value
  | none => false

/-- The `$or` filter of the content query, lines 30-45. -/
def contentMatches (test : String → Bool) (content : Content) : Bool :=
  test content.title || test content.contentType.toString ||
  fieldMatches test "description" content.extraFields ||
  fieldMatches test "tags" content.extraFields ||
  fieldMatches test "title" content.extraFields ||
  fieldMatches test "postTitle" content.extraFields ||
  fieldMatches test "tutorialTitle" content.extraFields

/-- The `$or` filter of the user query, lines 21-27. -/
def userMatches (test : String → Bool) (user : User) : Bool :=
  test user.username || test user.fullName || test user.areaOfExpertise

/-- The response of the search handler. -/
structure SearchResult where
  status : Nat
  message : Option String := none
  users : List User := []
  contents : List SearchHit := []
  deriving DecidableEq, Repr

/-- The handler `router.get("/")` of the search router.  `q` is the query parameter, absent
or text.  `compile` stands for `new RegExp(query, "i")`: it yields the test of the compiled
expression, or `none` when the constructor throws on the pattern.  The users are returned
without their password. -/
def search (compile : String → Option (String → Bool)) (users : List User)
    (db : List Content) (q : Option String) : SearchResult :=
  match q with
  | none => { status := 400, message := some "Query parameter is required" }
  | some query =>
    if query == "" || jsTrim query == "" then
      { status := 400, message := some "Query parameter is required" }
    else
      match compile query with
      | none => { status := 500, message := some "Server error" }
      | some test =>
        { status := 200
          users := (users.filter (userMatches test)).map (fun u => { u with password := "" })
          contents := (db.filter (contentMatches test)).map formatContent }

/-- A sample expression engine for the runs below: the pattern is plain text and the test
is whether the value contains it. -/
def containsChars (part : List Char) : List Char → Bool
  | [] => part.isEmpty
  | ch :: rest => part.isPrefixOf (ch :: rest) || containsChars part rest

/-- The sample engine as a `compile` argument; it accepts every pattern. -/
def plainTextEngine (pattern : String) : Option (String → Bool) :=
  some (fun value => containsChars pattern.data value.data)

/-! ## Lookup by id (`contentRoutes.js`, `GET /:contentId`) -/

/-- The response of the lookup handler: the item and, when the author was resolved, the
two author fields. -/
structure LookupResult where
  status : Nat
  message : Option String := none
  content : Option Content := none
  authorName : Option String := none
  authorAvatar : Option String := none
  deriving DecidableEq, Repr

/-- The inner `try` of the lookup handler, after the item was found.  The argument is the
outcome of `User.findById(content.userId)`: `none` when the query throws, `some none` when
no user has that id.  Reading the fields of a missing author throws inside the `try`; in
both failing cases the inner `catch` only logs and the handler goes on to answer with the
item alone. -/
def respondWithAuthor (content : Content) : Option (Option User) → LookupResult
  | some (some authorData) =>
    { status := 200
      content := some content
      authorName := some (firstTruthy authorData.fullName [some authorData.username])
      authorAvatar := some (firstTruthy "/default-avatar.png" [some authorData.profileImage]) }
  | _ => { status := 200, content := some content }

/-- The handler `router.get("/:contentId")` over an author query `lookupAuthor` that may
throw.  A throw of `Content.findById` reaches the outer `catch`.  The schema requires
`userId`, so the guard `if (content.userId)` passes for every stored item. -/
def lookupContent (lookupAuthor : ObjectId → Option (Option User)) (db : List Content)
    (contentId : IdParam) : LookupResult :=
  match findById db contentId with
  | none => { status := 500, message := some "Invalid Content ID or Server Error" }
  | some none => { status := 404, message := some "Content not found" }
  | some (some content) => respondWithAuthor content (lookupAuthor content.userId)

/-- The handler `router.get("/:contentId")` with the author query answered from the stored
users: `content.userId` is an ObjectId by the schema, so the query does not throw on its
argument. -/
def getContentById (users : List User) (db : List Content) (contentId : IdParam) :
    LookupResult :=
  lookupContent (fun userId => some (findUserById users userId)) db contentId

/-! ## Uploads (`uploadRoutes.js`) and the error middleware (`app.js`, `errorHandler.js`) -/

/-- The fields of a thrown error that the error middleware reads. -/
structure JsError where
  name : String
  message : String
  code : Option String := none
  statusCode : Option Nat := none
  deriving DecidableEq, Repr

/-- The fields of an uploaded file that the upload middleware reads. -/
structure UploadFile where
  fieldname : String
  originalname : String
  mimetype : String
  size : Nat
  deriving DecidableEq, Repr

/-- The filter `imageFileFilter` of lines 39-45: `none` accepts the file, otherwise the
error handed to the callback, which is a plain `Error`. -/
def imageFileFilter (file : UploadFile) : Option JsError :=
  if "image/".data.isPrefixOf file.mimetype.data then none
  else some { name := "Error", message := "Only image files are allowed!" }

/-- The limit `limits.fileSize` of line 49. -/
def fileSizeLimit : Nat := 5 * 1024 * 1024

/-- The multer middleware `upload.single("image")` as configured at lines 47-51.  A file
part under another field name is refused with a `MulterError` of code
`LIMIT_UNEXPECTED_FILE` before the filter is asked; the filter's error is passed on as it
is; a file whose size reaches the limit while it is read is refused with a `MulterError` of
code `LIMIT_FILE_SIZE`. -/
def uploadSingle (file : Option UploadFile) : Except JsError (Option UploadFile) :=
  match file with
  | none => .ok none
  | some file =>
    if file.fieldname != "image" then
      .error { name := "MulterError", message := "Unexpected field",
               code := some "LIMIT_UNEXPECTED_FILE" }
    else
      match imageFileFilter file with
      | some err => .error err
      | none =>
        if file.size ≥ fileSizeLimit then
          .error { name := "MulterError", message := "File too large",
                   code := some "LIMIT_FILE_SIZE" }
        else .ok (some file)

/-- The text test `text.includes(part)`. -/
def jsIncludes (text part : String) : Bool :=
  containsChars part.data text.data

/-- The status set by the error middleware of `app.js`, lines 78-112. -/
def appErrorStatus (err : JsError) : Nat :=
  if err.name == "MulterError" then
    if err.code == some "LIMIT_FILE_SIZE" then 413 else 400
  else if err.name == "CorsError" || jsIncludes err.message "CORS" then 403
  else if err.name == "MongoError" || err.name == "MongooseError" then 500
  else (err.statusCode.filter (fun n => n != 0)).getD 500

/-- The status set by `errorHandler` of `middleware/errorHandler.js`, lines 13-71. -/
def errorHandlerStatus (err : JsError) : Nat :=
  if err.name == "ValidationError" then 400
  else if err.name == "CastError" then 400
  else if err.name == "MulterError" then
    if err.code == some "LIMIT_FILE_SIZE" then 413 else 400
  else if err.name == "JsonWebTokenError" || err.name == "TokenExpiredError" then 401
  else (err.statusCode.filter (fun n => n != 0)).getD 500

/-- The route `router.post("/", verifyToken, upload.single("image"), ...)` for an
authenticated caller: an error of the upload middleware goes to the error middleware of
`app.js`, otherwise the handler of lines 59-69 answers. -/
def uploadRoute (file : Option UploadFile) : Nat :=
  match uploadSingle file with
  | .error err => appErrorStatus err
  | .ok none => 400
  | .ok (some _) => 200

/-! ## Authentication (`middleware/verifyToken.js`) -/

/-- The payload of a verified token (`jwt.sign({ _id: user._id }, ...)`). -/
structure TokenPayload where
  _id : ObjectId
  deriving DecidableEq, Repr

/-- The outcome of `jwt.verify(token, secret)`: the payload, or a throw that is a
`TokenExpiredError` or another error. -/
inductive Verification where
  | verified (payload : TokenPayload)
  | expired
  | invalid
  deriving DecidableEq, Repr

/-- What the middleware does with a request: it responds, or it sets `req.user` and calls
`next`. -/
inductive AuthOutcome where
  | responded (status : Nat) (message : String)
  | next (user : TokenPayload)
  deriving DecidableEq, Repr

/-- The call `chars.split(sep)` on the characters of a text. -/
def splitChars (sep : Char) : List Char → List (List Char)
  | [] => [[]]
  | ch :: rest =>
    if ch == sep then [] :: splitChars sep rest
    else
      match splitChars sep rest with
      | [] => [[ch]]
      | word :: words => (ch :: word) :: words

/-- The expression `authHeader.split(" ")[1]` for a header that starts with `Bearer `. -/
def bearerToken (authHeader : String) : String :=
  String.mk ((splitChars ' ' authHeader.data).getD 1 [])

/-- The test `authHeader.startsWith("Bearer ")`. -/
def hasBearerFormat (authHeader : String) : Bool :=
  "Bearer ".data.isPrefixOf authHeader.data

/-- The middleware `verifyToken`.  `authHeader` is `req.header("Authorization")`, absent or
text; `verify` stands for `jwt.verify` with the server secret. -/
def verifyToken (verify : String → Verification) (authHeader : Option String) : AuthOutcome :=
  match authHeader with
  | none => .responded 401 "Access denied. No token provided."
  | some authHeader =>
    if authHeader == "" then .responded 401 "Access denied. No token provided."
    else if !hasBearerFormat authHeader then
      .responded 401 "Invalid token format. Use \"Bearer [token]\""
    else
      match verify (bearerToken authHeader) with
      | .verified payload => .next payload
      | .expired => .responded 401 "Token expired. Please login again."
      | .invalid => .responded 401 "Invalid token."

/-- A sample verifier for the runs below: it accepts the token `good` as issued to `u`,
reports `old` as expired and refuses everything else. -/
def sampleVerify (token : String) : Verification :=
  if token == "good" then .verified { _id := "u" }
  else if token == "old" then .expired
  else .invalid

/-! ## Update and delete (`contentRoutes.js`, `PATCH /:contentId` and `DELETE /:contentId`) -/

/-- The body field `extraFields` of an update request: `absent` when the field is missing
or falsy, `unparsable` when it is text on which `JSON.parse` throws, and otherwise the own
enumerable properties of the value, in order, which is what the spread copies. -/
inductive ExtraFieldsParam where
  | absent
  | unparsable
  | parsed (fields : List (String × String))
  deriving DecidableEq, Repr

/-- The keys an update request carries in `extraFields`. -/
def ExtraFieldsParam.keys : ExtraFieldsParam → List String
  | .parsed fields => fields.map (fun kv => kv.1)
  | _ => []

/-- What the update handler reads from a request: the body fields `title`, `visibility`
and `extraFields`, and the file name multer stored for the part `image`. -/
structure PatchRequest where
  title : Option String := none
  visibility : Option String := none
  file : Option String := none
  extraFields : ExtraFieldsParam := .absent
  deriving DecidableEq, Repr

/-- The value of the `visibility` enum that a text names; `none` for any other text, which
the enum validator of `save()` refuses. -/
def Visibility.ofString (text : String) : Option Visibility :=
  if text == "Public" then some .Public
  else if text == "Connections" then some .Connections
  else if text == "Private" then some .Private
  else none

/-- The object `{ ...fields, ...updates }`. -/
def mergeFields (fields updates : List (String × String)) : List (String × String) :=
  updates.foldl (fun merged kv => setField kv.1 kv.2 merged) fields

/-- Line 221, `if (req.body.title) content.title = req.body.title`: the title after the
assignment. -/
def patchTitle (request : PatchRequest) (content : Content) : String :=
  match request.title with
  | some title => if title == "" then content.title else title
  | none => content.title

/-- Line 222, `if (req.body.visibility) content.visibility = req.body.visibility`: the
visibility after the assignment, `none` when the text is outside the enum, which the
validation run by `save()` refuses. -/
def patchVisibility (request : PatchRequest) (content : Content) : Option Visibility :=
  match request.visibility with
  | some text => if text == "" then some content.visibility else Visibility.ofString text
  | none => some content.visibility

/-- Lines 225-227, `if (req.file) content.image = ...`: the image after the assignment. -/
def patchImage (request : PatchRequest) (content : Content) : String :=
  match request.file with
  | some filename => "/uploads/" ++ filename
  | none => content.image

/-- Lines 230-235: the extra fields after the merge, `none` when `JSON.parse` throws. -/
def patchExtraFields (request : PatchRequest) (content : Content) :
    Option (List (String × String)) :=
  match request.extraFields with
  | .absent => some content.extraFields
  | .unparsable => none
  | .parsed fields => some (mergeFields content.extraFields fields)

/-- Lines 220-238 of the update handler on the fetched document: the assignments guarded by
the truthiness of the request fields.  The result is `none` when `JSON.parse` throws or
when the validation run by `save()` refuses the `visibility` text. -/
def applyPatch (request : PatchRequest) (content : Content) : Option Content :=
  match patchExtraFields request content, patchVisibility request content with
  | some extraFields, some visibility =>
    some { content with
      title := patchTitle request content
      visibility := visibility
      image := patchImage request content
      extraFields := extraFields }
  | _, _ => none

/-- The handler `router.patch("/:contentId")`. -/
def updateContent (now : Nat) (db : List Content) (contentId : IdParam)
    (request : PatchRequest) (user : ObjectId) : Result :=
  match findById db contentId with
  | none => { status := 500, message := none, db := db }
  | some none => { status := 404, message := some "Content not found", db := db }
  | some (some content) =>
    if content.userId != user then
      { status := 403, message := some "Unauthorized to update this content", db := db }
    else
      match applyPatch request content with
      | none => { status := 500, message := none, db := db }
      | some content =>
        { status := 200
          message := some "Content updated"
          body := .content (preSave now content)
          db := save now db content }

/-- The handler `router.delete("/:contentId")`; `content.deleteOne()` removes the document
stored under the id of the fetched one. -/
def deleteContent (db : List Content) (contentId : IdParam) (user : ObjectId) : Result :=
  match findById db contentId with
  | none => { status := 500, message := none, db := db }
  | some none => { status := 404, message := some "Content not found", db := db }
  | some (some content) =>
    if content.userId != user then
      { status := 403, message := some "Unauthorized to delete this content", db := db }
    else
      { status := 200
        message := some "Content deleted successfully"
        db := db.eraseP (fun d => d._id == content._id) }

/-! ## Profile update (`userRoutes.js`, `PUT /profile`) -/

/-- The parsed JSON object `req.body`, as its properties. -/
abbrev RequestBody := List (String × BodyValue)

/-- The expression `req.body[key]`: `none` stands for `undefined`. -/
def bodyField (body : RequestBody) (key : String) : Option BodyValue :=
  (body.find? (fun kv => kv.1 == key)).map (fun kv => kv.2)

/-- The truthiness of a JSON value; arrays and objects are truthy. -/
def BodyValue.truthy : BodyValue → Bool
  | .null => false
  | .bool b => b
  | .number n => n != 0
  | .text s => s != ""
  | .composite _ => true

/-- The truthiness of `req.body[key]`. -/
def bodyTruthy (body : RequestBody) (key : String) : Bool :=
  match bodyField body key with
  | some value => value.truthy
  | none => false

/-- The keys of the object literal `updates` of lines 76-88 that are read from the body. -/
def profileFields : List String :=
  ["fullName", "bio", "profileImage", "skills", "areaOfExpertise", "education",
   "experience", "favoriteLanguages", "github", "linkedin", "portfolio"]

/-- The object `updates` after lines 76-108: the listed body fields and the date, without
the keys whose value is `undefined`, and after the two `delete` statements. -/
def profileUpdates (now : Nat) (body : RequestBody) : List (String × BodyValue) :=
  let updates := profileFields.filterMap (fun key =>
    (bodyField body key).map (fun value => (key, value)))
  let updates := updates ++ [("updatedAt", BodyValue.number now)]
  let updates :=
    if bodyTruthy body "email" then updates.filter (fun kv => kv.1 != "email") else updates
  if bodyTruthy body "username" then updates.filter (fun kv => kv.1 != "username")
  else updates

/-- The `errors` array of lines 111-118; `isValidUrl` is the helper of that name, which
asks the URL parser of the platform. -/
def urlErrors (isValidUrl : BodyValue → Bool) (updates : List (String × BodyValue)) :
    List String :=
  ["github", "linkedin", "portfolio"].filterMap (fun field =>
    match bodyField updates field with
    | some value =>
      if value.truthy && !isValidUrl value then some ("Invalid URL format for " ++ field)
      else none
    | none => none)

/-- The `length` of a JS string: its number of UTF-16 code units. -/
def utf16Length (s : String) : Nat :=
  (s.data.map (fun ch => if ch.val ≥ 0x10000 then 2 else 1)).sum

/-- The three ways lines 121-132 end. -/
inductive ImageCheck where
  | passes
  | tooLarge
  | throws
  deriving DecidableEq, Repr

/-- Lines 121-132: the size check on a data URL.  A truthy `profileImage` that is no text
has no method `startsWith`, so the call throws.  `length * 3/4 > 5 * 1024 * 1024` is
compared without the division. -/
def imageCheck (updates : List (String × BodyValue)) : ImageCheck :=
  match bodyField updates "profileImage" with
  | none => .passes
  | some (.text image) =>
    if image != "" && "data:image".data.isPrefixOf image.data then
      if utf16Length image * 3 > 4 * (5 * 1024 * 1024) then .tooLarge else .passes
    else .passes
  | some value => if value.truthy then .throws else .passes

/-- The errors the `catch` of the handler tells apart by `err.name`. -/
inductive UpdateError where
  | validation
  | cast
  | other
  deriving DecidableEq, Repr

/-- The outcome of casting and validating one value. -/
inductive CastResult (α : Type) where
  | refused (error : UpdateError)
  | accepted (value : α)
  deriving DecidableEq, Repr

/-- The casting and validation that `findByIdAndUpdate` runs on the `$set` document with
`runValidators: true`, path by path; `cast` is what the schema does with one path. -/
def castUpdates (cast : String → BodyValue → CastResult BodyValue) :
    List (String × BodyValue) → CastResult (List (String × BodyValue))
  | [] => .accepted []
  | kv :: rest =>
    match cast kv.1 kv.2 with
    | .refused error => .refused error
    | .accepted value =>
      match castUpdates cast rest with
      | .refused error => .refused error
      | .accepted values => .accepted ((kv.1, value) :: values)

/-- The text a String path holds for a cast value; a path without text counts as empty. -/
def BodyValue.asText : BodyValue → String
  | .text s => s
  | _ => ""

/-- The paths of `userSchema` that are kept in `User.profile`. -/
def profilePaths : List String :=
  ["bio", "skills", "education", "experience", "favoriteLanguages", "github", "linkedin",
   "portfolio", "createdAt", "updatedAt"]

/-- The object `{ ...fields, key: value }` on a bag of JSON values. -/
def setValue (key : String) (value : BodyValue) :
    List (String × BodyValue) → List (String × BodyValue)
  | [] => [(key, value)]
  | kv :: rest =>
    if kv.1 == key then (kv.1, value) :: rest else kv :: setValue key value rest

/-- One entry `key: value` of a `$set` document applied to a user.  The id is immutable; a
key that is no path of the schema is dropped (strict mode), and the arrays of ids
(`connections`, `following`, `posts`, `projects`) are not written through this function. -/
def setPath (key : String) (value : BodyValue) (user : User) : User :=
  if key == "username" then { user with username := value.asText }
  else if key == "fullName" then { user with fullName := value.asText }
  else if key == "email" then { user with email := value.asText }
  else if key == "password" then { user with password := value.asText }
  else if key == "profileImage" then { user with profileImage := value.asText }
  else if key == "areaOfExpertise" then { user with areaOfExpertise := value.asText }
  else if profilePaths.contains key then
    { user with profile := setValue key value user.profile }
  else user

/-- The update `{ $set: values }` on one user. -/
def applySet (values : List (String × BodyValue)) (user : User) : User :=
  values.foldl (fun updated kv => setPath kv.1 kv.2 updated) user

/-- The effect of `findByIdAndUpdate(id, { $set: values })` on the collection: the first
user with that id is rewritten. -/
def updateFirstUser (id : ObjectId) (values : List (String × BodyValue)) :
    List User → List User
  | [] => []
  | u :: rest =>
    if u._id == id then applySet values u :: rest
    else u :: updateFirstUser id values rest

/-- What the profile handler leaves behind: the response, the `$set` document that was
written (empty when no write happened) and the `User` collection. -/
structure ProfileResult where
  status : Nat
  message : Option String
  errors : List String := []
  written : List (String × BodyValue) := []
  body : Option User := none
  users : List User
  deriving DecidableEq, Repr

/-- The handler `router.put('/profile')` for the caller `user` of a verified token.  The
message of the size refusal contains the computed size and is left out; the document of
the response is the updated user without its `password`. -/
def updateProfile (isValidUrl : BodyValue → Bool)
    (cast : String → BodyValue → CastResult BodyValue) (now : Nat) (users : List User)
    (body : RequestBody) (user : ObjectId) : ProfileResult :=
  let updates := profileUpdates now body
  let errors := urlErrors isValidUrl updates
  match imageCheck updates with
  | .throws => { status := 500, message := some "Server error", users := users }
  | .tooLarge => { status := 400, message := none, users := users }
  | .passes =>
    if errors.length > 0 then
      { status := 400, message := some "Validation error", errors := errors, users := users }
    else
      match castUpdates cast updates with
      | .refused .validation =>
        { status := 400, message := some "Validation error", users := users }
      | .refused .cast => { status := 400, message := some "Invalid data format", users := users }
      | .refused .other => { status := 500, message := some "Server error", users := users }
      | .accepted values =>
        match findUserById users user with
        | none => { status := 404, message := some "User not found", users := users }
        | some found =>
          { status := 200
            message := none
            written := values
            body := some { applySet values found with password := "" }
            users := updateFirstUser user values users }

/-- A sample URL check for the runs below: text that starts with `https://`. -/
def sampleIsValidUrl : BodyValue → Bool
  | .text s => "https://".data.isPrefixOf s.data
  | _ => false

/-- A sample schema for the runs below: text is accepted on every path and trimmed,
anything else is refused with a cast error, but for the date. -/
def sampleCast (key : String) : BodyValue → CastResult BodyValue
  | .text s => .accepted (.text (jsTrim s))
  | .number n => if key == "updatedAt" then .accepted (.number n) else .refused .cast
  | _ => .refused .cast

/-! ## Routing (`app.js`, `routes/index.js`, `routes/content/index.js` and the routers) -/

/-- The HTTP methods the routers register. -/
inductive Method where
  | GET | POST | PUT | PATCH | DELETE
  deriving DecidableEq, Repr

/-- One segment of a route path: fixed text, or a named parameter such as `:contentId`. -/
inductive Segment where
  | literal (text : String)
  | param (name : String)
  deriving DecidableEq, Repr

/-- The final handlers of the registered routes, one per `router.METHOD` call. -/
inductive Handler where
  | register | login | allUsers | firebaseToken | searchUsers
  | savedContents | repostedContents | comment | save | repost | likeDislike
  | questionTags | unanswered | trending | answer | acceptAnswer | voteAnswer
  | listContents | listUserContents | createContent | bulkCreate | contentsByType
  | getContentById | updateContent | deleteContent
  | ownProfile | updateProfile | publicProfile | userById | follow | unfollow
  | following | followingOf | followersOf | profileImage
  | search | upload | uploadMultiple
  | cvByUser | cvAll | cvPdf | cvPublic | cvPublicOfUser | cvMakePublic | cvMakePrivate
  | cvSetDefault | cvImage | cvUpdate | cvDuplicate | cvSync | cvCreate | cvDelete
  | cvList | cvGet
  deriving DecidableEq, Repr

/-- A registered route: method, path, whether `verifyToken` stands before the handler, and
the handler. -/
structure Route where
  method : Method
  pattern : List Segment
  auth : Bool
  handler : Handler
  deriving DecidableEq, Repr

/-- The lower-case form of a path segment: routers compare fixed text without regard to
case (`caseSensitive` is off by default). -/
def lowerSegment (s : String) : String :=
  String.mk (s.data.map Char.toLower)

/-- The match of a route path against the segments of a request path, with the captured
parameters: fixed text must agree, a parameter takes one non-empty segment, and the whole
path must be used up. -/
def matchSegments : List Segment → List String → Option (List (String × String))
  | [], [] => some []
  | .literal text :: pattern, segment :: path =>
    if text == lowerSegment segment then matchSegments pattern path else none
  | .param name :: pattern, segment :: path =>
    if segment == "" then none
    else (matchSegments pattern path).map (fun params => (name, segment) :: params)
  | _, _ => none

/-- The call `router.use(path, sub)`: the routes of `sub` under the mount path.  A request
that no route of `sub` takes falls through to the layers registered next. -/
def mount (path : List Segment) (sub : List Route) : List Route :=
  sub.map (fun route => { route with pattern := path ++ route.pattern })

/-- The router of `routes/auth/authRoutes.js`. -/
def authRoutes : List Route :=
  [ { method := .POST, pattern := [.literal "register"], auth := false, handler := .register },
    { method := .POST, pattern := [.literal "login"], auth := false, handler := .login },
    { method := .GET, pattern := [.literal "all"], auth := false, handler := .allUsers },
    { method := .GET, pattern := [.literal "firebase-token"], auth := true,
      handler := .firebaseToken },
    { method := .GET, pattern := [.literal "search"], auth := false, handler := .searchUsers } ]

/-- The router of `routes/content/interactionRoutes.js`. -/
def interactionRoutes : List Route :=
  [ { method := .GET, pattern := [.literal "saved"], auth := true, handler := .savedContents },
    { method := .GET, pattern := [.literal "reposted"], auth := true,
      handler := .repostedContents },
    { method := .POST, pattern := [.param "contentId", .literal "comment"], auth := true,
      handler := .comment },
    { method := .POST, pattern := [.param "contentId", .literal "save"], auth := true,
      handler := .save },
    { method := .POST, pattern := [.param "contentId", .literal "repost"], auth := true,
      handler := .repost },
    { method := .POST, pattern := [.param "contentId", .param "action"], auth := true,
      handler := .likeDislike } ]

/-- The router of `routes/content/questionRoutes.js`. -/
def questionRoutes : List Route :=
  [ { method := .GET, pattern := [.literal "tags"], auth := true, handler := .questionTags },
    { method := .GET, pattern := [.literal "questions", .literal "unanswered"], auth := true,
      handler := .unanswered },
    { method := .GET, pattern := [.literal "questions", .literal "trending"], auth := true,
      handler := .trending },
    { method := .POST, pattern := [.param "contentId", .literal "answer"], auth := true,
      handler := .answer },
    { method := .POST, pattern := [.param "contentId", .literal "accept-answer"], auth := true,
      handler := .acceptAnswer },
    { method := .POST, pattern := [.param "contentId", .literal "vote-answer"], auth := true,
      handler := .voteAnswer } ]

/-- The router of `routes/content/contentRoutes.js`. -/
def contentRoutes : List Route :=
  [ { method := .GET, pattern := [], auth := true, handler := .listContents },
    { method := .GET, pattern := [.literal "user", .param "userId"], auth := true,
      handler := .listUserContents },
    { method := .POST, pattern := [], auth := true, handler := .createContent },
    { method := .POST, pattern := [.literal "bulk"], auth := true, handler := .bulkCreate },
    { method := .GET, pattern := [.literal "type", .param "contentType"], auth := true,
      handler := .contentsByType },
    { method := .GET, pattern := [.param "contentId"], auth := true,
      handler := .getContentById },
    { method := .PATCH, pattern := [.param "contentId"], auth := true,
      handler := .updateContent },
    { method := .DELETE, pattern := [.param "contentId"], auth := true,
      handler := .deleteContent } ]

/-- The router of `routes/content/index.js`: the interaction routes, the question routes
under `/questions`, the content routes, and the interaction routes once more behind a
logging middleware that calls `next()`. -/
def contentIndex : List Route :=
  mount [] interactionRoutes ++ mount [.literal "questions"] questionRoutes ++
    mount [] contentRoutes ++ mount [] interactionRoutes

/-- The router of `routes/user/userRoutes.js`, in the order of the file. -/
def userRoutes : List Route :=
  [ { method := .GET, pattern := [.literal "profile"], auth := true, handler := .ownProfile },
    { method := .PUT, pattern := [.literal "profile"], auth := true,
      handler := .updateProfile },
    { method := .GET, pattern := [.literal "profile", .param "userId"], auth := false,
      handler := .publicProfile },
    { method := .GET, pattern := [.param "id"], auth := true, handler := .userById },
    { method := .POST, pattern := [.literal "follow", .param "userId"], auth := true,
      handler := .follow },
    { method := .POST, pattern := [.literal "unfollow", .param "userId"], auth := true,
      handler := .unfollow },
    { method := .GET, pattern := [.literal "following"], auth := true, handler := .following },
    { method := .GET, pattern := [.literal "following", .param "userId"], auth := true,
      handler := .followingOf },
    { method := .GET, pattern := [.literal "followers", .param "userId"], auth := true,
      handler := .followersOf },
    { method := .POST, pattern := [.literal "profile", .literal "image"], auth := true,
      handler := .profileImage } ]

/-- The router of `routes/search/searchRoutes.js`. -/
def searchRoutes : List Route :=
  [ { method := .GET, pattern := [], auth := false, handler := .search } ]

/-- The router of `routes/upload/uploadRoutes.js`. -/
def uploadRoutes : List Route :=
  [ { method := .POST, pattern := [], auth := true, handler := .upload },
    { method := .POST, pattern := [.literal "multiple"], auth := true,
      handler := .uploadMultiple } ]

/-- The router of `routes/cv/cvRoutes.js`, in the order of the file. -/
def cvRoutes : List Route :=
  [ { method := .GET, pattern := [.literal "search", .literal "by-user", .param "userId"],
      auth := false, handler := .cvByUser },
    { method := .GET, pattern := [.literal "all"], auth := true, handler := .cvAll },
    { method := .GET, pattern := [.param "id", .literal "pdf"], auth := true,
      handler := .cvPdf },
    { method := .GET, pattern := [.literal "public", .param "id"], auth := false,
      handler := .cvPublic },
    { method := .GET, pattern := [.literal "user", .param "userId"], auth := false,
      handler := .cvPublicOfUser },
    { method := .PUT, pattern := [.literal "public", .param "id"], auth := true,
      handler := .cvMakePublic },
    { method := .PUT, pattern := [.literal "private", .param "id"], auth := true,
      handler := .cvMakePrivate },
    { method := .PUT, pattern := [.literal "default", .param "id"], auth := true,
      handler := .cvSetDefault },
    { method := .PUT, pattern := [.param "id", .literal "image"], auth := true,
      handler := .cvImage },
    { method := .PUT, pattern := [.param "id"], auth := true, handler := .cvUpdate },
    { method := .POST, pattern := [.literal "duplicate", .param "id"], auth := true,
      handler := .cvDuplicate },
    { method := .POST, pattern := [.literal "sync"], auth := true, handler := .cvSync },
    { method := .POST, pattern := [], auth := true, handler := .cvCreate },
    { method := .DELETE, pattern := [.param "id"], auth := true, handler := .cvDelete },
    { method := .GET, pattern := [], auth := true, handler := .cvList },
    { method := .GET, pattern := [.param "id"], auth := true, handler := .cvGet } ]

/-- The router of `routes/index.js`. -/
def apiRoutes : List Route :=
  mount [.literal "user"] authRoutes ++ mount [.literal "contents"] contentIndex ++
    mount [.literal "user"] userRoutes ++ mount [.literal "search"] searchRoutes ++
    mount [.literal "uploads"] uploadRoutes ++ mount [.literal "cv-profile"] cvRoutes

/-- The routes of the application: `app.use("/api", routes)`. -/
def app : List Route :=
  mount [.literal "api"] apiRoutes

/-- The route that takes a request, with the captured parameters: the first registered
route of the request's method whose path matches. -/
def dispatch (routes : List Route) (method : Method) (path : List String) :
    Option (Route × List (String × String)) :=
  routes.findSome? (fun route =>
    if route.method == method then
      (matchSegments route.pattern path).map (fun params => (route, params))
    else none)

/-- What becomes of a request: no route takes it, `verifyToken` answers it, or a handler
runs with the captured parameters and, behind `verifyToken`, the token's payload. -/
inductive Served where
  | notFound
  | refused (status : Nat) (message : String)
  | handled (handler : Handler) (params : List (String × String))
      (user : Option TokenPayload)
  deriving DecidableEq, Repr

/-- The way of a request through the application: the segments of its path are matched
against the routes in the order of registration, and the middleware chain of the first
match runs. -/
def serve (verify : String → Verification) (authHeader : Option String) (method : Method)
    (path : List String) : Served :=
  match dispatch app method path with
  | none => .notFound
  | some (route, params) =>
    if route.auth then
      match verifyToken verify authHeader with
      | .responded status message => .refused status message
      | .next user => .handled route.handler params (some user)
    else .handled route.handler params none

/-! ## User lookups (`userRoutes.js`, `GET /:id` and `GET /following`) -/

/-- A hexadecimal digit. -/
def isHexDigit (ch : Char) : Bool :=
  ch.isDigit || ('a' ≤ ch && ch ≤ 'f') || ('A' ≤ ch && ch ≤ 'F')

/-- The cast of a path parameter to an ObjectId, as `findById` runs it: 24 hexadecimal
digits name an id, whose text is their lower-case form; other text raises a CastError.
(Some driver versions also take a text of exactly 12 bytes; none occurs below.) -/
def castObjectId (text : String) : IdParam :=
  if text.data.length == 24 && text.data.all isHexDigit then .wellFormed (lowerSegment text)
  else .malformed

/-- The fields `populate("connections", "username fullName profileImage")` keeps of a
connected user. -/
structure ConnectionSummary where
  _id : ObjectId
  username : String
  fullName : String
  profileImage : String
  deriving DecidableEq, Repr

/-- The response of a user lookup. -/
structure UserResult where
  status : Nat
  message : Option String := none
  user : Option User := none
  connections : Option (List ConnectionSummary) := none
  deriving DecidableEq, Repr

/-- The handler `router.get("/:id")`: the profile of the user named in the path, without
the password.  A parameter that is no ObjectId makes `User.findById` throw, and the
`catch` answers. -/
def getUserById (users : List User) (id : String) : UserResult :=
  match castObjectId id with
  | .malformed => { status := 500, message := some "Failed to fetch user profile" }
  | .wellFormed userId =>
    match findUserById users userId with
    | none => { status := 404, message := some "User not found" }
    | some user => { status := 200, user := some { user with password := "" } }

/-- The handler `router.get("/following")`: the connections of the caller, populated;
`populate` leaves out ids that name no user. -/
def getFollowing (users : List User) (caller : ObjectId) : UserResult :=
  match findUserById users caller with
  | none => { status := 404, message := some "User not found" }
  | some user =>
    { status := 200
      connections := some (user.connections.filterMap (fun id =>
        (findUserById users id).map (fun peer =>
          { _id := peer._id, username := peer.username, fullName := peer.fullName,
            profileImage := peer.profileImage }))) }

/-- The value of a captured path parameter. -/
def pathParam (params : List (String × String)) (name : String) : String :=
  ((params.find? (fun kv => kv.1 == name)).map (fun kv => kv.2)).getD ""

/-- The response to a request that one of the two user lookups takes; `none` for any other
way the request went. -/
def userLookupResponse (users : List User) : Served → Option UserResult
  | .handled .userById params _ => some (getUserById users (pathParam params "id"))
  | .handled .following _ (some caller) => some (getFollowing users caller._id)
  | _ => none

/-! ## CV profiles (`models/CVProfile.js`, `routes/cv/cvRoutes.js`) -/

/-- A document of the `CVProfile` collection as the database holds it: the id and the
values of its fields by name. -/
structure CVProfile where
  _id : ObjectId
  fields : List (String × BodyValue) := []
  deriving DecidableEq, Repr

/-- The top-level paths that `CVProfileSchema` declares, with the two that
`timestamps: true` adds.  The schema declares no path `isDefault`. -/
def cvSchemaPaths : List String :=
  ["userId", "title", "fullName", "profileImage", "isPublic", "headline", "summary",
   "contact", "workExperience", "education", "skills", "languages", "certifications",
   "projects", "publications", "customSections", "theme", "displayOptions", "lastUpdated",
   "createdAt", "updatedAt"]

/-- The stored value of a field. -/
def CVProfile.get (doc : CVProfile) (path : String) : Option BodyValue :=
  bodyField doc.fields path

/-- The filter `{ userId: userId }` on one document. -/
def CVProfile.ownedBy (doc : CVProfile) (userId : ObjectId) : Bool :=
  doc.get "userId" == some (.text userId)

/-- The truthiness of the stored `isPublic`. -/
def CVProfile.isPublic (doc : CVProfile) : Bool :=
  match doc.get "isPublic" with
  | some value => value.truthy
  | none => false

/-- The filter `{ isDefault: true }` on one document. -/
def CVProfile.isDefault (doc : CVProfile) : Bool :=
  doc.get "isDefault" == some (.bool true)

/-- The count `CVProfile.countDocuments({ userId })`. -/
def countOwned (db : List CVProfile) (userId : ObjectId) : Nat :=
  db.countP (fun doc => doc.ownedBy userId)

/-- Strict mode, which is on unless a schema turns it off: of an object handed to the
constructor or to an update, only the keys that are paths of the schema are kept.
`paths` is the list of declared paths. -/
def strictFields (paths : List String) (object : List (String × BodyValue)) :
    List (String × BodyValue) :=
  object.filter (fun kv => paths.contains kv.1)

/-- The object `{ ...fields, ...values }` on bags of JSON values. -/
def applyValues (values fields : List (String × BodyValue)) : List (String × BodyValue) :=
  values.foldl (fun merged kv => setValue kv.1 kv.2 merged) fields

/-- The defaults of the scalar top-level paths.  Nested and array paths take their
defaults inside their value, which no handler below reads. -/
def cvDefaults (now : Nat) : List (String × BodyValue) :=
  [("title", .text "My CV"), ("profileImage", .text ""), ("isPublic", .bool false),
   ("lastUpdated", .number now)]

/-- The id of a document built from `object`: the cast of the key `_id` when the object
has one, the generated `newId` otherwise. -/
def documentId (newId : ObjectId) (object : List (String × BodyValue)) : CastResult ObjectId :=
  match bodyField object "_id" with
  | none => .accepted newId
  | some (.text text) =>
    match castObjectId text with
    | .wellFormed id => .accepted id
    | .malformed => .refused .cast
  | some _ => .refused .cast

/-- The document `new CVProfile(object)` as its `save()` validates it: the keys that are
no paths are dropped, the values are cast and validated path by path (`cast`), defaults
fill the paths the object leaves out, and the time stamps are set. -/
def newCVProfile (paths : List String) (cast : String → BodyValue → CastResult BodyValue)
    (now : Nat) (newId : ObjectId) (object : List (String × BodyValue)) :
    CastResult CVProfile :=
  match documentId newId object with
  | .refused error => .refused error
  | .accepted id =>
    match castUpdates cast (strictFields paths object) with
    | .refused error => .refused error
    | .accepted values =>
      .accepted
        { _id := id
          fields := applyValues
            (values ++ [("createdAt", .number now), ("updatedAt", .number now)])
            (cvDefaults now) }

/-- The call `updateMany(filter, { $set: update })`: strict mode applies to the update as
well, and `timestamps: true` adds `updatedAt`. -/
def cvUpdateMany (paths : List String) (now : Nat) (selects : CVProfile → Bool)
    (update : List (String × BodyValue)) (db : List CVProfile) : List CVProfile :=
  db.map (fun doc =>
    if selects doc then
      { doc with
        fields := applyValues (strictFields paths update ++ [("updatedAt", .number now)])
          doc.fields }
    else doc)

/-- The `pre('save')` hook of `CVProfileSchema`.  `thisIsDefault` is the truthiness of
`this.isDefault` on the document being saved. -/
def cvPreSave (paths : List String) (now : Nat) (thisIsDefault : Bool) (doc : CVProfile)
    (db : List CVProfile) : List CVProfile :=
  if thisIsDefault then
    cvUpdateMany paths now
      (fun other => other.get "userId" == doc.get "userId" && other._id != doc._id)
      [("isDefault", .bool false)] db
  else db

/-- The value `doc[key]` reads on a document that the constructor or a query built: a
path of the schema has an accessor; any other key has none and reads `undefined`. -/
def readProperty (paths : List String) (doc : CVProfile) (key : String) : Option BodyValue :=
  if paths.contains key then doc.get key else none

/-- The truthiness of `doc[key]`. -/
def propertyTruthy (paths : List String) (doc : CVProfile) (key : String) : Bool :=
  match readProperty paths doc key with
  | some value => value.truthy
  | none => false

/-- What a CV handler leaves behind: the response and the `CVProfile` collection. -/
structure CvResult where
  status : Nat
  message : Option String := none
  profile : Option CVProfile := none
  owner : Option User := none
  db : List CVProfile
  deriving DecidableEq, Repr

/-- The lines `new CVProfile(object)` and `save()` of the create and duplicate handlers: a
refused document and a duplicate `_id` reach the `catch`. -/
def insertCv (paths : List String) (cast : String → BodyValue → CastResult BodyValue)
    (now : Nat) (newId : ObjectId) (object : List (String × BodyValue))
    (db : List CVProfile) : CvResult :=
  match newCVProfile paths cast now newId object with
  | .refused _ => { status := 500, message := some "Server Error", db := db }
  | .accepted doc =>
    if db.any (fun other => other._id == doc._id) then
      { status := 500, message := some "Server Error", db := db }
    else
      let db := cvPreSave paths now (propertyTruthy paths doc "isDefault") doc db
      { status := 200, profile := some doc, db := db ++ [doc] }

/-- The message of the two handlers that count the caller's profiles. -/
def cvLimitMessage : String :=
  "Maximum number of CV profiles reached (5). Please delete an existing CV to create a new one."

/-- The handler `router.post('/')`.  The object handed to the constructor lists `userId`,
`fullName`, `title` and `isDefault` and then spreads `req.body` over them.  A caller
without a user record makes `user.fullName` throw. -/
def createCv (paths : List String) (cast : String → BodyValue → CastResult BodyValue)
    (now : Nat) (newId : ObjectId) (users : List User) (db : List CVProfile)
    (body : RequestBody) (caller : ObjectId) : CvResult :=
  let cvCount := countOwned db caller
  if cvCount ≥ 5 then { status := 400, message := some cvLimitMessage, db := db }
  else
    match findUserById users caller with
    | none => { status := 500, message := some "Server Error", db := db }
    | some user =>
      let title :=
        match bodyField body "title" with
        | some value => if value.truthy then value else .text ("CV " ++ toString (cvCount + 1))
        | none => .text ("CV " ++ toString (cvCount + 1))
      insertCv paths cast now newId
        (applyValues body
          [("userId", .text caller),
           ("fullName", .text (firstTruthy user.username [some user.fullName])),
           ("title", title),
           ("isDefault", .bool (cvCount == 0))])
        db

/-- The handler `router.post('/duplicate/:id')`. -/
def duplicateCv (paths : List String) (cast : String → BodyValue → CastResult BodyValue)
    (now : Nat) (newId : ObjectId) (db : List CVProfile) (id : String) (caller : ObjectId) :
    CvResult :=
  if countOwned db caller ≥ 5 then { status := 400, message := some cvLimitMessage, db := db }
  else
    match castObjectId id with
    | .malformed => { status := 500, message := some "Server Error", db := db }
    | .wellFormed id =>
      match db.find? (fun doc => doc._id == id && doc.ownedBy caller) with
      | none => { status := 404, message := some "CV profile not found", db := db }
      | some originalCV =>
        let duplicateData := originalCV.fields.filter (fun kv => kv.1 != "isDefault")
        let title :=
          match readProperty paths originalCV "title" with
          | some value => value.asText
          | none => "undefined"
        insertCv paths cast now newId
          (setValue "title" (.text (title ++ " (Copy)")) duplicateData) db

/-- The call `doc.save()` on a fetched document after assignments: the assigned values
that belong to paths of the schema are written, with `updatedAt`; assignments to other
keys only made properties of the object in memory. -/
def saveAssigned (paths : List String) (now : Nat) (id : ObjectId)
    (assigned : List (String × BodyValue)) (db : List CVProfile) : List CVProfile :=
  match strictFields paths assigned with
  | [] => db
  | modified =>
    db.map (fun doc =>
      if doc._id == id then
        { doc with fields := applyValues (modified ++ [("updatedAt", .number now)]) doc.fields }
      else doc)

/-- The handler `router.put('/default/:id')`: `cvProfile.isDefault = true` and `save()`.
After the assignment `this.isDefault` is true for the hook, whether or not the key is a
path. -/
def setDefaultCv (paths : List String) (now : Nat) (db : List CVProfile) (id : String)
    (caller : ObjectId) : CvResult :=
  match castObjectId id with
  | .malformed => { status := 500, message := some "Server Error", db := db }
  | .wellFormed id =>
    match db.find? (fun doc => doc._id == id && doc.ownedBy caller) with
    | none => { status := 404, message := some "CV profile not found", db := db }
    | some cvProfile =>
      let db := cvPreSave paths now true cvProfile db
      let db := saveAssigned paths now cvProfile._id [("isDefault", .bool true)] db
      { status := 200
        profile := db.find? (fun doc => doc._id == id && doc.ownedBy caller)
        db := db }

/-- The rewrite of the first document a filter selects. -/
def updateFirstCv (selects : CVProfile → Bool) (values : List (String × BodyValue)) :
    List CVProfile → List CVProfile
  | [] => []
  | doc :: rest =>
    if selects doc then { doc with fields := applyValues values doc.fields } :: rest
    else doc :: updateFirstCv selects values rest

/-- The handler `router.put('/:id')`: `findOneAndUpdate` with `req.body` as the update and
`runValidators: true`.  No `save` hook runs on this path. -/
def updateCv (paths : List String) (cast : String → BodyValue → CastResult BodyValue)
    (now : Nat) (db : List CVProfile) (id : String) (body : RequestBody)
    (caller : ObjectId) : CvResult :=
  match castObjectId id with
  | .malformed => { status := 500, message := some "Server Error", db := db }
  | .wellFormed id =>
    match castUpdates cast (strictFields paths body) with
    | .refused _ => { status := 500, message := some "Server Error", db := db }
    | .accepted values =>
      match db.find? (fun doc => doc._id == id && doc.ownedBy caller) with
      | none => { status := 404, message := some "CV profile not found", db := db }
      | some _ =>
        let db := updateFirstCv (fun doc => doc._id == id && doc.ownedBy caller)
          (values ++ [("updatedAt", .number now)]) db
        { status := 200
          profile := db.find? (fun doc => doc._id == id)
          db := db }

/-- The handler `router.get('/search/by-user/:userId')`, which stands behind no
`verifyToken`. -/
def cvByUser (db : List CVProfile) (userId : String) : CvResult :=
  match castObjectId userId with
  | .malformed => { status := 500, message := some "Server Error", db := db }
  | .wellFormed userId =>
    match db.find? (fun doc => doc.ownedBy userId) with
    | none => { status := 404, message := some "CV profile not found for this user", db := db }
    | some cvProfile => { status := 200, profile := some cvProfile, db := db }

/-- The handler `router.get('/public/:id')`; the response carries the owner's record as
`user`. -/
def cvPublic (users : List User) (db : List CVProfile) (id : String) : CvResult :=
  match castObjectId id with
  | .malformed => { status := 500, message := some "Server Error", db := db }
  | .wellFormed id =>
    match db.find? (fun doc => doc._id == id) with
    | none => { status := 404, message := some "Public CV not found", db := db }
    | some cvProfile =>
      if !cvProfile.isPublic then
        { status := 404, message := some "Public CV not found", db := db }
      else
        { status := 200
          profile := some cvProfile
          owner := match cvProfile.get "userId" with
            | some (.text owner) => findUserById users owner
            | _ => none
          db := db }

/-- The handler `router.get('/user/:userId')`. -/
def cvPublicOfUser (users : List User) (db : List CVProfile) (userId : String) : CvResult :=
  match castObjectId userId with
  | .malformed => { status := 500, message := some "Server Error", db := db }
  | .wellFormed userId =>
    match db.find? (fun doc => doc.ownedBy userId && doc.get "isPublic" == some (.bool true)) with
    | none => { status := 404, message := some "CV profile not found", db := db }
    | some cvProfile =>
      { status := 200
        profile := some cvProfile
        owner := findUserById users userId
        db := db }

/-- A sample schema for the runs below: `userId` takes the text of an ObjectId, the two
flags take booleans, every other path takes any value. -/
def sampleCvCast (key : String) (value : BodyValue) : CastResult BodyValue :=
  if key == "userId" then
    match value with
    | .text text =>
      match castObjectId text with
      | .wellFormed id => .accepted (.text id)
      | .malformed => .refused .cast
    | _ => .refused .validation
  else if key == "isPublic" || key == "isDefault" then
    match value with
    | .bool flag => .accepted (.bool flag)
    | _ => .refused .cast
  else .accepted value

/-! ## Invariants -/

/-- The like/dislike invariant of a content item: no user id occurs in both
`likes` and `dislikes`. -/
def LikesDislikesDisjoint (c : Content) : Prop :=
  ∀ x ∈ c.likes, x ∉ c.dislikes

instance (c : Content) : Decidable (LikesDislikesDisjoint c) := by
  unfold LikesDislikesDisjoint
  infer_instance

/-- The voting invariant of a content item: the `votedBy` of every answer holds at most
one entry per user id. -/
def VotedByUnique (c : Content) : Prop :=
  ∀ cm ∈ c.comments, cm.isAnswer = true → (cm.votedBy.map (fun v => v.userId)).Nodup

instance (c : Content) : Decidable (VotedByUnique c) := by
  unfold VotedByUnique
  infer_instance

/-- The number of `votedBy` entries with `voteType` up. -/
def upVotes (votedBy : List Vote) : Nat :=
  votedBy.countP (fun vote => vote.voteType == VoteType.up)

/-- The number of `votedBy` entries with `voteType` down. -/
def downVotes (votedBy : List Vote) : Nat :=
  votedBy.countP (fun vote => vote.voteType == VoteType.down)

/-- The vote-count invariant of an answer: `votes` is the number of up entries minus the
number of down entries of `votedBy`. -/
def VotesBalanced (answer : Comment) : Prop :=
  answer.votes = (upVotes answer.votedBy : Int) - (downVotes answer.votedBy : Int)

instance (answer : Comment) : Decidable (VotesBalanced answer) := by
  unfold VotesBalanced
  infer_instance

/-! ## Sample documents -/

/-- A post that user `u` has disliked and nobody has liked. -/
def dislikedPost : Content :=
  { _id := "c1", userId := "owner", contentType := .Post, dislikes := ["u"] }

/-- A post liked by `v` and disliked by `w`, untouched by `u`. -/
def mixedPost : Content :=
  { _id := "c2", userId := "owner", contentType := .Post, likes := ["v"], dislikes := ["w"] }

/-- An answer nobody has voted on. -/
def freshAnswer : Comment :=
  { userId := "b", username := "bob", text := "use a map", createdAt := 1, isAnswer := true }

/-- A comment that is not an answer. -/
def plainComment : Comment :=
  { userId := "a", username := "ann", text := "same problem here", createdAt := 2 }

/-- An answer that `u` has upvoted and `w` has downvoted. -/
def votedAnswer : Comment :=
  { userId := "d", username := "dan", text := "sort first", createdAt := 3, isAnswer := true,
    votedBy := [{ userId := "w", voteType := .down }, { userId := "u", voteType := .up }] }

/-- An accepted answer whose `votedBy` carries two entries of `u`: a down vote, then an
up vote. -/
def twiceVotedAnswer : Comment :=
  { userId := "e", username := "eve", text := "use a set", createdAt := 4, isAnswer := true,
    acceptedAnswer := true,
    votedBy := [{ userId := "u", voteType := .down }, { userId := "u", voteType := .up }] }

/-- A question of `owner` with the comments above at indices 0 to 3. -/
def sampleQuestion : Content :=
  { _id := "q1", userId := "owner", contentType := ContentType.Question,
    comments := [freshAnswer, plainComment, votedAnswer, twiceVotedAnswer] }

/-- A post of `owner` that carries one answer-flagged comment. -/
def commentedPost : Content :=
  { _id := "c3", userId := "owner", contentType := ContentType.Post, comments := [freshAnswer] }

/-- A private post of `owner` with one extra field, reposted by nobody. -/
def privatePost : Content :=
  { _id := "c4", userId := "owner", contentType := ContentType.Post, title := "Notes",
    visibility := .Private, extraFields := [("description", "weekly notes")] }

/-- A stored document of `u` that names `privatePost` as its original although `u` is not
in the reposts of that post. -/
def strayRepost : Content :=
  { _id := "c5", userId := "u", contentType := ContentType.Post, title := "Notes",
    originalContentId := some "c4" }

/-- The private post after `u` reposted it. -/
def repostedPost : Content :=
  { privatePost with reposts := ["u"] }

/-- The document that the repost of `privatePost` by `u` created. -/
def derivedRepost : Content :=
  makeRepost 7 "r1" "u" none privatePost

/-- Three posts, dated 1, 3 and 2. -/
def threePosts : List Content :=
  [{ _id := "a", userId := "owner", contentType := ContentType.Post, createdAt := 1 },
   { _id := "b", userId := "owner", contentType := ContentType.Post, createdAt := 3 },
   { _id := "c", userId := "other", contentType := ContentType.Post, createdAt := 2 }]

/-- Twenty-five posts of `owner`, with ids `a` to `y`. -/
def manyPosts : List Content :=
  (List.range 25).map (fun i =>
    { _id := String.singleton (Char.ofNat (97 + i)), userId := "owner",
      contentType := ContentType.Post, createdAt := i })

/-- A post stored with an empty root title whose title lives in the legacy field
`postTitle`. -/
def legacyPost : Content :=
  { _id := "c6", userId := "owner", contentType := ContentType.Post, title := "",
    extraFields := [("postTitle", "Lean tips"), ("tutorialTitle", "ignored")] }

/-- A PDF sent to the upload route. -/
def pdfFile : UploadFile :=
  { fieldname := "image", originalname := "cv.pdf", mimetype := "application/pdf",
    size := 2048 }

/-- An image of 6 000 000 bytes, above the 5 MB limit. -/
def hugeImage : UploadFile :=
  { fieldname := "image", originalname := "photo.png", mimetype := "image/png",
    size := 6000000 }

/-- The user record of `v`. -/
def sampleUser : User :=
  { _id := "v", username := "vera", fullName := "Vera Lin", email := "vera@example.org",
    password := "hash-of-secret" }

/-- A user who follows `v`. -/
def followerUser : User :=
  { _id := "u", username := "uma", email := "uma@example.org", password := "hash-of-other",
    connections := ["v"] }

/-- The id of the user `ann`. -/
def annId : ObjectId := "64b7f0c2a1d3e4f5a6b7c801"

/-- The id of the user `ben`. -/
def benId : ObjectId := "64b7f0c2a1d3e4f5a6b7c802"

/-- The user `ann`. -/
def ann : User := { _id := annId, username := "ann", fullName := "Ann Lee" }

/-- The user `ben`. -/
def ben : User := { _id := benId, username := "ben" }

/-- A private CV profile as the create handler stores it. -/
def sampleCv (id owner : ObjectId) (title : String) : CVProfile :=
  { _id := id
    fields := [("userId", .text owner), ("title", .text title), ("isPublic", .bool false)] }

/-- Five CV profiles of `ann`. -/
def fiveCvs : List CVProfile :=
  [sampleCv "74c8f0c2a1d3e4f5a6b7c801" annId "CV 1",
   sampleCv "74c8f0c2a1d3e4f5a6b7c802" annId "CV 2",
   sampleCv "74c8f0c2a1d3e4f5a6b7c803" annId "CV 3",
   sampleCv "74c8f0c2a1d3e4f5a6b7c804" annId "CV 4",
   sampleCv "74c8f0c2a1d3e4f5a6b7c805" annId "CV 5"]

/-- Two CV profiles of `ann`, neither marked as default. -/
def twoCvs : List CVProfile :=
  [sampleCv "74c8f0c2a1d3e4f5a6b7c801" annId "CV 1",
   sampleCv "74c8f0c2a1d3e4f5a6b7c802" annId "CV 2"]

/-- Two CV profiles of `ann` in a collection that stores `isDefault`: the first is the
default. -/
def twoCvsOneDefault : List CVProfile :=
  [{ _id := "74c8f0c2a1d3e4f5a6b7c801"
     fields := [("userId", .text annId), ("title", .text "CV 1"), ("isPublic", .bool false),
       ("isDefault", .bool true)] },
   { _id := "74c8f0c2a1d3e4f5a6b7c802"
     fields := [("userId", .text annId), ("title", .text "CV 2"), ("isPublic", .bool false),
       ("isDefault", .bool false)] }]

/-- An answer whose `votes` is `2 ^ 53`, the last whole number before the Number type
starts to skip values, and on which nobody is recorded as a voter. -/
def saturatedAnswer : Comment :=
  { userId := "w", text := "use a fold", createdAt := 3, isAnswer := true,
    votes := 9007199254740992 }

/-- A question of `owner` with that answer. -/
def saturatedQuestion : Content :=
  { _id := "q2", userId := "owner", contentType := ContentType.Question,
    comments := [saturatedAnswer] }

/-! ## Store lemmas -/

theorem find?_id_eq {db : List Content} {id : ObjectId} {c : Content}
    (h : db.find? (fun d => d._id == id) = some c) : c._id = id := by
  have := List.find?_some h
  simpa using this

theorem find?_map_id (f : Content → Content) (hf : ∀ d, (f d)._id = d._id)
    (db : List Content) (id : ObjectId) :
    (db.map f).find? (fun d => d._id == id) = (db.find? (fun d => d._id == id)).map f := by
  induction db with
  | nil => rfl
  | cons d ds ih =>
    simp only [List.map_cons, List.find?_cons, hf]
    cases hd : d._id == id
    · simpa using ih
    · simp

theorem findById_save (now : Nat) (db : List Content) (doc : Content) (id : ObjectId) :
    findById (save now db doc) (.wellFormed id) =
      some ((db.find? (fun d => d._id == id)).map
        (fun d => if d._id == doc._id then preSave now doc else d)) := by
  simp only [findById, save]
  rw [find?_map_id]
  intro d
  by_cases h : d._id = doc._id
  · simp [h, preSave]
  · simp [h]

theorem findById_save_same (now : Nat) (db : List Content) (doc c : Content) (id : ObjectId)
    (hfind : findById db (.wellFormed id) = some (some c)) (hid : doc._id = c._id) :
    findById (save now db doc) (.wellFormed id) = some (some (preSave now doc)) := by
  rw [findById_save]
  simp only [findById, Option.some.injEq] at hfind
  simp [hfind, hid]

/-- A property of documents that holds of a stored item keeps holding of the item
stored under the same id after `save`, when the saved document was fetched under its own
id and satisfies the property whenever the fetched one does. -/
theorem findById_save_keeps (P : Content → Prop) (now : Nat) (db : List Content)
    (doc t : Content) (tid : ObjectId)
    (ht : findById db (.wellFormed tid) = some (some t)) (hdoc : doc._id = t._id)
    (hP : P t → P (preSave now doc))
    (id : ObjectId) (c : Content)
    (hfind : findById db (.wellFormed id) = some (some c)) (hc : P c) :
    ∃ c1, findById (save now db doc) (.wellFormed id) = some (some c1) ∧ P c1 := by
  rw [findById_save]
  simp only [findById, Option.some.injEq] at hfind ht
  rw [hfind]
  by_cases hid : c._id = doc._id
  · refine ⟨preSave now doc, by simp [hid], hP ?_⟩
    have hct : c = t := by
      rw [hdoc, find?_id_eq hfind, find?_id_eq ht] at hid
      rw [hid, ht] at hfind
      exact (Option.some.inj hfind).symm
    exact hct ▸ hc
  · exact ⟨c, by simp [hid], hc⟩

/-! ## Like / dislike -/

theorem toggleLikeDislike_id (action : String) (U : ObjectId) (c : Content) :
    (toggleLikeDislike action U c)._id = c._id := by
  unfold toggleLikeDislike
  split_ifs <;> rfl

theorem likeDislike_found (now : Nat) (db : List Content) (id : ObjectId) (action : String)
    (U : ObjectId) (c : Content) (hact : action = "like" ∨ action = "dislike")
    (hfind : findById db (.wellFormed id) = some (some c)) :
    likeDislike now db (.wellFormed id) action U =
      { status := 200
        message := some ("Content " ++ action ++ " toggled successfully")
        body := .content (preSave now (toggleLikeDislike action U c))
        db := save now db (toggleLikeDislike action U c) } := by
  unfold likeDislike
  rcases hact with rfl | rfl <;> simp [hfind]

theorem likeDislike_found_db (now : Nat) (db : List Content) (id : ObjectId) (action : String)
    (U : ObjectId) (c : Content) (hact : action = "like" ∨ action = "dislike")
    (hfind : findById db (.wellFormed id) = some (some c)) :
    findById (likeDislike now db (.wellFormed id) action U).db (.wellFormed id) =
      some (some (preSave now (toggleLikeDislike action U c))) := by
  rw [likeDislike_found now db id action U c hact hfind]
  exact findById_save_same now db _ c id hfind (toggleLikeDislike_id action U c)

theorem toggle_like_likes (U : ObjectId) (c : Content) :
    (toggleLikeDislike "like" U c).likes =
      if U ∈ c.likes then c.likes.filter (fun id => id != U) else c.likes ++ [U] := by
  by_cases h : U ∈ c.likes <;> simp [toggleLikeDislike, h]

theorem toggle_like_dislikes (U : ObjectId) (c : Content) :
    (toggleLikeDislike "like" U c).dislikes =
      if U ∈ c.likes then c.dislikes else c.dislikes.filter (fun id => id != U) := by
  by_cases h : U ∈ c.likes <;> simp [toggleLikeDislike, h]

theorem toggle_dislike_dislikes (U : ObjectId) (c : Content) :
    (toggleLikeDislike "dislike" U c).dislikes =
      if U ∈ c.dislikes then c.dislikes.filter (fun id => id != U) else c.dislikes ++ [U] := by
  by_cases h : U ∈ c.dislikes <;> simp [toggleLikeDislike, h]

theorem toggle_dislike_likes (U : ObjectId) (c : Content) :
    (toggleLikeDislike "dislike" U c).likes =
      if U ∈ c.dislikes then c.likes else c.likes.filter (fun id => id != U) := by
  by_cases h : U ∈ c.dislikes <;> simp [toggleLikeDislike, h]

theorem preSave_likes (t : Nat) (c : Content) : (preSave t c).likes = c.likes := rfl

theorem preSave_dislikes (t : Nat) (c : Content) : (preSave t c).dislikes = c.dislikes := rfl

theorem mem_filter_ne (U x : ObjectId) (l : List ObjectId) :
    x ∈ l.filter (fun id => id != U) ↔ x ∈ l ∧ x ≠ U := by
  simp

theorem toggle_like_twice (U : ObjectId) (t : Nat) (c : Content) :
    (∀ x, x ∈ (toggleLikeDislike "like" U (preSave t (toggleLikeDislike "like" U c))).likes ↔
        x ∈ c.likes) ∧
    (toggleLikeDislike "like" U (preSave t (toggleLikeDislike "like" U c))).dislikes =
        c.dislikes.filter (fun id => id != U) := by
  simp only [toggle_like_likes, toggle_like_dislikes, preSave_likes, preSave_dislikes]
  by_cases h : U ∈ c.likes
  · simp only [h, if_true, mem_filter_ne, ne_eq, not_true_eq_false, and_false, if_false,
      List.mem_append, List.mem_singleton]
    refine ⟨fun x => ⟨?_, fun hx => ?_⟩, trivial⟩
    · rintro (⟨hx, -⟩ | rfl)
      · exact hx
      · exact h
    · by_cases hxu : x = U
      · exact Or.inr hxu
      · exact Or.inl ⟨hx, hxu⟩
  · simp only [h, if_false, List.mem_append, List.mem_singleton, or_true, if_true, mem_filter_ne]
    refine ⟨fun x => ⟨?_, fun hx => ?_⟩, trivial⟩
    · rintro ⟨hx | rfl, hne⟩
      · exact hx
      · exact absurd rfl hne
    · exact ⟨Or.inl hx, fun hxu => h (hxu ▸ hx)⟩

theorem toggle_keeps_disjoint (action : String) (U : ObjectId) (c : Content)
    (h : LikesDislikesDisjoint c) : LikesDislikesDisjoint (toggleLikeDislike action U c) := by
  unfold LikesDislikesDisjoint at h ⊢
  unfold toggleLikeDislike
  split_ifs
  · intro x hx
    exact h x (List.mem_of_mem_filter hx)
  · intro x hx hd
    rw [mem_filter_ne] at hd
    rcases List.mem_append.mp hx with hx | hx
    · exact h x hx hd.1
    · exact hd.2 (List.mem_singleton.mp hx)
  · intro x hx hd
    exact h x hx (List.mem_of_mem_filter hd)
  · intro x hx hd
    rw [mem_filter_ne] at hx
    rcases List.mem_append.mp hd with hd | hd
    · exact h x hx.1 hd
    · exact hx.2 (List.mem_singleton.mp hd)

theorem likeDislike_db (now : Nat) (db : List Content) (contentId : IdParam) (action : String)
    (user : ObjectId) :
    (likeDislike now db contentId action user).db = db ∨
    ∃ id c, contentId = .wellFormed id ∧ findById db (.wellFormed id) = some (some c) ∧
      (likeDislike now db contentId action user).db = save now db (toggleLikeDislike action user c) := by
  unfold likeDislike
  split_ifs
  · exact Or.inl rfl
  · cases contentId with
    | malformed => exact Or.inl rfl
    | wellFormed id =>
      cases hf : db.find? (fun d => d._id == id) with
      | none => left; simp [findById, hf]
      | some c => right; exact ⟨id, c, rfl, by simp [findById, hf], by simp [findById, hf]⟩

/-! ## Claims C1 - C3: like / dislike -/

/-- C1 (as stated, refuted): on a post that `u` has disliked, two like requests by `u`
in succession both succeed and leave `u` out of `dislikes`, so the dislikes are not
what they were before the first call. -/
theorem like_twice_loses_dislike :
    findById [dislikedPost] (.wellFormed "c1") = some (some dislikedPost) ∧
    "u" ∈ dislikedPost.dislikes ∧
    (likeDislike 1 [dislikedPost] (.wellFormed "c1") "like" "u").status = 200 ∧
    (likeDislike 2 (likeDislike 1 [dislikedPost] (.wellFormed "c1") "like" "u").db
      (.wellFormed "c1") "like" "u").status = 200 ∧
    ∃ c2, findById (likeDislike 2 (likeDislike 1 [dislikedPost] (.wellFormed "c1") "like" "u").db
        (.wellFormed "c1") "like" "u").db (.wellFormed "c1") = some (some c2) ∧
      "u" ∉ c2.dislikes ∧ ¬ (∀ x, x ∈ c2.dislikes ↔ x ∈ dislikedPost.dislikes) := by
  refine ⟨by decide, by decide, by decide, by decide,
    { dislikedPost with dislikes := [], lastUpdatedAt := 2 }, by decide, by decide, ?_⟩
  intro h
  exact absurd ((h "u").mpr (by decide)) (by decide)

/-- C1 (amended): for a stored content item and a user `U`, two like requests by `U` in
succession both succeed; afterwards `likes`, as a set, is what it was before the first
call, and `dislikes`, as a set, is what it was with `U` removed.  Hence both sets are
restored whenever `U` was not in `dislikes`. -/
theorem like_twice_restores (now1 now2 : Nat) (db : List Content) (id U : ObjectId)
    (c : Content) (hfind : findById db (.wellFormed id) = some (some c)) :
    (likeDislike now1 db (.wellFormed id) "like" U).status = 200 ∧
    (likeDislike now2 (likeDislike now1 db (.wellFormed id) "like" U).db
      (.wellFormed id) "like" U).status = 200 ∧
    ∃ c2, findById (likeDislike now2 (likeDislike now1 db (.wellFormed id) "like" U).db
        (.wellFormed id) "like" U).db (.wellFormed id) = some (some c2) ∧
      (∀ x, x ∈ c2.likes ↔ x ∈ c.likes) ∧
      (∀ x, x ∈ c2.dislikes ↔ x ∈ c.dislikes ∧ x ≠ U) ∧
      (U ∉ c.dislikes → ∀ x, x ∈ c2.dislikes ↔ x ∈ c.dislikes) := by
  have h1 := likeDislike_found_db now1 db id "like" U c (Or.inl rfl) hfind
  have h2 := likeDislike_found_db now2 _ id "like" U _ (Or.inl rfl) h1
  have hs1 : (likeDislike now1 db (.wellFormed id) "like" U).status = 200 := by
    rw [likeDislike_found now1 db id "like" U c (Or.inl rfl) hfind]
  have hs2 : (likeDislike now2 (likeDislike now1 db (.wellFormed id) "like" U).db
      (.wellFormed id) "like" U).status = 200 := by
    rw [likeDislike_found now2 _ id "like" U _ (Or.inl rfl) h1]
  obtain ⟨hl, hd⟩ := toggle_like_twice U now1 c
  refine ⟨hs1, hs2, _, h2, ?_, ?_, ?_⟩
  · intro x
    rw [preSave_likes]
    exact hl x
  · intro x
    rw [preSave_dislikes, hd, mem_filter_ne]
  · intro hU x
    rw [preSave_dislikes, hd, mem_filter_ne]
    exact ⟨fun h => h.1, fun h => ⟨h, fun hxu => hU (hxu ▸ h)⟩⟩

/-- Witness for C1: two likes of `u` on a post liked by `v` and disliked by `w`. -/
theorem like_twice_restores_witness :
    findById [mixedPost] (.wellFormed "c2") = some (some mixedPost) ∧
    ∃ c2, findById (likeDislike 2 (likeDislike 1 [mixedPost] (.wellFormed "c2") "like" "u").db
        (.wellFormed "c2") "like" "u").db (.wellFormed "c2") = some (some c2) ∧
      (∀ x, x ∈ c2.likes ↔ x ∈ mixedPost.likes) ∧
      (∀ x, x ∈ c2.dislikes ↔ x ∈ mixedPost.dislikes) :=
  have h := like_twice_restores 1 2 [mixedPost] "c2" "u" mixedPost (by decide)
  ⟨by decide, h.2.2.imp fun _ hc => ⟨hc.1, hc.2.1, hc.2.2.2 (by decide)⟩⟩

/-- C2: on a stored content item, a like by a user `U` who is not in `likes` succeeds and
leaves `U` in `likes` and out of `dislikes`; a dislike by a user `U` who is not in
`dislikes` succeeds and leaves `U` in `dislikes` and out of `likes`.  In both cases the
membership of every other user in `likes` and in `dislikes` is what it was. -/
theorem like_dislike_exclusive (now : Nat) (db : List Content) (id U : ObjectId)
    (c : Content) (hfind : findById db (.wellFormed id) = some (some c)) :
    (U ∉ c.likes →
      (likeDislike now db (.wellFormed id) "like" U).status = 200 ∧
      ∃ c1, findById (likeDislike now db (.wellFormed id) "like" U).db (.wellFormed id)
          = some (some c1) ∧
        U ∈ c1.likes ∧ U ∉ c1.dislikes ∧
        ∀ x, x ≠ U → ((x ∈ c1.likes ↔ x ∈ c.likes) ∧ (x ∈ c1.dislikes ↔ x ∈ c.dislikes))) ∧
    (U ∉ c.dislikes →
      (likeDislike now db (.wellFormed id) "dislike" U).status = 200 ∧
      ∃ c1, findById (likeDislike now db (.wellFormed id) "dislike" U).db (.wellFormed id)
          = some (some c1) ∧
        U ∈ c1.dislikes ∧ U ∉ c1.likes ∧
        ∀ x, x ≠ U → ((x ∈ c1.likes ↔ x ∈ c.likes) ∧ (x ∈ c1.dislikes ↔ x ∈ c.dislikes))) := by
  constructor
  · intro hU
    refine ⟨by rw [likeDislike_found now db id "like" U c (Or.inl rfl) hfind],
      _, likeDislike_found_db now db id "like" U c (Or.inl rfl) hfind, ?_, ?_, ?_⟩
    · simp [preSave_likes, toggle_like_likes, hU]
    · simp [preSave_dislikes, toggle_like_dislikes, hU]
    · intro x hx
      simp [preSave_likes, preSave_dislikes, toggle_like_likes, toggle_like_dislikes, hU, hx]
  · intro hU
    refine ⟨by rw [likeDislike_found now db id "dislike" U c (Or.inr rfl) hfind],
      _, likeDislike_found_db now db id "dislike" U c (Or.inr rfl) hfind, ?_, ?_, ?_⟩
    · simp [preSave_dislikes, toggle_dislike_dislikes, hU]
    · simp [preSave_likes, toggle_dislike_likes, hU]
    · intro x hx
      simp [preSave_likes, preSave_dislikes, toggle_dislike_likes, toggle_dislike_dislikes,
        hU, hx]

/-- Witness for C2, on a post that `u` had disliked: the like
moves `u` from `dislikes` to `likes`. -/
theorem like_dislike_exclusive_witness :
    findById [dislikedPost] (.wellFormed "c1") = some (some dislikedPost) ∧
    "u" ∉ dislikedPost.likes ∧
    (likeDislike 1 [dislikedPost] (.wellFormed "c1") "like" "u").status = 200 ∧
    ∃ c1, findById (likeDislike 1 [dislikedPost] (.wellFormed "c1") "like" "u").db
        (.wellFormed "c1") = some (some c1) ∧ "u" ∈ c1.likes ∧ "u" ∉ c1.dislikes :=
  have h := (like_dislike_exclusive 1 [dislikedPost] "c1" "u" dislikedPost (by decide)).1
    (by decide)
  ⟨by decide, by decide, h.1, h.2.imp fun _ hc => ⟨hc.1, hc.2.1, hc.2.2.1⟩⟩

/-- C3: if a stored content item has no user id in both `likes` and `dislikes`, then
after any request to the like/dislike route (any action text, any target, any caller)
the item stored under the same id still has no user id in both. -/
theorem likeDislike_keeps_disjoint (now : Nat) (db : List Content) (contentId : IdParam)
    (action : String) (user : ObjectId) (id : ObjectId) (c : Content)
    (hfind : findById db (.wellFormed id) = some (some c)) (hinv : LikesDislikesDisjoint c) :
    ∃ c1, findById (likeDislike now db contentId action user).db (.wellFormed id)
        = some (some c1) ∧ LikesDislikesDisjoint c1 := by
  rcases likeDislike_db now db contentId action user with h | ⟨tid, t, -, ht, h⟩
  · rw [h]
    exact ⟨c, hfind, hinv⟩
  · rw [h]
    exact findById_save_keeps LikesDislikesDisjoint now db _ t tid ht
      (toggleLikeDislike_id action user t) (toggle_keeps_disjoint action user t) id c hfind hinv

/-- Witness for C3: a dislike by `v`, who had liked the post. -/
theorem likeDislike_keeps_disjoint_witness :
    findById [mixedPost] (.wellFormed "c2") = some (some mixedPost) ∧
    LikesDislikesDisjoint mixedPost ∧
    ∃ c1, findById (likeDislike 1 [mixedPost] (.wellFormed "c2") "dislike" "v").db
        (.wellFormed "c2") = some (some c1) ∧ LikesDislikesDisjoint c1 :=
  ⟨by decide, by decide,
    likeDislike_keeps_disjoint 1 [mixedPost] (.wellFormed "c2") "dislike" "v" "c2" mixedPost
      (by decide) (by decide)⟩

/-! ## Numbers -/

theorem droppedBits_small (fuel m : Nat) (h : m < 2 ^ 53) : droppedBits fuel m = 0 := by
  cases fuel with
  | zero => rfl
  | succ f =>
    unfold droppedBits
    rw [if_pos h]

/-- A whole value of magnitude at most `2 ^ 53` is held exactly. -/
theorem roundToDouble_exact (n : Int) (h : n.natAbs ≤ 2 ^ 53) : roundToDouble n = n := by
  have hr : roundToMultiple (droppedBits n.natAbs n.natAbs) n.natAbs = n.natAbs := by
    rcases Nat.lt_or_ge n.natAbs (2 ^ 53) with hlt | hge
    · rw [droppedBits_small _ _ hlt]
      unfold roundToMultiple
      have hmod : n.natAbs % 2 ^ 0 = 0 := by
        rw [pow_zero]
        exact Nat.mod_one _
      have hcond : ¬ (2 * 0 > 2 ^ 0 ∨ (2 * 0 = 2 ^ 0 ∧ (n.natAbs / 2 ^ 0) % 2 = 1)) := by
        rintro (h1 | ⟨h1, -⟩) <;> simp at h1
      rw [hmod, if_neg hcond, pow_zero, Nat.div_one, Nat.mul_one]
    · have heq : n.natAbs = 2 ^ 53 := by omega
      rw [heq]
      decide
  unfold roundToDouble
  simp only [hr]
  split_ifs <;> omega

/-- A sum of magnitude at most `2 ^ 53` is computed exactly. -/
theorem jsAdd_exact (a b : Int) (h : (a + b).natAbs ≤ 2 ^ 53) : jsAdd a b = a + b :=
  roundToDouble_exact (a + b) h

/-! ## Vote-answer -/

theorem index_in_range {α : Type} {l : List α} {i : Nat} {a : α} (hi : l[i]? = some a) :
    ¬ ((i : Int) < 0 ∨ (i : Int) ≥ l.length) := by
  have hlt : i < l.length := (List.getElem?_eq_some.mp hi).1
  omega

theorem getElem?_set_at {α : Type} (l : List α) (i : Nat) (a : α) (h : i < l.length) :
    (l.set i a)[i]? = some a := by
  rw [List.getElem?_set]
  simp [h]

theorem updateExistingVote_userIds (U : ObjectId) (t : VoteType) (l : List Vote) :
    (updateExistingVote U t l).map (fun v => v.userId) = l.map (fun v => v.userId) := by
  induction l with
  | nil => rfl
  | cons w ws ih =>
    unfold updateExistingVote
    split_ifs
    · rfl
    · simp only [List.map_cons, ih]

/-- The rewritten entry is the first entry of the user: it sits at an index `k` before
which no entry carries the user's id, and the list is otherwise untouched. -/
theorem updateExistingVote_spec (U : ObjectId) (t : VoteType) (l : List Vote) (v : Vote)
    (hv : l.find? (fun vote => vote.userId == U) = some v) :
    ∃ k, l[k]? = some v ∧ (∀ j w, j < k → l[j]? = some w → w.userId ≠ U) ∧
      updateExistingVote U t l = l.set k { userId := U, voteType := t } := by
  induction l with
  | nil => simp at hv
  | cons w ws ih =>
    by_cases hw : w.userId = U
    · have hvw : w = v := by simpa [List.find?_cons, hw] using hv
      subst hvw
      refine ⟨0, by simp, fun j _ hj => absurd hj (Nat.not_lt_zero j), ?_⟩
      simp [updateExistingVote, hw]
    · have hv1 : ws.find? (fun vote => vote.userId == U) = some v := by
        simpa [List.find?_cons, hw] using hv
      obtain ⟨k, hk, hbefore, hset⟩ := ih hv1
      refine ⟨k + 1, by simpa using hk, ?_, ?_⟩
      · intro j x hj hx
        cases j with
        | zero =>
          have : w = x := by simpa using hx
          exact this ▸ hw
        | succ j => exact hbefore j x (by omega) (by simpa using hx)
      · simp [updateExistingVote, hw, hset]

/-- Where `votedBy` holds at most one entry per user, an entry of a user is the entry the
handler looks up. -/
theorem find?_of_unique_entry (U : ObjectId) (l : List Vote) (v : Vote)
    (hu : (l.map (fun w => w.userId)).Nodup) (hv : v ∈ l) (hU : v.userId = U) :
    l.find? (fun vote => vote.userId == U) = some v := by
  induction l with
  | nil => cases hv
  | cons w ws ih =>
    rw [List.map_cons, List.nodup_cons] at hu
    rcases List.mem_cons.mp hv with rfl | hmem
    · simp [List.find?_cons, hU]
    · have hw : w.userId ≠ U := by
        intro hwU
        exact hu.1 (List.mem_map.mpr ⟨v, hmem, by rw [hU, hwU]⟩)
      simp only [List.find?_cons]
      have hb : (w.userId == U) = false := by simpa using hw
      rw [hb]
      exact ih hu.2 hmem

/-- The vote-answer handler on a stored question, at the index of one of its answers. -/
theorem voteAnswer_on_answer (now : Nat) (db : List Content) (id : ObjectId) (c : Content)
    (i : Nat) (a : Comment) (direction : String) (U : ObjectId)
    (hfind : findById db (.wellFormed id) = some (some c))
    (hq : c.contentType = .Question) (hi : c.comments[i]? = some a) (ha : a.isAnswer = true)
    (hdir : direction = "up" ∨ direction = "down") :
    voteAnswer now db (.wellFormed id) (some (i : Int)) direction U =
      match castVote direction U a with
      | none =>
        { status := 400
          message := some ("You have already " ++
            (if direction == "up" then "upvoted" else "downvoted") ++ " this answer")
          db := db }
      | some a1 =>
        { status := 200
          message := some ("Vote " ++ direction ++ " registered successfully")
          body := .content (preSave now { c with comments := c.comments.set i a1 })
          db := save now db { c with comments := c.comments.set i a1 } } := by
  have hr := index_in_range hi
  unfold voteAnswer
  rcases hdir with rfl | rfl <;>
    simp only [hfind, hq, hr, Int.toNat_ofNat, hi, ha] <;> simp

theorem voteAnswer_accepted (now : Nat) (db : List Content) (id : ObjectId) (c : Content)
    (i : Nat) (a a1 : Comment) (direction : String) (U : ObjectId)
    (hfind : findById db (.wellFormed id) = some (some c))
    (hq : c.contentType = .Question) (hi : c.comments[i]? = some a) (ha : a.isAnswer = true)
    (hdir : direction = "up" ∨ direction = "down") (hcast : castVote direction U a = some a1) :
    voteAnswer now db (.wellFormed id) (some (i : Int)) direction U =
      { status := 200
        message := some ("Vote " ++ direction ++ " registered successfully")
        body := .content (preSave now { c with comments := c.comments.set i a1 })
        db := save now db { c with comments := c.comments.set i a1 } } := by
  rw [voteAnswer_on_answer now db id c i a direction U hfind hq hi ha hdir, hcast]

theorem voteAnswer_rejected (now : Nat) (db : List Content) (id : ObjectId) (c : Content)
    (i : Nat) (a : Comment) (direction : String) (U : ObjectId)
    (hfind : findById db (.wellFormed id) = some (some c))
    (hq : c.contentType = .Question) (hi : c.comments[i]? = some a) (ha : a.isAnswer = true)
    (hdir : direction = "up" ∨ direction = "down") (hcast : castVote direction U a = none) :
    voteAnswer now db (.wellFormed id) (some (i : Int)) direction U =
      { status := 400
        message := some ("You have already " ++
          (if direction == "up" then "upvoted" else "downvoted") ++ " this answer")
        db := db } := by
  rw [voteAnswer_on_answer now db id c i a direction U hfind hq hi ha hdir, hcast]

theorem castVote_new (direction : String) (U : ObjectId) (a : Comment)
    (hnew : ∀ v ∈ a.votedBy, v.userId ≠ U) :
    castVote direction U a =
      some { a with
        votedBy := a.votedBy ++ [{ userId := U, voteType := VoteType.ofDirection direction }]
        votes := if direction == "up" then jsAdd a.votes 1 else jsAdd a.votes (-1) } := by
  have hnone : a.votedBy.find? (fun vote => vote.userId == U) = none := by
    rw [List.find?_eq_none]
    intro v hv
    simpa using hnew v hv
  simp [castVote, hnone]

theorem castVote_existing (direction : String) (U : ObjectId) (a : Comment) (v : Vote)
    (hv : a.votedBy.find? (fun vote => vote.userId == U) = some v) :
    castVote direction U a =
      if v.voteType.toString == direction then none
      else
        some { a with
          votedBy := updateExistingVote U (VoteType.ofDirection direction) a.votedBy
          votes := if direction == "up" then jsAdd a.votes 2 else jsAdd a.votes (-2) } := by
  simp [castVote, hv]

theorem set_comments_id (c : Content) (cs : List Comment) :
    ({ c with comments := cs } : Content)._id = c._id := rfl

theorem VoteType.toString_beq (s t : VoteType) : (s.toString == t.toString) = decide (s = t) := by
  cases s <;> cases t <;> decide

theorem VoteType.ofDirection_toString (t : VoteType) : VoteType.ofDirection t.toString = t := by
  cases t <;> decide

theorem VoteType.toString_valid (t : VoteType) : t.toString = "up" ∨ t.toString = "down" := by
  cases t
  · exact Or.inl rfl
  · exact Or.inr rfl

theorem castVote_same (dir : VoteType) (U : ObjectId) (a : Comment) (v : Vote)
    (hv : a.votedBy.find? (fun vote => vote.userId == U) = some v) (hsame : v.voteType = dir) :
    castVote dir.toString U a = none := by
  rw [castVote_existing _ U a v hv, VoteType.toString_beq]
  simp [hsame]

theorem castVote_switch (dir : VoteType) (U : ObjectId) (a : Comment) (v : Vote)
    (hv : a.votedBy.find? (fun vote => vote.userId == U) = some v) (hopp : v.voteType ≠ dir) :
    castVote dir.toString U a =
      some { a with
        votedBy := updateExistingVote U dir a.votedBy
        votes := match dir with
          | .up => jsAdd a.votes 2
          | .down => jsAdd a.votes (-2) } := by
  rw [castVote_existing _ U a v hv, VoteType.toString_beq, VoteType.ofDirection_toString]
  cases dir <;> simp [hopp, VoteType.toString]

/-- A vote that is cast keeps `isAnswer` and the set of voters free of repetitions. -/
theorem castVote_keeps_unique (direction : String) (U : ObjectId) (a a1 : Comment)
    (hcast : castVote direction U a = some a1)
    (hu : (a.votedBy.map (fun v => v.userId)).Nodup) :
    (a1.votedBy.map (fun v => v.userId)).Nodup := by
  cases hf : a.votedBy.find? (fun vote => vote.userId == U) with
  | none =>
    have hnew : ∀ v ∈ a.votedBy, v.userId ≠ U := by
      intro v hv
      simpa using (List.find?_eq_none.mp hf) v hv
    rw [castVote_new direction U a hnew] at hcast
    cases hcast
    simp only [List.map_append, List.map_cons, List.map_nil]
    refine List.Nodup.append hu (List.nodup_singleton _) ?_
    intro x hx hx1
    obtain ⟨v, hv, rfl⟩ := List.mem_map.mp hx
    exact hnew v hv (List.mem_singleton.mp hx1)
  | some v =>
    rw [castVote_existing direction U a v hf] at hcast
    by_cases hsame : (v.voteType.toString == direction) = true
    · simp [hsame] at hcast
    · rw [if_neg hsame] at hcast
      cases hcast
      simpa only [updateExistingVote_userIds] using hu

/-- Whatever the request, the vote-answer handler leaves the collection as it was or
saves the fetched question with one answer replaced by the result of `castVote`. -/
theorem voteAnswer_db (now : Nat) (db : List Content) (contentId : IdParam)
    (commentIndex : Option Int) (direction : String) (user : ObjectId) :
    (voteAnswer now db contentId commentIndex direction user).db = db ∨
    ∃ id c i a a1, contentId = .wellFormed id ∧
      findById db (.wellFormed id) = some (some c) ∧ c.comments[i]? = some a ∧
      castVote direction user a = some a1 ∧
      (voteAnswer now db contentId commentIndex direction user).db =
        save now db { c with comments := c.comments.set i a1 } := by
  unfold voteAnswer
  cases commentIndex with
  | none => exact Or.inl rfl
  | some n =>
    cases contentId with
    | malformed => simp only [findById]; split_ifs <;> exact Or.inl rfl
    | wellFormed id =>
      cases hf : findById db (.wellFormed id) with
      | none => simp only; split_ifs <;> exact Or.inl rfl
      | some oc =>
        cases oc with
        | none => simp only; split_ifs <;> exact Or.inl rfl
        | some c =>
          simp only
          cases hi : c.comments[n.toNat]? with
          | none => simp only; split_ifs <;> exact Or.inl rfl
          | some a =>
            simp only
            cases hc : castVote direction user a with
            | none => simp only; split_ifs <;> exact Or.inl rfl
            | some a1 =>
              simp only
              split_ifs
              · exact Or.inl rfl
              · exact Or.inl rfl
              · exact Or.inl rfl
              · exact Or.inl rfl
              · exact Or.inr ⟨id, c, n.toNat, a, a1, rfl, hf, hi, hc, rfl⟩

/-! ## Claims C4 - C7: vote-answer -/

/-- C4 (as stated, refuted): `votes` is a Number.  On the answer of the sample question
`q2`, whose `votes` is `2 ^ 53` and whose `votedBy` is empty, an up vote of `u` succeeds and
appends the entry `(u, up)`, but the sum `2 ^ 53 + 1` is no Number and is stored as
`2 ^ 53`: `votes` does not rise by 1. -/
theorem vote_at_exact_limit_keeps_count :
    findById [saturatedQuestion] (.wellFormed "q2") = some (some saturatedQuestion) ∧
    saturatedQuestion.comments[0]? = some saturatedAnswer ∧
    saturatedAnswer.isAnswer = true ∧
    saturatedAnswer.votes = 9007199254740992 ∧ saturatedAnswer.votedBy = [] ∧
    (voteAnswer 9 [saturatedQuestion] (.wellFormed "q2") (some 0) "up" "u").status = 200 ∧
    (voteAnswer 9 [saturatedQuestion] (.wellFormed "q2") (some 0) "up" "u").db.map
        (fun c => c.comments.map (fun a => (a.votes, a.votedBy)))
      = [[(9007199254740992, [{ userId := "u", voteType := .up }])]] := by
  refine ⟨by decide, by decide, by decide, by decide, by decide, by decide, by decide⟩

/-- C4 (amended): on an answer of a stored question whose `votes` is a whole number of
magnitude below `2 ^ 53` and in whose `votedBy` the caller `U` has no entry, a vote-answer
request with direction `up` succeeds, raises `votes` by exactly 1 and appends the single
entry `(U, up)` to `votedBy`; with direction `down` it succeeds, lowers `votes` by exactly
1 and appends `(U, down)`.  The document in the response is the stored one.  In particular
an up vote on `votes = 0`, `votedBy = []` gives `votes = 1`, `votedBy = [(U, up)]`. -/
theorem vote_new_entry (now : Nat) (db : List Content) (id : ObjectId) (c : Content)
    (i : Nat) (a : Comment) (U : ObjectId)
    (hfind : findById db (.wellFormed id) = some (some c))
    (hq : c.contentType = .Question) (hi : c.comments[i]? = some a) (ha : a.isAnswer = true)
    (hnew : ∀ v ∈ a.votedBy, v.userId ≠ U)
    (hsafe : a.votes.natAbs < 2 ^ 53) :
    ((voteAnswer now db (.wellFormed id) (some (i : Int)) "up" U).status = 200 ∧
      ∃ c1 a1, findById (voteAnswer now db (.wellFormed id) (some (i : Int)) "up" U).db
          (.wellFormed id) = some (some c1) ∧
        (voteAnswer now db (.wellFormed id) (some (i : Int)) "up" U).body = .content c1 ∧
        c1.comments[i]? = some a1 ∧
        a1.votes = a.votes + 1 ∧
        a1.votedBy = a.votedBy ++ [{ userId := U, voteType := .up }] ∧
        (a.votes = 0 → a.votedBy = [] →
          a1.votes = 1 ∧ a1.votedBy = [{ userId := U, voteType := .up }])) ∧
    ((voteAnswer now db (.wellFormed id) (some (i : Int)) "down" U).status = 200 ∧
      ∃ c1 a1, findById (voteAnswer now db (.wellFormed id) (some (i : Int)) "down" U).db
          (.wellFormed id) = some (some c1) ∧
        (voteAnswer now db (.wellFormed id) (some (i : Int)) "down" U).body = .content c1 ∧
        c1.comments[i]? = some a1 ∧
        a1.votes = a.votes - 1 ∧
        a1.votedBy = a.votedBy ++ [{ userId := U, voteType := .down }]) := by
  have hlt : i < c.comments.length := (List.getElem?_eq_some.mp hi).1
  have hplus : jsAdd a.votes 1 = a.votes + 1 := jsAdd_exact _ _ (by omega)
  have hminus : jsAdd a.votes (-1) = a.votes - 1 := jsAdd_exact _ _ (by omega)
  have hup : castVote "up" U a = some { a with
      votedBy := a.votedBy ++ [{ userId := U, voteType := .up }], votes := a.votes + 1 } := by
    rw [castVote_new "up" U a hnew, ← hplus]
    simp [VoteType.ofDirection]
  have hdown : castVote "down" U a = some { a with
      votedBy := a.votedBy ++ [{ userId := U, voteType := .down }], votes := a.votes - 1 } := by
    rw [castVote_new "down" U a hnew, ← hminus]
    simp [VoteType.ofDirection]
  constructor
  · rw [voteAnswer_accepted now db id c i a _ "up" U hfind hq hi ha (Or.inl rfl) hup]
    refine ⟨rfl, preSave now { c with comments := c.comments.set i _ }, _,
      findById_save_same now db _ c id hfind (set_comments_id c _), rfl,
      getElem?_set_at _ _ _ hlt, rfl, rfl, ?_⟩
    intro h0 hv
    simp [h0, hv]
  · rw [voteAnswer_accepted now db id c i a _ "down" U hfind hq hi ha (Or.inr rfl) hdown]
    exact ⟨rfl, preSave now { c with comments := c.comments.set i _ }, _,
      findById_save_same now db _ c id hfind (set_comments_id c _), rfl,
      getElem?_set_at _ _ _ hlt, rfl, rfl⟩

/-- Witness for C4: `u` upvotes the unvoted answer at index 0 of the sample
question; the stored and returned answer has `votes = 1` and `votedBy = [(u, up)]`. -/
theorem vote_new_entry_witness :
    findById [sampleQuestion] (.wellFormed "q1") = some (some sampleQuestion) ∧
    sampleQuestion.comments[0]? = some freshAnswer ∧
    freshAnswer.votes = 0 ∧ freshAnswer.votedBy = [] ∧
    ∃ c1 a1, findById (voteAnswer 9 [sampleQuestion] (.wellFormed "q1") (some 0) "up" "u").db
        (.wellFormed "q1") = some (some c1) ∧
      (voteAnswer 9 [sampleQuestion] (.wellFormed "q1") (some 0) "up" "u").body = .content c1 ∧
      c1.comments[0]? = some a1 ∧ a1.votes = 1 ∧
      a1.votedBy = [{ userId := "u", voteType := .up }] :=
  have h := (vote_new_entry 9 [sampleQuestion] "q1" sampleQuestion 0 freshAnswer "u"
    (by decide) (by decide) (by decide) (by decide) (by decide) (by decide)).1.2
  ⟨by decide, by decide, by decide, by decide,
    h.imp fun _ h1 => h1.imp fun _ h2 =>
      ⟨h2.1, h2.2.1, h2.2.2.1, (h2.2.2.2.2.2 (by decide) (by decide)).1,
        (h2.2.2.2.2.2 (by decide) (by decide)).2⟩⟩

/-- C5 (as stated, refuted): the answer at index 3 of the sample question carries two
`votedBy` entries of `u`, a down vote followed by an up vote.  `u` has an entry whose
vote type equals the requested direction `up`, yet the request is answered with 200, the
first entry is rewritten and `votes` goes from 0 to 2. -/
theorem vote_same_direction_accepted :
    findById [sampleQuestion] (.wellFormed "q1") = some (some sampleQuestion) ∧
    sampleQuestion.comments[3]? = some twiceVotedAnswer ∧
    twiceVotedAnswer.isAnswer = true ∧
    ({ userId := "u", voteType := .up } : Vote) ∈ twiceVotedAnswer.votedBy ∧
    (voteAnswer 9 [sampleQuestion] (.wellFormed "q1") (some 3) "up" "u").status = 200 ∧
    (voteAnswer 9 [sampleQuestion] (.wellFormed "q1") (some 3) "up" "u").db ≠ [sampleQuestion] ∧
    (voteAnswer 9 [sampleQuestion] (.wellFormed "q1") (some 3) "up" "u").db =
      [{ sampleQuestion with
          lastUpdatedAt := 9
          comments := [freshAnswer, plainComment, votedAnswer,
            { twiceVotedAnswer with
              votes := 2
              votedBy := [{ userId := "u", voteType := .up },
                { userId := "u", voteType := .up }] }] }] := by
  refine ⟨by decide, by decide, by decide, by decide, by decide, by decide, by decide⟩

/-- C5 (amended): on an answer of a stored question where the caller's first `votedBy`
entry (the entry the handler looks up; the caller's only entry when `votedBy` holds at most
one entry per user) has the requested direction, vote-answer is rejected with status 400
and the collection, hence every comment's `votes` and `votedBy`, is left as it was. -/
theorem vote_same_direction_rejected (now : Nat) (db : List Content) (id : ObjectId)
    (c : Content) (i : Nat) (a : Comment) (U : ObjectId) (v : Vote) (dir : VoteType)
    (hfind : findById db (.wellFormed id) = some (some c))
    (hq : c.contentType = .Question) (hi : c.comments[i]? = some a) (ha : a.isAnswer = true)
    (hv : a.votedBy.find? (fun vote => vote.userId == U) = some v)
    (hsame : v.voteType = dir) :
    (voteAnswer now db (.wellFormed id) (some (i : Int)) dir.toString U).status = 400 ∧
    (voteAnswer now db (.wellFormed id) (some (i : Int)) dir.toString U).db = db := by
  rw [voteAnswer_rejected now db id c i a dir.toString U hfind hq hi ha dir.toString_valid
    (castVote_same dir U a v hv hsame)]
  exact ⟨rfl, rfl⟩

/-- Witness for C5: a second up vote of `u` on the answer at
index 2 of the sample question. -/
theorem vote_same_direction_rejected_witness :
    findById [sampleQuestion] (.wellFormed "q1") = some (some sampleQuestion) ∧
    sampleQuestion.comments[2]? = some votedAnswer ∧
    votedAnswer.votedBy.find? (fun vote => vote.userId == "u")
      = some { userId := "u", voteType := .up } ∧
    (voteAnswer 9 [sampleQuestion] (.wellFormed "q1") (some 2) "up" "u").status = 400 ∧
    (voteAnswer 9 [sampleQuestion] (.wellFormed "q1") (some 2) "up" "u").db = [sampleQuestion] :=
  ⟨by decide, by decide, by decide,
    vote_same_direction_rejected 9 [sampleQuestion] "q1" sampleQuestion 2 votedAnswer "u"
      { userId := "u", voteType := .up } .up (by decide) (by decide) (by decide) (by decide)
      (by decide) rfl⟩

/-- C6 (as stated, refuted): on the answer at index 3 of the sample question `u` has a
`votedBy` entry of the direction opposite to `down` (the up vote in second place), yet a
down vote of `u` is answered with 400 and changes nothing, because the entry the handler
finds is the down vote in first place. -/
theorem vote_opposite_direction_rejected :
    findById [sampleQuestion] (.wellFormed "q1") = some (some sampleQuestion) ∧
    sampleQuestion.comments[3]? = some twiceVotedAnswer ∧
    twiceVotedAnswer.isAnswer = true ∧
    ({ userId := "u", voteType := .up } : Vote) ∈ twiceVotedAnswer.votedBy ∧
    (voteAnswer 9 [sampleQuestion] (.wellFormed "q1") (some 3) "down" "u").status = 400 ∧
    (voteAnswer 9 [sampleQuestion] (.wellFormed "q1") (some 3) "down" "u").db
      = [sampleQuestion] := by
  refine ⟨by decide, by decide, by decide, by decide, by decide, by decide⟩

/-- C6 (amended): on an answer of a stored question where the caller's first `votedBy`
entry (the caller's only entry when `votedBy` holds at most one entry per user) has the
direction opposite to the requested one, and whose `votes` is a whole number with
`|votes| + 2 ≤ 2 ^ 53`, vote-answer succeeds and changes `votes` by exactly +2 for a
request `up` and by exactly -2 for a request `down`; it rewrites that entry, at its index
`k`, to the requested direction and leaves the length of `votedBy` and every entry of
every other user where and as it was. -/
theorem vote_switch_direction (now : Nat) (db : List Content) (id : ObjectId)
    (c : Content) (i : Nat) (a : Comment) (U : ObjectId) (v : Vote) (dir : VoteType)
    (hfind : findById db (.wellFormed id) = some (some c))
    (hq : c.contentType = .Question) (hi : c.comments[i]? = some a) (ha : a.isAnswer = true)
    (hv : a.votedBy.find? (fun vote => vote.userId == U) = some v)
    (hopp : v.voteType ≠ dir)
    (hsafe : a.votes.natAbs + 2 ≤ 2 ^ 53) :
    (voteAnswer now db (.wellFormed id) (some (i : Int)) dir.toString U).status = 200 ∧
    ∃ c1 a1 k,
      findById (voteAnswer now db (.wellFormed id) (some (i : Int)) dir.toString U).db
        (.wellFormed id) = some (some c1) ∧
      c1.comments[i]? = some a1 ∧
      (dir = .up → a1.votes = a.votes + 2) ∧
      (dir = .down → a1.votes = a.votes - 2) ∧
      a.votedBy[k]? = some v ∧
      (∀ j w, j < k → a.votedBy[j]? = some w → w.userId ≠ U) ∧
      a1.votedBy = a.votedBy.set k { userId := U, voteType := dir } ∧
      a1.votedBy.length = a.votedBy.length ∧
      (∀ (j : Nat) (w : Vote), a.votedBy[j]? = some w → w.userId ≠ U →
        a1.votedBy[j]? = some w) := by
  have hlt : i < c.comments.length := (List.getElem?_eq_some.mp hi).1
  obtain ⟨k, hk, hfirst, hset⟩ := updateExistingVote_spec U dir a.votedBy v hv
  have hvU : v.userId = U := by simpa using List.find?_some hv
  rw [voteAnswer_accepted now db id c i a _ dir.toString U hfind hq hi ha dir.toString_valid
    (castVote_switch dir U a v hv hopp)]
  refine ⟨rfl, preSave now { c with comments := c.comments.set i _ }, _, k,
    findById_save_same now db _ c id hfind (set_comments_id c _), getElem?_set_at _ _ _ hlt,
    ?_, ?_, hk, hfirst, hset, ?_, ?_⟩
  · rintro rfl
    exact jsAdd_exact _ _ (by omega)
  · rintro rfl
    exact jsAdd_exact _ _ (by omega)
  · show (updateExistingVote U dir a.votedBy).length = _
    rw [hset, List.length_set]
  · intro j w hj hw
    show (updateExistingVote U dir a.votedBy)[j]? = _
    rw [hset, List.getElem?_set_ne, hj]
    rintro rfl
    rw [hk] at hj
    exact hw ((Option.some.inj hj) ▸ hvU)

/-- Witness for C6: `u`, who had upvoted the answer at index 2 of the
sample question, votes down. -/
theorem vote_switch_direction_witness :
    findById [sampleQuestion] (.wellFormed "q1") = some (some sampleQuestion) ∧
    sampleQuestion.comments[2]? = some votedAnswer ∧
    votedAnswer.votedBy.find? (fun vote => vote.userId == "u")
      = some { userId := "u", voteType := .up } ∧
    (voteAnswer 9 [sampleQuestion] (.wellFormed "q1") (some 2) "down" "u").status = 200 ∧
    ∃ c1 a1, findById (voteAnswer 9 [sampleQuestion] (.wellFormed "q1") (some 2) "down" "u").db
        (.wellFormed "q1") = some (some c1) ∧
      c1.comments[2]? = some a1 ∧ a1.votes = votedAnswer.votes - 2 ∧
      a1.votedBy.length = votedAnswer.votedBy.length :=
  have h := vote_switch_direction 9 [sampleQuestion] "q1" sampleQuestion 2 votedAnswer "u"
    { userId := "u", voteType := .up } .down (by decide) (by decide) (by decide) (by decide)
    (by decide) (by decide) (by decide)
  ⟨by decide, by decide, by decide, h.1,
    h.2.imp fun _ h1 => h1.imp fun _ h2 =>
      h2.elim fun _ h3 => ⟨h3.1, h3.2.1, h3.2.2.2.1 rfl, h3.2.2.2.2.2.2.2.1⟩⟩

/-- C7: if a stored content item holds at most one `votedBy` entry per user id on every
answer, then after any vote-answer request (any target, index, direction and caller,
accepted or rejected) the item stored under the same id still does. -/
theorem voteAnswer_keeps_unique (now : Nat) (db : List Content) (contentId : IdParam)
    (commentIndex : Option Int) (direction : String) (user : ObjectId)
    (id : ObjectId) (c : Content)
    (hfind : findById db (.wellFormed id) = some (some c)) (hinv : VotedByUnique c) :
    ∃ c1, findById (voteAnswer now db contentId commentIndex direction user).db
        (.wellFormed id) = some (some c1) ∧ VotedByUnique c1 := by
  rcases voteAnswer_db now db contentId commentIndex direction user with
    h | ⟨tid, t, i, a, a1, -, ht, hi, hcast, h⟩
  · rw [h]
    exact ⟨c, hfind, hinv⟩
  · rw [h]
    refine findById_save_keeps VotedByUnique now db _ t tid ht (set_comments_id t _) ?_
      id c hfind hinv
    intro hu cm hcm hans
    rcases List.mem_or_eq_of_mem_set hcm with hmem | rfl
    · exact hu cm hmem hans
    · have hisA : a.isAnswer = true := by
        unfold castVote at hcast
        split at hcast
        · split_ifs at hcast
          all_goals cases hcast
          all_goals exact hans
        · cases hcast
          exact hans
      exact castVote_keeps_unique direction user a cm hcast (hu a (List.getElem?_mem hi) hisA)

/-- Witness for C7: a first vote of `x` on the answer at index 2 of a
question whose answers each hold at most one entry per user. -/
theorem voteAnswer_keeps_unique_witness :
    VotedByUnique { sampleQuestion with comments := [freshAnswer, plainComment, votedAnswer] } ∧
    ∃ c1, findById (voteAnswer 9
        [{ sampleQuestion with comments := [freshAnswer, plainComment, votedAnswer] }]
        (.wellFormed "q1") (some 2) "down" "x").db (.wellFormed "q1") = some (some c1) ∧
      VotedByUnique c1 :=
  ⟨by decide,
    voteAnswer_keeps_unique 9
      [{ sampleQuestion with comments := [freshAnswer, plainComment, votedAnswer] }]
      (.wellFormed "q1") (some 2) "down" "x" "q1"
      { sampleQuestion with comments := [freshAnswer, plainComment, votedAnswer] }
      (by decide) (by decide)⟩

/-! ## Accept-answer -/

theorem markAccepted_id (n : Int) (c : Content) : (markAccepted n c)._id = c._id := rfl

theorem markAccepted_solved (n : Int) (c : Content) : (markAccepted n c).solved = true := rfl

theorem markAccepted_userId (n : Int) (c : Content) : (markAccepted n c).userId = c.userId := rfl

theorem markAccepted_contentType (n : Int) (c : Content) :
    (markAccepted n c).contentType = c.contentType := rfl

/-- After `markAccepted i`, the comment at index `j` is the old one with its flag set to
`j = i`. -/
theorem markAccepted_getElem? (i j : Nat) (c : Content) :
    (markAccepted (i : Int) c).comments[j]? =
      (c.comments[j]?).map (fun cm => { cm with acceptedAnswer := decide (j = i) }) := by
  simp only [markAccepted, Int.toNat_ofNat, List.getElem?_modify, List.getElem?_mapIdx]
  cases c.comments[j]? with
  | none => rfl
  | some cm =>
    by_cases h : j = i
    · subst h
      simp
    · have h1 : ¬ i = j := fun e => h e.symm
      simp [h, h1]

theorem markAccepted_length (n : Int) (c : Content) :
    (markAccepted n c).comments.length = c.comments.length := by
  simp [markAccepted, List.length_modify, List.length_mapIdx]

/-- The accept-answer handler on a stored question, called by its owner at the index of
one of its answers. -/
theorem acceptAnswer_ok (now : Nat) (db : List Content) (id : ObjectId) (c : Content)
    (i : Nat) (a : Comment) (U : ObjectId)
    (hfind : findById db (.wellFormed id) = some (some c))
    (hq : c.contentType = .Question) (hown : c.userId = U)
    (hi : c.comments[i]? = some a) (ha : a.isAnswer = true) :
    acceptAnswer now db (.wellFormed id) (some (i : Int)) U =
      { status := 200
        message := some "Answer accepted"
        body := .content (preSave now (markAccepted i c))
        db := save now db (markAccepted i c) } := by
  have hr := index_in_range hi
  unfold acceptAnswer
  simp only [hfind, hq, hown, hr, Int.toNat_ofNat, hi, ha]
  simp

/-- Whatever the request, the accept-answer handler leaves the collection as it was or
saves the fetched question after `markAccepted`. -/
theorem acceptAnswer_db (now : Nat) (db : List Content) (contentId : IdParam)
    (commentIndex : Option Int) (user : ObjectId) :
    (acceptAnswer now db contentId commentIndex user).db = db ∨
    ∃ id c n, contentId = .wellFormed id ∧ findById db (.wellFormed id) = some (some c) ∧
      (acceptAnswer now db contentId commentIndex user).status = 200 ∧
      (acceptAnswer now db contentId commentIndex user).db = save now db (markAccepted n c) := by
  unfold acceptAnswer
  cases commentIndex with
  | none => exact Or.inl rfl
  | some n =>
    cases contentId with
    | malformed => exact Or.inl rfl
    | wellFormed id =>
      cases hf : findById db (.wellFormed id) with
      | none => exact Or.inl rfl
      | some oc =>
        cases oc with
        | none => exact Or.inl rfl
        | some c =>
          simp only
          cases hi : c.comments[n.toNat]? with
          | none => simp only; split_ifs <;> exact Or.inl rfl
          | some a =>
            simp only
            split_ifs
            · exact Or.inl rfl
            · exact Or.inl rfl
            · exact Or.inl rfl
            · exact Or.inl rfl
            · exact Or.inr ⟨id, c, n, rfl, hf, rfl, rfl⟩

/-- Whatever the request, the answer handler leaves the collection as it was or saves the
fetched question with one comment appended. -/
theorem postAnswer_db (now : Nat) (users : List User) (db : List Content)
    (contentId : IdParam) (text : Option String) (user : ObjectId) :
    (postAnswer now users db contentId text user).db = db ∨
    ∃ id c cm, contentId = .wellFormed id ∧ findById db (.wellFormed id) = some (some c) ∧
      (postAnswer now users db contentId text user).db =
        save now db { c with comments := c.comments ++ [cm] } := by
  unfold postAnswer
  cases contentId with
  | malformed => simp only [findById]; split_ifs <;> exact Or.inl rfl
  | wellFormed id =>
    cases hf : findById db (.wellFormed id) with
    | none => simp only; split_ifs <;> exact Or.inl rfl
    | some oc =>
      cases oc with
      | none => simp only; split_ifs <;> exact Or.inl rfl
      | some c =>
        simp only
        cases hu : findUserById users user with
        | none => simp only; split_ifs <;> exact Or.inl rfl
        | some author =>
          simp only
          split_ifs
          · exact Or.inl rfl
          · exact Or.inl rfl
          · exact Or.inr ⟨id, c, _, rfl, hf, rfl⟩

/-- Whatever the request, the comment handler leaves the collection as it was or saves
the fetched item with one comment appended. -/
theorem postComment_db (now : Nat) (users : List User) (db : List Content)
    (contentId : IdParam) (text : Option String) (user : ObjectId) :
    (postComment now users db contentId text user).db = db ∨
    ∃ id c cm, contentId = .wellFormed id ∧ findById db (.wellFormed id) = some (some c) ∧
      (postComment now users db contentId text user).db =
        save now db { c with comments := c.comments ++ [cm] } := by
  unfold postComment
  cases contentId with
  | malformed => simp only [findById]; split_ifs <;> exact Or.inl rfl
  | wellFormed id =>
    cases hf : findById db (.wellFormed id) with
    | none => simp only; split_ifs <;> exact Or.inl rfl
    | some oc =>
      cases oc with
      | none => simp only; split_ifs <;> exact Or.inl rfl
      | some c =>
        simp only
        cases hu : findUserById users user with
        | none => simp only; split_ifs <;> exact Or.inl rfl
        | some author =>
          simp only
          split_ifs
          · exact Or.inl rfl
          · exact Or.inr ⟨id, c, _, rfl, hf, rfl⟩

/-! ## Claims C8 - C10: accept-answer -/

/-- C8: on a stored question, an accept-answer request by the owner at an index `i` whose
comment is an answer succeeds; afterwards the comment at index `i` is accepted, a comment
at index `j` is accepted exactly when `j = i`, whatever the flags were before, and `solved`
is true. -/
theorem accept_answer_exactly_one (now : Nat) (db : List Content) (id : ObjectId)
    (c : Content) (i : Nat) (a : Comment)
    (hfind : findById db (.wellFormed id) = some (some c))
    (hq : c.contentType = .Question)
    (hi : c.comments[i]? = some a) (ha : a.isAnswer = true) :
    (acceptAnswer now db (.wellFormed id) (some (i : Int)) c.userId).status = 200 ∧
    ∃ c1, findById (acceptAnswer now db (.wellFormed id) (some (i : Int)) c.userId).db
        (.wellFormed id) = some (some c1) ∧
      c1.solved = true ∧
      c1.comments.length = c.comments.length ∧
      (∃ cm, c1.comments[i]? = some cm ∧ cm.acceptedAnswer = true) ∧
      (∀ (j : Nat) (cm : Comment), c1.comments[j]? = some cm →
        (cm.acceptedAnswer = true ↔ j = i)) := by
  rw [acceptAnswer_ok now db id c i a c.userId hfind hq rfl hi ha]
  refine ⟨rfl, preSave now (markAccepted i c),
    findById_save_same now db _ c id hfind (markAccepted_id i c), rfl,
    markAccepted_length i c, ?_, ?_⟩
  · refine ⟨{ a with acceptedAnswer := true }, ?_, rfl⟩
    show (markAccepted (i : Int) c).comments[i]? = _
    rw [markAccepted_getElem?, hi]
    simp
  · intro j cm hcm
    have hcm1 : (markAccepted (i : Int) c).comments[j]? = some cm := hcm
    rw [markAccepted_getElem?] at hcm1
    cases hj : c.comments[j]? with
    | none => simp [hj] at hcm1
    | some old =>
      rw [hj] at hcm1
      simp only [Option.map, Option.some.injEq] at hcm1
      subst hcm1
      simp

/-- Witness for C8: the owner of the sample question, whose answer
at index 3 is flagged as accepted, accepts the answer at index 2. -/
theorem accept_answer_exactly_one_witness :
    findById [sampleQuestion] (.wellFormed "q1") = some (some sampleQuestion) ∧
    sampleQuestion.comments[2]? = some votedAnswer ∧
    (acceptAnswer 9 [sampleQuestion] (.wellFormed "q1") (some 2) "owner").status = 200 ∧
    ∃ c1, findById (acceptAnswer 9 [sampleQuestion] (.wellFormed "q1") (some 2) "owner").db
        (.wellFormed "q1") = some (some c1) ∧
      c1.solved = true ∧
      (∀ (j : Nat) (cm : Comment), c1.comments[j]? = some cm →
        (cm.acceptedAnswer = true ↔ j = 2)) :=
  have h := accept_answer_exactly_one 9 [sampleQuestion] "q1" sampleQuestion 2 votedAnswer
    (by decide) (by decide) (by decide) (by decide)
  ⟨by decide, by decide, h.1, h.2.imp fun _ h1 => ⟨h1.1, h1.2.1, h1.2.2.2.2⟩⟩

theorem acceptAnswer_keeps_solved (now : Nat) (db : List Content) (contentId : IdParam)
    (commentIndex : Option Int) (user : ObjectId) (id : ObjectId) (d : Content)
    (hfind : findById db (.wellFormed id) = some (some d)) (hs : d.solved = true) :
    ∃ d1, findById (acceptAnswer now db contentId commentIndex user).db (.wellFormed id)
        = some (some d1) ∧ d1.solved = true := by
  rcases acceptAnswer_db now db contentId commentIndex user with h | ⟨tid, t, n, -, ht, -, h⟩
  · rw [h]
    exact ⟨d, hfind, hs⟩
  · rw [h]
    exact findById_save_keeps (fun x => x.solved = true) now db _ t tid ht
      (markAccepted_id n t) (fun _ => rfl) id d hfind hs

theorem voteAnswer_keeps_solved (now : Nat) (db : List Content) (contentId : IdParam)
    (commentIndex : Option Int) (direction : String) (user : ObjectId) (id : ObjectId)
    (d : Content)
    (hfind : findById db (.wellFormed id) = some (some d)) (hs : d.solved = true) :
    ∃ d1, findById (voteAnswer now db contentId commentIndex direction user).db
        (.wellFormed id) = some (some d1) ∧ d1.solved = true := by
  rcases voteAnswer_db now db contentId commentIndex direction user with
    h | ⟨tid, t, i, a, a1, -, ht, -, -, h⟩
  · rw [h]
    exact ⟨d, hfind, hs⟩
  · rw [h]
    exact findById_save_keeps (fun x => x.solved = true) now db _ t tid ht
      (set_comments_id t _) (fun h => h) id d hfind hs

theorem postAnswer_keeps_solved (now : Nat) (users : List User) (db : List Content)
    (contentId : IdParam) (text : Option String) (user : ObjectId) (id : ObjectId)
    (d : Content)
    (hfind : findById db (.wellFormed id) = some (some d)) (hs : d.solved = true) :
    ∃ d1, findById (postAnswer now users db contentId text user).db (.wellFormed id)
        = some (some d1) ∧ d1.solved = true := by
  rcases postAnswer_db now users db contentId text user with h | ⟨tid, t, cm, -, ht, h⟩
  · rw [h]
    exact ⟨d, hfind, hs⟩
  · rw [h]
    exact findById_save_keeps (fun x => x.solved = true) now db _ t tid ht
      (set_comments_id t _) (fun h => h) id d hfind hs

theorem postComment_keeps_solved (now : Nat) (users : List User) (db : List Content)
    (contentId : IdParam) (text : Option String) (user : ObjectId) (id : ObjectId)
    (d : Content)
    (hfind : findById db (.wellFormed id) = some (some d)) (hs : d.solved = true) :
    ∃ d1, findById (postComment now users db contentId text user).db (.wellFormed id)
        = some (some d1) ∧ d1.solved = true := by
  rcases postComment_db now users db contentId text user with h | ⟨tid, t, cm, -, ht, h⟩
  · rw [h]
    exact ⟨d, hfind, hs⟩
  · rw [h]
    exact findById_save_keeps (fun x => x.solved = true) now db _ t tid ht
      (set_comments_id t _) (fun h => h) id d hfind hs

/-- C9: on a stored question with answers at two distinct indices `i` and `j`, the owner
accepting `i` and then `j` succeeds twice and leaves the comment at `j` accepted, the
comment at `i` not accepted and `solved` true.  Moreover no request to the accept-answer,
vote-answer, answer or comment route, whatever its parameters, turns the `solved` flag of
a stored item from true to false. -/
theorem accept_moves_flag_solved_stays (now1 now2 : Nat) (db : List Content)
    (id : ObjectId) (c : Content) (i j : Nat) (a b : Comment)
    (hfind : findById db (.wellFormed id) = some (some c))
    (hq : c.contentType = .Question) (hij : i ≠ j)
    (hi : c.comments[i]? = some a) (ha : a.isAnswer = true)
    (hj : c.comments[j]? = some b) (hb : b.isAnswer = true) :
    ((acceptAnswer now1 db (.wellFormed id) (some (i : Int)) c.userId).status = 200 ∧
      (acceptAnswer now2 (acceptAnswer now1 db (.wellFormed id) (some (i : Int)) c.userId).db
        (.wellFormed id) (some (j : Int)) c.userId).status = 200 ∧
      ∃ c2 ci cj,
        findById (acceptAnswer now2
          (acceptAnswer now1 db (.wellFormed id) (some (i : Int)) c.userId).db
          (.wellFormed id) (some (j : Int)) c.userId).db (.wellFormed id) = some (some c2) ∧
        c2.comments[j]? = some cj ∧ cj.acceptedAnswer = true ∧
        c2.comments[i]? = some ci ∧ ci.acceptedAnswer = false ∧
        c2.solved = true) ∧
    (∀ (now : Nat) (users : List User) (store : List Content) (contentId : IdParam)
        (commentIndex : Option Int) (direction : String) (text : Option String)
        (user : ObjectId) (did : ObjectId) (d : Content),
      findById store (.wellFormed did) = some (some d) → d.solved = true →
      (∃ d1, findById (acceptAnswer now store contentId commentIndex user).db
          (.wellFormed did) = some (some d1) ∧ d1.solved = true) ∧
      (∃ d1, findById (voteAnswer now store contentId commentIndex direction user).db
          (.wellFormed did) = some (some d1) ∧ d1.solved = true) ∧
      (∃ d1, findById (postAnswer now users store contentId text user).db
          (.wellFormed did) = some (some d1) ∧ d1.solved = true) ∧
      (∃ d1, findById (postComment now users store contentId text user).db
          (.wellFormed did) = some (some d1) ∧ d1.solved = true)) := by
  constructor
  · have h1 := acceptAnswer_ok now1 db id c i a c.userId hfind hq rfl hi ha
    have hfind1 : findById (acceptAnswer now1 db (.wellFormed id) (some (i : Int)) c.userId).db
        (.wellFormed id) = some (some (preSave now1 (markAccepted i c))) := by
      rw [h1]
      exact findById_save_same now1 db _ c id hfind (markAccepted_id i c)
    have hj1 : (preSave now1 (markAccepted i c)).comments[j]? =
        some { b with acceptedAnswer := decide (j = i) } := by
      show (markAccepted (i : Int) c).comments[j]? = _
      rw [markAccepted_getElem?, hj]
      rfl
    have hi1 : (preSave now1 (markAccepted i c)).comments[i]? =
        some { a with acceptedAnswer := decide (i = i) } := by
      show (markAccepted (i : Int) c).comments[i]? = _
      rw [markAccepted_getElem?, hi]
      rfl
    have h2 := acceptAnswer_ok now2 _ id (preSave now1 (markAccepted i c)) j _ c.userId
      hfind1 hq rfl hj1 hb
    refine ⟨by rw [h1], by rw [h2], preSave now2 (markAccepted j (preSave now1 (markAccepted i c))),
      { a with acceptedAnswer := decide (i = j) }, { b with acceptedAnswer := decide (j = j) },
      ?_, ?_, ?_, ?_, ?_, rfl⟩
    · rw [h2]
      exact findById_save_same now2 _ _ _ id hfind1 (markAccepted_id j _)
    · show (markAccepted (j : Int) (preSave now1 (markAccepted i c))).comments[j]? = _
      rw [markAccepted_getElem?, hj1]
      rfl
    · simp
    · show (markAccepted (j : Int) (preSave now1 (markAccepted i c))).comments[i]? = _
      rw [markAccepted_getElem?, hi1]
      rfl
    · simp [hij]
  · intro now users store contentId commentIndex direction text user did d hd hs
    exact ⟨acceptAnswer_keeps_solved now store contentId commentIndex user did d hd hs,
      voteAnswer_keeps_solved now store contentId commentIndex direction user did d hd hs,
      postAnswer_keeps_solved now users store contentId text user did d hd hs,
      postComment_keeps_solved now users store contentId text user did d hd hs⟩

/-- Witness for C9: the owner of the sample question accepts
the answer at index 0 and then the answer at index 2. -/
theorem accept_moves_flag_solved_stays_witness :
    findById [sampleQuestion] (.wellFormed "q1") = some (some sampleQuestion) ∧
    sampleQuestion.comments[0]? = some freshAnswer ∧
    sampleQuestion.comments[2]? = some votedAnswer ∧
    ∃ c2 ci cj,
      findById (acceptAnswer 8
        (acceptAnswer 7 [sampleQuestion] (.wellFormed "q1") (some 0) "owner").db
        (.wellFormed "q1") (some 2) "owner").db (.wellFormed "q1") = some (some c2) ∧
      c2.comments[2]? = some cj ∧ cj.acceptedAnswer = true ∧
      c2.comments[0]? = some ci ∧ ci.acceptedAnswer = false ∧
      c2.solved = true :=
  ⟨by decide, by decide, by decide,
    (accept_moves_flag_solved_stays 7 8 [sampleQuestion] "q1" sampleQuestion 0 2
      freshAnswer votedAnswer (by decide) (by decide) (by decide) (by decide) (by decide)
      (by decide) (by decide)).1.2.2⟩

/-- C10 (as stated, refuted): on the sample question a caller who is not the owner gets
400, not 403, when the body carries no comment index; and the out-of-range index 7 gets
403, not 400, when the caller is not the owner. -/
theorem acceptAnswer_status_order :
    findById [sampleQuestion] (.wellFormed "q1") = some (some sampleQuestion) ∧
    sampleQuestion.contentType = .Question ∧
    "intruder" ≠ sampleQuestion.userId ∧
    (acceptAnswer 9 [sampleQuestion] (.wellFormed "q1") none "intruder").status = 400 ∧
    (7 : Int) ≥ sampleQuestion.comments.length ∧
    (acceptAnswer 9 [sampleQuestion] (.wellFormed "q1") (some 7) "intruder").status = 403 := by
  refine ⟨by decide, by decide, by decide, by decide, by decide, by decide⟩

/-- C10 (amended): for an accept-answer request on a stored question, the status is 200
exactly when the caller is the owner and the comment index is the index of a comment with
`isAnswer = true`.  A request without a comment index gets 400 whoever the caller is; a
caller other than the owner who supplies an index gets 403, whatever the index; the owner
gets 400 for an index out of range and for a target that is not an answer.  Every request
that is not answered with 200 leaves the collection, hence every `acceptedAnswer` flag and
the `solved` flag, as it was. -/
theorem acceptAnswer_checks (now : Nat) (db : List Content) (id : ObjectId) (c : Content)
    (commentIndex : Option Int) (U : ObjectId)
    (hfind : findById db (.wellFormed id) = some (some c))
    (hq : c.contentType = .Question) :
    (commentIndex = none →
      (acceptAnswer now db (.wellFormed id) commentIndex U).status = 400) ∧
    (commentIndex ≠ none → U ≠ c.userId →
      (acceptAnswer now db (.wellFormed id) commentIndex U).status = 403) ∧
    (U = c.userId → ∀ n : Int, commentIndex = some n → (n < 0 ∨ n ≥ c.comments.length) →
      (acceptAnswer now db (.wellFormed id) commentIndex U).status = 400) ∧
    (U = c.userId → ∀ (i : Nat) (a : Comment), commentIndex = some (i : Int) →
      c.comments[i]? = some a → a.isAnswer = false →
      (acceptAnswer now db (.wellFormed id) commentIndex U).status = 400) ∧
    ((acceptAnswer now db (.wellFormed id) commentIndex U).status = 200 ↔
      (U = c.userId ∧ ∃ (i : Nat) (a : Comment), commentIndex = some (i : Int) ∧
        c.comments[i]? = some a ∧ a.isAnswer = true)) ∧
    ((acceptAnswer now db (.wellFormed id) commentIndex U).status ≠ 200 →
      (acceptAnswer now db (.wellFormed id) commentIndex U).db = db) := by
  have hdb : (acceptAnswer now db (.wellFormed id) commentIndex U).status ≠ 200 →
      (acceptAnswer now db (.wellFormed id) commentIndex U).db = db := by
    intro hne
    rcases acceptAnswer_db now db (.wellFormed id) commentIndex U with h | ⟨_, _, _, -, -, hs, -⟩
    · exact h
    · exact absurd hs hne
  cases commentIndex with
  | none =>
    refine ⟨fun _ => rfl, fun h => absurd rfl h, ?_, ?_, ?_, hdb⟩
    · intro _ n hn
      cases hn
    · intro _ i a hn
      cases hn
    · constructor
      · intro h
        simp [acceptAnswer] at h
      · rintro ⟨-, i, a, hn, -⟩
        cases hn
  | some n =>
    by_cases hown : U = c.userId
    · subst hown
      by_cases hr : n < 0 ∨ n ≥ (c.comments.length : Int)
      · have hst : (acceptAnswer now db (.wellFormed id) (some n) c.userId).status = 400 := by
          simp [acceptAnswer, hfind, hq, hr]
        refine ⟨(fun h => nomatch h), fun _ h => absurd rfl h, fun _ _ _ _ => hst,
          fun _ _ _ _ _ _ => hst, ?_, hdb⟩
        constructor
        · intro h
          rw [hst] at h
          cases h
        · rintro ⟨-, i, a, hn, hi, -⟩
          cases hn
          exact absurd hr (index_in_range hi)
      · have hn0 : (n.toNat : Int) = n := Int.toNat_of_nonneg (by omega)
        have hlt : n.toNat < c.comments.length := by omega
        obtain ⟨a, ha⟩ : ∃ a, c.comments[n.toNat]? = some a :=
          ⟨c.comments[n.toNat], List.getElem?_eq_getElem hlt⟩
        cases hans : a.isAnswer with
        | false =>
          have hst : (acceptAnswer now db (.wellFormed id) (some n) c.userId).status = 400 := by
            simp [acceptAnswer, hfind, hq, hr, ha, hans]
          refine ⟨(fun h => nomatch h), fun _ h => absurd rfl h, fun _ _ _ _ => hst,
            fun _ _ _ _ _ _ => hst, ?_, hdb⟩
          constructor
          · intro h
            rw [hst] at h
            cases h
          · rintro ⟨-, i, b, hn, hi, hb⟩
            cases hn
            rw [Int.toNat_ofNat, hi] at ha
            cases ha
            rw [hans] at hb
            cases hb
        | true =>
          have hst : (acceptAnswer now db (.wellFormed id) (some n) c.userId).status = 200 := by
            simp [acceptAnswer, hfind, hq, hr, ha, hans]
          refine ⟨(fun h => nomatch h), fun _ h => absurd rfl h, fun _ m hm hm1 => ?_,
            fun _ i b hn hi hb => ?_, ?_, hdb⟩
          · cases hm
            exact absurd hm1 hr
          · cases hn
            rw [Int.toNat_ofNat, hi] at ha
            cases ha
            rw [hans] at hb
            cases hb
          · exact ⟨fun _ => ⟨rfl, n.toNat, a, by rw [hn0], ha, hans⟩, fun _ => hst⟩
    · have hown1 : ¬ c.userId = U := fun h => hown h.symm
      have hst : (acceptAnswer now db (.wellFormed id) (some n) U).status = 403 := by
        simp [acceptAnswer, hfind, hq, hown1]
      refine ⟨(fun h => nomatch h), fun _ _ => hst, fun h => absurd h hown,
        fun h => absurd h hown, ?_, hdb⟩
      constructor
      · intro h
        rw [hst] at h
        cases h
      · rintro ⟨h, -⟩
        exact absurd h hown

/-- Witness for C10, on the sample question: its owner is answered with 400
for the comment at index 1, which is not an answer, and the collection is as it was. -/
theorem acceptAnswer_checks_witness :
    findById [sampleQuestion] (.wellFormed "q1") = some (some sampleQuestion) ∧
    sampleQuestion.contentType = .Question ∧
    sampleQuestion.comments[1]? = some plainComment ∧
    (acceptAnswer 9 [sampleQuestion] (.wellFormed "q1") (some 1) "owner").status = 400 ∧
    (acceptAnswer 9 [sampleQuestion] (.wellFormed "q1") (some 1) "owner").db
      = [sampleQuestion] :=
  have h := acceptAnswer_checks 9 [sampleQuestion] "q1" sampleQuestion (some 1) "owner"
    (by decide) (by decide)
  ⟨by decide, by decide, by decide,
    h.2.2.2.1 (by decide) 1 plainComment rfl (by decide) (by decide),
    h.2.2.2.2.2 (by decide)⟩

/-! ## Claim C11: the question routes on other content -/

/-- C11: on a stored content item whose `contentType` is not `Question`, the answer,
accept-answer and vote-answer handlers each respond with status 400, whatever the text,
comment index, direction and caller, and leave the collection, hence the item's comments,
their votes and its `solved` flag, as it was. -/
theorem non_question_rejected (now : Nat) (users : List User) (db : List Content)
    (id : ObjectId) (c : Content) (commentIndex : Option Int) (direction : String)
    (text : Option String) (U : ObjectId)
    (hfind : findById db (.wellFormed id) = some (some c))
    (hq : c.contentType ≠ .Question) :
    ((postAnswer now users db (.wellFormed id) text U).status = 400 ∧
      (postAnswer now users db (.wellFormed id) text U).db = db) ∧
    ((acceptAnswer now db (.wellFormed id) commentIndex U).status = 400 ∧
      (acceptAnswer now db (.wellFormed id) commentIndex U).db = db) ∧
    ((voteAnswer now db (.wellFormed id) commentIndex direction U).status = 400 ∧
      (voteAnswer now db (.wellFormed id) commentIndex direction U).db = db) := by
  refine ⟨?_, ?_, ?_⟩
  · unfold postAnswer
    by_cases hb : isBlank text = true
    · simp [hb]
    · simp [hb, hfind, hq]
  · unfold acceptAnswer
    cases commentIndex with
    | none => exact ⟨rfl, rfl⟩
    | some n => simp [hfind, hq]
  · unfold voteAnswer
    cases commentIndex with
    | none => exact ⟨rfl, rfl⟩
    | some n =>
      by_cases hd : (["up", "down"].contains direction) = true
      · simp only [hd, hfind]
        simp [hq]
      · simp only [hd]
        simp

/-- Witness for C11: the owner of a post tries to accept its comment at index 0. -/
theorem non_question_rejected_witness :
    findById [commentedPost] (.wellFormed "c3") = some (some commentedPost) ∧
    commentedPost.contentType ≠ .Question ∧
    (acceptAnswer 9 [commentedPost] (.wellFormed "c3") (some 0) "owner").status = 400 ∧
    (acceptAnswer 9 [commentedPost] (.wellFormed "c3") (some 0) "owner").db = [commentedPost] :=
  ⟨by decide, by decide,
    (non_question_rejected 9 [] [commentedPost] "c3" commentedPost (some 0) "up" (some "x")
      "owner" (by decide) (by decide)).2.1⟩

/-! ## Save and repost -/

theorem getField_setField_same (key value : String) (fields : List (String × String)) :
    getField key (setField key value fields) = some value := by
  induction fields with
  | nil => simp [setField, getField]
  | cons kv rest ih =>
    by_cases h : kv.1 = key
    · simp [setField, getField, h]
    · have ih1 := ih
      simp only [getField] at ih1 ⊢
      simp [setField, h, ih1]

theorem getField_setField_ne (key value other : String) (fields : List (String × String))
    (hne : other ≠ key) :
    getField other (setField key value fields) = getField other fields := by
  induction fields with
  | nil =>
    have h : ¬ key = other := fun e => hne e.symm
    simp [setField, getField, h]
  | cons kv rest ih =>
    by_cases h : kv.1 = key
    · have h1 : ¬ kv.1 = other := fun e => hne (e ▸ h)
      have h2 : ¬ key = other := fun e => hne e.symm
      simp [setField, getField, h, h1, h2]
    · simp only [getField] at ih ⊢
      have hb : (kv.1 == key) = false := by simpa using h
      simp only [setField, hb, Bool.false_eq_true, if_false, List.find?_cons]
      by_cases h1 : kv.1 = other
      · have hb1 : (kv.1 == other) = true := by simpa using h1
        rw [hb1]
      · have hb1 : (kv.1 == other) = false := by simpa using h1
        rw [hb1]
        exact ih

theorem save_append_other (now : Nat) (db : List Content) (doc extra : Content)
    (hne : extra._id ≠ doc._id) :
    save now (db ++ [extra]) doc = save now db doc ++ [extra] := by
  simp [save, hne]

theorem findById_mem {db : List Content} {id : ObjectId} {c : Content}
    (hfind : findById db (.wellFormed id) = some (some c)) : c ∈ db ∧ c._id = id := by
  simp only [findById, Option.some.injEq] at hfind
  exact ⟨List.mem_of_find?_eq_some hfind, find?_id_eq hfind⟩

theorem findById_append {db : List Content} {id : ObjectId} {c : Content} (extra : List Content)
    (hfind : findById db (.wellFormed id) = some (some c)) :
    findById (db ++ extra) (.wellFormed id) = some (some c) := by
  simp only [findById, Option.some.injEq] at hfind ⊢
  rw [List.find?_append, hfind]
  rfl

/-- The repost handler on a stored item that the caller has not reposted. -/
theorem repost_new (now : Nat) (newId : ObjectId) (db : List Content) (id : ObjectId)
    (c : Content) (note : Option String) (U : ObjectId)
    (hfind : findById db (.wellFormed id) = some (some c)) (hU : U ∉ c.reposts) :
    repost now newId db (.wellFormed id) note U =
      { status := 201
        message := some "Content reposted successfully"
        body := .reposted (preSave now { c with reposts := c.reposts ++ [U] })
          (makeRepost now newId U note c)
        db := save now (db ++ [makeRepost now newId U note c])
          { c with reposts := c.reposts ++ [U] } } := by
  unfold repost
  simp [hfind, hU]

/-- Erasing the first document that satisfies `p` keeps the lookup of a document that
does not satisfy `p`. -/
theorem find?_eraseP_other (p : Content → Bool) (db : List Content) (id : ObjectId)
    (c : Content) (hfind : db.find? (fun d => d._id == id) = some c) (hp : p c = false) :
    (db.eraseP p).find? (fun d => d._id == id) = some c := by
  induction db with
  | nil => simp at hfind
  | cons d ds ih =>
    rw [List.eraseP_cons]
    by_cases hd : (d._id == id) = true
    · have hdc : d = c := by simpa [List.find?_cons, hd] using hfind
      subst hdc
      simp [hp, List.find?_cons, hd]
    · have hd1 : (d._id == id) = false := by simpa using hd
      have hfind1 : ds.find? (fun d => d._id == id) = some c := by
        simpa [List.find?_cons, hd1] using hfind
      cases hpd : p d with
      | true =>
        simp only [cond_true]
        exact hfind1
      | false =>
        simp only [cond_false, List.find?_cons, hd1]
        exact ih hfind1

theorem save_save (now1 now2 : Nat) (db : List Content) (a b : Content)
    (hid : a._id = b._id) :
    save now2 (save now1 db a) b = save now2 db b := by
  simp only [save, List.map_map]
  apply List.map_congr_left
  intro d _
  by_cases h : d._id = b._id
  · simp [h, hid, preSave]
  · simp [h, hid]

/-- The repost handler on a stored item that the caller has reposted, when the item is
still stored after the caller's derived document is deleted. -/
theorem repost_existing (now : Nat) (newId : ObjectId) (db : List Content) (id : ObjectId)
    (c : Content) (note : Option String) (U : ObjectId)
    (hfind : findById db (.wellFormed id) = some (some c)) (hU : U ∈ c.reposts)
    (hstill : findById (db.eraseP (fun d =>
      d.userId == U && d.originalContentId == some c._id)) (.wellFormed id) = some (some c)) :
    repost now newId db (.wellFormed id) note U =
      { status := 200
        message := some "Content unreposted successfully"
        body := .content (preSave now
          { c with reposts := c.reposts.filter (fun x => x != U) })
        db := save now
          (db.eraseP (fun d => d.userId == U && d.originalContentId == some c._id))
          { c with reposts := c.reposts.filter (fun x => x != U) } } := by
  have hany : (db.eraseP (fun d =>
      d.userId == U && d.originalContentId == some c._id)).any
        (fun d => d._id == c._id) = true := by
    rw [List.any_eq_true]
    have hm := findById_mem hstill
    exact ⟨c, hm.1, by simp⟩
  have hc : c.reposts.contains U = true := by simpa using hU
  unfold repost
  simp only [hfind, hc, if_true, hany]

theorem preSave_saves (t : Nat) (c : Content) : (preSave t c).saves = c.saves := rfl

theorem toggleSave_id (U : ObjectId) (c : Content) : (toggleSave U c)._id = c._id := by
  unfold toggleSave
  split_ifs <;> rfl

theorem toggleSave_saves (U : ObjectId) (c : Content) :
    (toggleSave U c).saves =
      if U ∈ c.saves then c.saves.filter (fun id => id != U) else c.saves ++ [U] := by
  by_cases h : U ∈ c.saves <;> simp [toggleSave, h]

/-- The save toggle touches `saves` only. -/
theorem toggleSave_frame (U : ObjectId) (c : Content) :
    (toggleSave U c).likes = c.likes ∧ (toggleSave U c).dislikes = c.dislikes ∧
    (toggleSave U c).reposts = c.reposts ∧ (toggleSave U c).comments = c.comments := by
  unfold toggleSave
  split_ifs <;> exact ⟨rfl, rfl, rfl, rfl⟩

theorem saveContent_found (now : Nat) (db : List Content) (id : ObjectId) (c : Content)
    (U : ObjectId) (hfind : findById db (.wellFormed id) = some (some c)) :
    (saveContent now db (.wellFormed id) U).status = 200 ∧
    (saveContent now db (.wellFormed id) U).db = save now db (toggleSave U c) ∧
    findById (saveContent now db (.wellFormed id) U).db (.wellFormed id)
      = some (some (preSave now (toggleSave U c))) := by
  have h : (saveContent now db (.wellFormed id) U).db = save now db (toggleSave U c) := by
    simp [saveContent, hfind]
  refine ⟨by simp [saveContent, hfind], h, ?_⟩
  rw [h]
  exact findById_save_same now db _ c id hfind (toggleSave_id U c)

/-! ## Claims C12 - C15: repost and save -/

/-- C12: on a stored item `c` that the caller `U` has not reposted, and with a generated id
that no stored document carries, the repost handler responds 201 and leaves the collection
as it was with `U` appended to the reposts of `c` (and its `lastUpdatedAt` touched) and
exactly one document added at the end: it carries the generated id, is owned by `U` and has
`originalContentId = c._id`.  Every stored document with another id is where and as it
was. -/
theorem repost_adds_one (now : Nat) (newId : ObjectId) (db : List Content) (id : ObjectId)
    (c : Content) (note : Option String) (U : ObjectId)
    (hfind : findById db (.wellFormed id) = some (some c)) (hU : U ∉ c.reposts)
    (hfresh : ∀ d ∈ db, d._id ≠ newId) :
    (repost now newId db (.wellFormed id) note U).status = 201 ∧
    ∃ r,
      (repost now newId db (.wellFormed id) note U).db =
        db.map (fun d => if d._id == c._id
          then preSave now { c with reposts := c.reposts ++ [U] } else d) ++ [r] ∧
      r._id = newId ∧ r.userId = U ∧ r.originalContentId = some c._id ∧
      (repost now newId db (.wellFormed id) note U).db.length = db.length + 1 ∧
      (∀ (k : Nat) (d : Content), db[k]? = some d → d._id ≠ c._id →
        (repost now newId db (.wellFormed id) note U).db[k]? = some d) ∧
      ∃ c1, findById (repost now newId db (.wellFormed id) note U).db (.wellFormed id)
          = some (some c1) ∧ c1.reposts = c.reposts ++ [U] := by
  have hmem := findById_mem hfind
  have hne : (makeRepost now newId U note c)._id ≠
      ({ c with reposts := c.reposts ++ [U] } : Content)._id := by
    show newId ≠ c._id
    exact fun e => hfresh c hmem.1 e.symm
  rw [repost_new now newId db id c note U hfind hU, save_append_other _ _ _ _ hne]
  refine ⟨rfl, makeRepost now newId U note c, rfl, rfl, rfl, rfl, ?_, ?_, ?_⟩
  · simp [save]
  · intro k d hk hd
    have hlt : k < db.length := (List.getElem?_eq_some.mp hk).1
    have hb : (d._id == c._id) = false := by simpa using hd
    show (save now db _ ++ _)[k]? = some d
    rw [List.getElem?_append_left (by simpa [save] using hlt)]
    simp only [save, List.getElem?_map, hk, Option.map, hb]
    rfl
  · refine ⟨preSave now { c with reposts := c.reposts ++ [U] }, ?_, rfl⟩
    exact findById_append _ (findById_save_same now db _ c id hfind rfl)

/-- Witness for C12: `u` reposts the private post, the generated id being `r1`. -/
theorem repost_adds_one_witness :
    findById [privatePost] (.wellFormed "c4") = some (some privatePost) ∧
    "u" ∉ privatePost.reposts ∧
    (repost 7 "r1" [privatePost] (.wellFormed "c4") none "u").status = 201 ∧
    ∃ r, (repost 7 "r1" [privatePost] (.wellFormed "c4") none "u").db =
        [privatePost].map (fun d => if d._id == privatePost._id
          then preSave 7 { privatePost with reposts := privatePost.reposts ++ ["u"] }
          else d) ++ [r] ∧
      r._id = "r1" ∧ r.userId = "u" ∧ r.originalContentId = some privatePost._id :=
  have h := repost_adds_one 7 "r1" [privatePost] "c4" privatePost none "u"
    (by decide) (by decide) (by decide)
  ⟨by decide, by decide, h.1, h.2.imp fun _ hr => ⟨hr.1, hr.2.1, hr.2.2.1, hr.2.2.2.1⟩⟩

/-- C13 (as stated, refuted): the document created by a repost of the private post does
not have the `extraFields` of that post: it carries the added key `repostNote`. -/
theorem repost_extraFields_differ :
    findById [privatePost] (.wellFormed "c4") = some (some privatePost) ∧
    (repost 7 "r1" [privatePost] (.wellFormed "c4") none "u").status = 201 ∧
    (repost 7 "r1" [privatePost] (.wellFormed "c4") none "u").body =
      .reposted (preSave 7 { privatePost with reposts := ["u"] })
        (makeRepost 7 "r1" "u" none privatePost) ∧
    (makeRepost 7 "r1" "u" none privatePost).extraFields =
      [("description", "weekly notes"), ("repostNote", "")] ∧
    (makeRepost 7 "r1" "u" none privatePost).extraFields ≠ privatePost.extraFields := by
  refine ⟨by decide, by decide, by decide, by decide, by decide⟩

/-- C13 (amended): the document created by a repost of a stored item `c` under a generated
id that no stored document carries (the last document of the collection and the `repost`
of the response) has the `contentType`, `title` and
`image` of `c` and `visibility = Public` whatever the visibility of `c`; its `extraFields`
hold the request's `repostNote` (the empty text when absent) under the key `repostNote` and
agree with those of `c` on every other key. -/
theorem repost_copies_fields (now : Nat) (newId : ObjectId) (db : List Content)
    (id : ObjectId) (c : Content) (note : Option String) (U : ObjectId)
    (hfind : findById db (.wellFormed id) = some (some c)) (hU : U ∉ c.reposts)
    (hfresh : ∀ d ∈ db, d._id ≠ newId) :
    ∃ c1 r,
      (repost now newId db (.wellFormed id) note U).body = .reposted c1 r ∧
      (repost now newId db (.wellFormed id) note U).db.getLast? = some r ∧
      r.contentType = c.contentType ∧ r.title = c.title ∧ r.image = c.image ∧
      r.visibility = .Public ∧
      getField "repostNote" r.extraFields = some (note.getD "") ∧
      (∀ key : String, key ≠ "repostNote" →
        getField key r.extraFields = getField key c.extraFields) := by
  have hne : (makeRepost now newId U note c)._id ≠
      ({ c with reposts := c.reposts ++ [U] } : Content)._id := by
    show newId ≠ c._id
    exact fun e => hfresh c (findById_mem hfind).1 e.symm
  rw [repost_new now newId db id c note U hfind hU, save_append_other _ _ _ _ hne]
  refine ⟨_, makeRepost now newId U note c, rfl, ?_, rfl, rfl, rfl, rfl, ?_, ?_⟩
  · simp
  · exact getField_setField_same _ _ _
  · intro key hkey
    exact getField_setField_ne _ _ _ _ hkey

/-- Witness for C13: the repost of the private post is public and keeps its description. -/
theorem repost_copies_fields_witness :
    findById [privatePost] (.wellFormed "c4") = some (some privatePost) ∧
    privatePost.visibility = .Private ∧
    ∃ c1 r, (repost 7 "r1" [privatePost] (.wellFormed "c4") (some "look") "u").body
        = .reposted c1 r ∧
      r.visibility = .Public ∧ r.title = "Notes" ∧
      getField "repostNote" r.extraFields = some "look" ∧
      getField "description" r.extraFields = some "weekly notes" :=
  have h := repost_copies_fields 7 "r1" [privatePost] "c4" privatePost (some "look") "u"
    (by decide) (by decide) (by decide)
  ⟨by decide, by decide,
    h.imp fun _ h1 => h1.imp fun _ h2 =>
      ⟨h2.1, h2.2.2.2.2.2.1, h2.2.2.2.1, h2.2.2.2.2.2.2.1,
        (h2.2.2.2.2.2.2.2 "description" (by decide)).trans (by decide)⟩⟩

/-- C14 (as stated, refuted): the collection holds the private post and a document of `u`
that names it as original, while `u` is not in its reposts.  A repost by `u` followed by a
repost by `u` succeeds twice, deletes the older document and keeps the one the first call
created, so the stored documents are not those held before the first call. -/
theorem repost_twice_swaps_document :
    findById [privatePost, strayRepost] (.wellFormed "c4") = some (some privatePost) ∧
    "u" ∉ privatePost.reposts ∧
    (repost 7 "r1" [privatePost, strayRepost] (.wellFormed "c4") none "u").status = 201 ∧
    (repost 8 "r2" (repost 7 "r1" [privatePost, strayRepost] (.wellFormed "c4") none "u").db
      (.wellFormed "c4") none "u").status = 200 ∧
    (repost 8 "r2" (repost 7 "r1" [privatePost, strayRepost] (.wellFormed "c4") none "u").db
      (.wellFormed "c4") none "u").db =
        [{ privatePost with lastUpdatedAt := 8 }, makeRepost 7 "r1" "u" none privatePost] ∧
    strayRepost ∉ (repost 8 "r2"
      (repost 7 "r1" [privatePost, strayRepost] (.wellFormed "c4") none "u").db
      (.wellFormed "c4") none "u").db ∧
    makeRepost 7 "r1" "u" none privatePost ∉ [privatePost, strayRepost] := by
  refine ⟨by decide, by decide, by decide, by decide, by decide, by decide, by decide⟩

/-- C14 (amended): on a stored item `c` that the caller `U` has reposted and that is not
itself a document of `U` naming `c` as original, the repost handler responds 200, deletes
the first stored document with `userId = U` and `originalContentId = c._id` (none when
there is none) and removes every occurrence of `U` from the reposts of `c`.  And when `U`
has not reposted `c`, no stored document has `userId = U` and `originalContentId = c._id`
and the generated id is carried by no stored document, a repost followed by a repost by `U`
responds 201 and 200 and leaves the collection as it was before the first call, the
`lastUpdatedAt` of `c` apart: the reposts of `c` and every other document are restored. -/
theorem repost_toggles_back (now1 now2 : Nat) (newId newId2 : ObjectId) (db : List Content)
    (id : ObjectId) (c : Content) (note note2 : Option String) (U : ObjectId)
    (hfind : findById db (.wellFormed id) = some (some c)) :
    (U ∈ c.reposts → ¬ (c.userId = U ∧ c.originalContentId = some c._id) →
      (repost now1 newId db (.wellFormed id) note U).status = 200 ∧
      (repost now1 newId db (.wellFormed id) note U).db =
        save now1 (db.eraseP (fun d => d.userId == U && d.originalContentId == some c._id))
          { c with reposts := c.reposts.filter (fun x => x != U) } ∧
      ∃ c1, findById (repost now1 newId db (.wellFormed id) note U).db (.wellFormed id)
          = some (some c1) ∧
        (∀ x, x ∈ c1.reposts ↔ x ∈ c.reposts ∧ x ≠ U)) ∧
    (U ∉ c.reposts → (∀ d ∈ db, d._id ≠ newId) →
      (∀ d ∈ db, ¬ (d.userId = U ∧ d.originalContentId = some c._id)) →
      (repost now1 newId db (.wellFormed id) note U).status = 201 ∧
      (repost now2 newId2 (repost now1 newId db (.wellFormed id) note U).db
        (.wellFormed id) note2 U).status = 200 ∧
      (repost now2 newId2 (repost now1 newId db (.wellFormed id) note U).db
        (.wellFormed id) note2 U).db =
          db.map (fun d => if d._id == c._id then { c with lastUpdatedAt := now2 } else d) ∧
      findById (repost now2 newId2 (repost now1 newId db (.wellFormed id) note U).db
        (.wellFormed id) note2 U).db (.wellFormed id)
          = some (some { c with lastUpdatedAt := now2 })) := by
  have hmem := findById_mem hfind
  constructor
  · intro hU hself
    have hp : (fun d : Content => d.userId == U && d.originalContentId == some c._id) c
        = false := by
      by_cases h1 : c.userId = U
      · have h2 : ¬ c.originalContentId = some c._id := fun h => hself ⟨h1, h⟩
        simp [h1, h2]
      · simp [h1]
    have hstill : findById (db.eraseP (fun d =>
        d.userId == U && d.originalContentId == some c._id)) (.wellFormed id)
          = some (some c) := by
      simp only [findById, Option.some.injEq] at hfind ⊢
      exact find?_eraseP_other _ db id c hfind hp
    rw [repost_existing now1 newId db id c note U hfind hU hstill]
    refine ⟨rfl, rfl, preSave now1 { c with reposts := c.reposts.filter (fun x => x != U) },
      findById_save_same now1 _ _ c id hstill rfl, ?_⟩
    intro x
    show x ∈ c.reposts.filter (fun x => x != U) ↔ _
    exact mem_filter_ne U x c.reposts
  · intro hU hfresh hnone
    have hne : (makeRepost now1 newId U note c)._id ≠
        ({ c with reposts := c.reposts ++ [U] } : Content)._id := by
      show newId ≠ c._id
      exact fun e => hfresh c hmem.1 e.symm
    have h1 := repost_new now1 newId db id c note U hfind hU
    rw [save_append_other _ _ _ _ hne] at h1
    have hfind1 : findById (repost now1 newId db (.wellFormed id) note U).db (.wellFormed id)
        = some (some (preSave now1 { c with reposts := c.reposts ++ [U] })) := by
      rw [h1]
      exact findById_append _ (findById_save_same now1 db _ c id hfind rfl)
    have hU1 : U ∈ (preSave now1 { c with reposts := c.reposts ++ [U] }).reposts := by
      show U ∈ c.reposts ++ [U]
      simp
    have herase : (repost now1 newId db (.wellFormed id) note U).db.eraseP (fun d =>
        d.userId == U &&
          d.originalContentId == some (preSave now1 { c with reposts := c.reposts ++ [U] })._id)
        = save now1 db { c with reposts := c.reposts ++ [U] } := by
      rw [h1]
      show List.eraseP (fun d : Content =>
        d.userId == U && d.originalContentId == some c._id) _ = _
      rw [List.eraseP_append_right]
      · simp [List.eraseP_cons, makeRepost]
      · intro d hd
        simp only [save, List.mem_map] at hd
        obtain ⟨d0, hd0, rfl⟩ := hd
        have hc := hnone c hmem.1
        have hd1 := hnone d0 hd0
        by_cases hid : d0._id = c._id
        · simp only [hid, beq_self_eq_true, if_true]
          show ¬ ((c.userId == U && c.originalContentId == some c._id) = true)
          simpa using hc
        · simp only [beq_iff_eq, hid, if_false]
          simpa using hd1
    have hstill : findById ((repost now1 newId db (.wellFormed id) note U).db.eraseP (fun d =>
        d.userId == U &&
          d.originalContentId == some (preSave now1 { c with reposts := c.reposts ++ [U] })._id))
        (.wellFormed id) = some (some (preSave now1 { c with reposts := c.reposts ++ [U] })) := by
      rw [herase]
      exact findById_save_same now1 db _ c id hfind rfl
    have h2 := repost_existing now2 newId2 _ id _ note2 U hfind1 hU1 hstill
    rw [herase] at h2
    have hfilter : (c.reposts ++ [U]).filter (fun x => x != U) = c.reposts := by
      rw [List.filter_append]
      have hself1 : c.reposts.filter (fun x => x != U) = c.reposts := by
        rw [List.filter_eq_self]
        intro a ha
        have : a ≠ U := fun e => hU (e ▸ ha)
        simpa using this
      rw [hself1]
      simp
    have hdb : (repost now2 newId2 (repost now1 newId db (.wellFormed id) note U).db
        (.wellFormed id) note2 U).db =
          db.map (fun d => if d._id == c._id then { c with lastUpdatedAt := now2 } else d) := by
      have hss := save_save now1 now2 db { c with reposts := c.reposts ++ [U] }
        { preSave now1 { c with reposts := c.reposts ++ [U] } with
          reposts := (c.reposts ++ [U]).filter (fun x => x != U) } rfl
      rw [h2]
      show save now2 (save now1 db _)
        { preSave now1 { c with reposts := c.reposts ++ [U] } with
          reposts := (c.reposts ++ [U]).filter (fun x => x != U) } = _
      rw [hss, hfilter]
      rfl
    refine ⟨by rw [repost_new now1 newId db id c note U hfind hU], by rw [h2], hdb, ?_⟩
    rw [hdb]
    exact findById_save_same now2 db c c id hfind rfl

/-- Witness for C14: in a collection that holds the reposted post and the document the
repost created, `u` reposts again; and in a collection that holds only the private post,
`u` reposts twice. -/
theorem repost_toggles_back_witness :
    (findById [repostedPost, derivedRepost] (.wellFormed "c4") = some (some repostedPost) ∧
      "u" ∈ repostedPost.reposts ∧
      (repost 8 "r2" [repostedPost, derivedRepost] (.wellFormed "c4") none "u").db =
        save 8 [repostedPost] { repostedPost with reposts := [] }) ∧
    (findById [privatePost] (.wellFormed "c4") = some (some privatePost) ∧
      "u" ∉ privatePost.reposts ∧
      (repost 8 "r2" (repost 7 "r1" [privatePost] (.wellFormed "c4") none "u").db
        (.wellFormed "c4") none "u").db = [{ privatePost with lastUpdatedAt := 8 }]) :=
  ⟨⟨by decide, by decide,
      ((repost_toggles_back 8 8 "r2" "r2" [repostedPost, derivedRepost] "c4" repostedPost
        none none "u" (by decide)).1 (by decide) (by decide)).2.1⟩,
    ⟨by decide, by decide,
      ((repost_toggles_back 7 8 "r1" "r2" [privatePost] "c4" privatePost none none "u"
        (by decide)).2 (by decide) (by decide) (by decide)).2.2.1⟩⟩

/-- C15: on a stored content item the save handler responds 200; it appends the caller `U`
to `saves` when `U` is absent and removes every occurrence of `U` when present.  Two save
requests by `U` in succession leave `saves`, as a set, what it was before the first call.
After one call and after two, `likes`, `dislikes`, `reposts` and `comments` are what they
were. -/
theorem save_toggles (now1 now2 : Nat) (db : List Content) (id U : ObjectId) (c : Content)
    (hfind : findById db (.wellFormed id) = some (some c)) :
    (saveContent now1 db (.wellFormed id) U).status = 200 ∧
    (saveContent now2 (saveContent now1 db (.wellFormed id) U).db (.wellFormed id) U).status
      = 200 ∧
    ∃ c1 c2,
      findById (saveContent now1 db (.wellFormed id) U).db (.wellFormed id)
        = some (some c1) ∧
      findById (saveContent now2 (saveContent now1 db (.wellFormed id) U).db
        (.wellFormed id) U).db (.wellFormed id) = some (some c2) ∧
      (U ∉ c.saves → c1.saves = c.saves ++ [U]) ∧
      (U ∈ c.saves → c1.saves = c.saves.filter (fun x => x != U) ∧ U ∉ c1.saves) ∧
      (∀ x, x ∈ c2.saves ↔ x ∈ c.saves) ∧
      (c1.likes = c.likes ∧ c1.dislikes = c.dislikes ∧ c1.reposts = c.reposts ∧
        c1.comments = c.comments) ∧
      (c2.likes = c.likes ∧ c2.dislikes = c.dislikes ∧ c2.reposts = c.reposts ∧
        c2.comments = c.comments) := by
  obtain ⟨hs1, -, hf1⟩ := saveContent_found now1 db id c U hfind
  obtain ⟨hs2, -, hf2⟩ := saveContent_found now2 _ id _ U hf1
  have hfr1 := toggleSave_frame U c
  have hfr2 := toggleSave_frame U (preSave now1 (toggleSave U c))
  refine ⟨hs1, hs2, _, _, hf1, hf2, ?_, ?_, ?_, hfr1, ?_⟩
  · intro hU
    show (toggleSave U c).saves = _
    rw [toggleSave_saves, if_neg hU]
  · intro hU
    have h : (toggleSave U c).saves = c.saves.filter (fun x => x != U) := by
      rw [toggleSave_saves, if_pos hU]
    refine ⟨h, ?_⟩
    show U ∉ (toggleSave U c).saves
    rw [h, mem_filter_ne]
    exact fun hx => hx.2 rfl
  · intro x
    show x ∈ (toggleSave U (preSave now1 (toggleSave U c))).saves ↔ _
    simp only [toggleSave_saves, preSave_saves]
    by_cases hU : U ∈ c.saves
    · have hnot : U ∉ c.saves.filter (fun id => id != U) := by
        rw [mem_filter_ne]
        exact fun hx => hx.2 rfl
      simp only [hU, if_true, hnot, if_false, List.mem_append, List.mem_singleton,
        mem_filter_ne]
      constructor
      · rintro (⟨hx, -⟩ | rfl)
        · exact hx
        · exact hU
      · intro hx
        by_cases hxu : x = U
        · exact Or.inr hxu
        · exact Or.inl ⟨hx, hxu⟩
    · have hin : U ∈ c.saves ++ [U] := by simp
      simp only [hU, if_false, hin, if_true, mem_filter_ne, List.mem_append,
        List.mem_singleton]
      constructor
      · rintro ⟨hx | rfl, hne⟩
        · exact hx
        · exact absurd rfl hne
      · exact fun hx => ⟨Or.inl hx, fun hxu => hU (hxu ▸ hx)⟩
  · exact ⟨hfr2.1.trans hfr1.1, hfr2.2.1.trans hfr1.2.1, hfr2.2.2.1.trans hfr1.2.2.1,
      hfr2.2.2.2.trans hfr1.2.2.2⟩

/-- Witness for C15: `u` saves and unsaves the post liked by `v` and disliked by `w`. -/
theorem save_toggles_witness :
    findById [mixedPost] (.wellFormed "c2") = some (some mixedPost) ∧
    ∃ c1 c2,
      findById (saveContent 1 [mixedPost] (.wellFormed "c2") "u").db (.wellFormed "c2")
        = some (some c1) ∧
      findById (saveContent 2 (saveContent 1 [mixedPost] (.wellFormed "c2") "u").db
        (.wellFormed "c2") "u").db (.wellFormed "c2") = some (some c2) ∧
      c1.saves = mixedPost.saves ++ ["u"] ∧
      (∀ x, x ∈ c2.saves ↔ x ∈ mixedPost.saves) ∧
      c2.likes = mixedPost.likes :=
  have h := save_toggles 1 2 [mixedPost] "c2" "u" mixedPost (by decide)
  ⟨by decide, h.2.2.imp fun _ h1 => h1.imp fun _ h2 =>
    ⟨h2.1, h2.2.1, h2.2.2.1 (by decide), h2.2.2.2.2.1, h2.2.2.2.2.2.2.1⟩⟩

/-! ## Listing -/

/-- For a limit of at least 1, `ceilDiv` is the ceiling of the quotient. -/
theorem ceilDiv_eq_ceil (total : Nat) (limit : Int) (hl : 1 ≤ limit) :
    ceilDiv total limit = ⌈(total : ℚ) / (limit : ℚ)⌉ := by
  obtain ⟨l, rfl⟩ := Int.eq_ofNat_of_zero_le (by omega : (0 : Int) ≤ limit)
  unfold ceilDiv
  rw [Int.fdiv_eq_ediv _ (by omega), ← Rat.floor_intCast_div_natCast, ← Int.ceil_neg]
  congr 1
  push_cast
  ring

theorem length_sortNewestFirst (docs : List Content) :
    (sortNewestFirst docs).length = docs.length :=
  List.length_insertionSort _ docs

/-- A whole value of magnitude at most `2 ^ 53` is its own Number. -/
theorem JsInt.ofExact_exact (n : Int) (h : n.natAbs ≤ 2 ^ 53) : JsInt.ofExact n = .finite n := by
  have hbig : ¬ n.natAbs ≥ overflowThreshold := by
    have h53 : (2 : Nat) ^ 53 < overflowThreshold := by decide
    omega
  unfold JsInt.ofExact
  rw [if_neg hbig, roundToDouble_exact n h]

/-- The shared listing code for a page and a limit of at least 1 whose product is a whole
number that the Number type holds exactly. -/
theorem paginate_spec (outOfRange : JsInt → JsInt → List Content → Option (List Content))
    (matching : List Content) (pageParam limitParam : Option String) (page limit : Int)
    (hpage : queryInt pageParam 1 = .finite page)
    (hlimit : queryInt limitParam 10 = .finite limit)
    (hp : 1 ≤ page) (hl : 1 ≤ limit) (hsafe : page * limit ≤ 2 ^ 53) :
    (paginate outOfRange matching pageParam limitParam).status = 200 ∧
    (paginate outOfRange matching pageParam limitParam).contents =
      ((sortNewestFirst matching).drop ((page - 1) * limit).toNat).take limit.toNat ∧
    ((paginate outOfRange matching pageParam limitParam).contents.length : Int) =
      min limit (max 0 ((matching.length : Int) - (page - 1) * limit)) ∧
    (paginate outOfRange matching pageParam limitParam).pagination =
      some { total := matching.length
             page := .finite page
             pages := ⌈(matching.length : ℚ) / (limit : ℚ)⌉ } := by
  have hskip0 : 0 ≤ (page - 1) * limit := Int.mul_nonneg (by omega) (by omega)
  have hle : (page - 1) * limit ≤ page * limit :=
    Int.mul_le_mul_of_nonneg_right (by omega) (by omega)
  have hpl : page ≤ page * limit := by nlinarith
  have hll : limit ≤ page * limit := by nlinarith
  have hsub : (JsInt.finite page).sub 1 = .finite (page - 1) := by
    show JsInt.ofExact (page - 1) = _
    exact JsInt.ofExact_exact _ (by omega)
  have hmul : (JsInt.finite (page - 1)).mul (.finite limit)
      = .finite ((page - 1) * limit) := by
    show JsInt.ofExact ((page - 1) * limit) = _
    exact JsInt.ofExact_exact _ (by omega)
  have hrange : ¬ (((page - 1) * limit).natAbs ≥ 2 ^ 63 ∨ limit.natAbs ≥ 2 ^ 63) := by
    omega
  have hskip : ¬ ((page - 1) * limit < 0) := by omega
  have hl0 : ¬ limit = 0 := by omega
  have habs : limit.natAbs = limit.toNat := by omega
  have hres : paginate outOfRange matching pageParam limitParam =
      { status := 200
        contents := ((sortNewestFirst matching).drop ((page - 1) * limit).toNat).take
          limit.toNat
        pagination := some { total := matching.length
                             page := .finite page
                             pages := ceilDiv matching.length limit } } := by
    simp only [paginate, hpage, hlimit, hsub, hmul, skipLimit, jsCeilDiv]
    rw [if_neg hrange, if_neg hskip, if_neg hl0, habs]
  rw [hres]
  refine ⟨rfl, rfl, ?_, ?_⟩
  · simp only [List.length_take, List.length_drop, length_sortNewestFirst]
    omega
  · simp only [ceilDiv_eq_ceil _ _ hl]

/-! ## Claim C16: pagination -/

/-- C16 (as stated, refuted): over three stored posts, `limit=-2` parses as the non-zero
integer -2 and is not replaced by the default; the listing responds 200 with 2 items, while
the count the claim gives, `min(limit, max(0, total - (page-1)*limit))`, is -2.  And
`page=-1` makes the skip negative, which the database rejects: the response is 500. -/
theorem listing_negative_parameters :
    queryInt (some "-2") 10 = .finite (-2) ∧
    queryInt none 1 = .finite 1 ∧
    (listContents refuseOutOfRange threePosts none (some "-2")).status = 200 ∧
    (listContents refuseOutOfRange threePosts none (some "-2")).contents.length = 2 ∧
    min (-2 : Int) (max 0 ((threePosts.length : Int) - (1 - 1) * (-2))) = -2 ∧
    queryInt (some "-1") 1 = .finite (-1) ∧
    (listContents refuseOutOfRange threePosts (some "-1") none).status = 500 ∧
    (listContents refuseOutOfRange threePosts (some "-1") none).contents = [] := by
  refine ⟨by decide, by decide, by decide, by decide, by decide, by decide, by decide,
    by decide⟩

/-- C16 (amended): `page` and `limit` are read with `parseInt`, as Numbers, and default to
1 and 10 when the parameter is absent, does not start with an integer or gives 0; a run of
digits beyond `2 ^ 53` is read as the nearest Number (`9007199254740993` as
`9007199254740992`).  When the two Numbers read are whole, at least 1 and their product is
at most `2 ^ 53`, each listing handler responds 200, skips `(page-1)*limit` of the matching
documents (newest first), returns `min(limit, max(0, total - (page-1)*limit))` items and
reports `total`, `page` and `pages = ceil(total / limit)`, whatever the database does with
numbers beyond 64 bits.  For `page=2`, `limit=10` over 25 documents it returns 10 items and
`pages = 3`. -/
theorem listing_pagination (outOfRange : JsInt → JsInt → List Content → Option (List Content))
    (db : List Content) (uid : ObjectId) (pageParam limitParam : Option String)
    (page limit : Int)
    (hpage : queryInt pageParam 1 = .finite page)
    (hlimit : queryInt limitParam 10 = .finite limit)
    (hp : 1 ≤ page) (hl : 1 ≤ limit) (hsafe : page * limit ≤ 2 ^ 53) :
    (queryInt none 1 = .finite 1 ∧ queryInt none 10 = .finite 10 ∧
      (∀ (text : String) (fallback : Int),
        (jsParseInt text = .nan ∨ jsParseInt text = .finite 0) →
        queryInt (some text) fallback = .finite fallback) ∧
      queryInt (some "9007199254740993") 1 = .finite 9007199254740992) ∧
    ((listContents outOfRange db pageParam limitParam).status = 200 ∧
      (listContents outOfRange db pageParam limitParam).contents =
        ((sortNewestFirst db).drop ((page - 1) * limit).toNat).take limit.toNat ∧
      ((listContents outOfRange db pageParam limitParam).contents.length : Int) =
        min limit (max 0 ((db.length : Int) - (page - 1) * limit)) ∧
      (listContents outOfRange db pageParam limitParam).pagination =
        some { total := db.length
               page := .finite page
               pages := ⌈(db.length : ℚ) / (limit : ℚ)⌉ }) ∧
    ((listUserContents outOfRange db (.wellFormed uid) pageParam limitParam).status = 200 ∧
      ((listUserContents outOfRange db (.wellFormed uid) pageParam limitParam).contents.length
          : Int) =
        min limit (max 0 (((db.filter (fun d => d.userId == uid)).length : Int)
          - (page - 1) * limit)) ∧
      (listUserContents outOfRange db (.wellFormed uid) pageParam limitParam).pagination =
        some { total := (db.filter (fun d => d.userId == uid)).length
               page := .finite page
               pages := ⌈((db.filter (fun d => d.userId == uid)).length : ℚ) / (limit : ℚ)⌉ }) ∧
    (db.length = 25 → pageParam = some "2" → limitParam = some "10" →
      (listContents outOfRange db pageParam limitParam).contents.length = 10 ∧
      (listContents outOfRange db pageParam limitParam).pagination =
        some { total := 25, page := .finite 2, pages := 3 }) := by
  have hA := paginate_spec outOfRange db pageParam limitParam page limit hpage hlimit hp hl
    hsafe
  have hB := paginate_spec outOfRange (db.filter (fun d => d.userId == uid)) pageParam
    limitParam page limit hpage hlimit hp hl hsafe
  refine ⟨⟨by decide, by decide, ?_, by decide⟩, hA, ⟨hB.1, hB.2.2.1, hB.2.2.2⟩, ?_⟩
  · intro text fallback h
    rcases h with h | h <;> simp [queryInt, h]
  · intro h25 hpageText hlimitText
    subst hpageText hlimitText
    have hq1 : queryInt (some "2") 1 = .finite 2 := by decide
    have hq2 : queryInt (some "10") 10 = .finite 10 := by decide
    rw [hq1] at hpage
    rw [hq2] at hlimit
    cases hpage
    cases hlimit
    obtain ⟨-, -, hlen, hpag⟩ := hA
    clear hB
    rw [h25] at hlen hpag
    show (paginate outOfRange db (some "2") (some "10")).contents.length = 10 ∧
      (paginate outOfRange db (some "2") (some "10")).pagination = _
    refine ⟨by omega, ?_⟩
    rw [hpag]
    have hc : ⌈((25 : ℕ) : ℚ) / ((10 : ℤ) : ℚ)⌉ = 3 := by
      rw [Int.ceil_eq_iff]
      norm_num
    rw [hc]

/-- Witness for C16: page 2 with limit 10 over twenty-five stored posts. -/
theorem listing_pagination_witness :
    manyPosts.length = 25 ∧
    queryInt (some "2") 1 = .finite 2 ∧ queryInt (some "10") 10 = .finite 10 ∧
    (listContents refuseOutOfRange manyPosts (some "2") (some "10")).contents.length = 10 ∧
    (listContents refuseOutOfRange manyPosts (some "2") (some "10")).pagination =
      some { total := 25, page := .finite 2, pages := 3 } :=
  ⟨by decide, by decide, by decide,
    (listing_pagination refuseOutOfRange manyPosts "owner" (some "2") (some "10") 2 10
      (by decide) (by decide) (by decide) (by decide) (by decide)).2.2.2 (by decide) rfl rfl⟩

/-! ## Claim C17: the normalised title of a search hit -/

/-- C17: every element of `contents` in a search response is the normalised form of a
stored item that matched, and its title is the first non-empty text among the root title,
`extraFields.title`, `extraFields.postTitle` and `extraFields.tutorialTitle` (a missing key
counting as empty), in that order, and `Untitled` when all are empty.  Hence the title is
never empty, whichever field made the item match. -/
theorem search_title_normalised (compile : String → Option (String → Bool))
    (users : List User) (db : List Content) (q : Option String) (hit : SearchHit)
    (hhit : hit ∈ (search compile users db q).contents) :
    ∃ content, content ∈ db ∧ hit = formatContent content ∧
      (content.title ≠ "" → hit.title = content.title) ∧
      (content.title = "" →
        (getField "title" content.extraFields).getD "" ≠ "" →
        hit.title = (getField "title" content.extraFields).getD "") ∧
      (content.title = "" →
        (getField "title" content.extraFields).getD "" = "" →
        (getField "postTitle" content.extraFields).getD "" ≠ "" →
        hit.title = (getField "postTitle" content.extraFields).getD "") ∧
      (content.title = "" →
        (getField "title" content.extraFields).getD "" = "" →
        (getField "postTitle" content.extraFields).getD "" = "" →
        (getField "tutorialTitle" content.extraFields).getD "" ≠ "" →
        hit.title = (getField "tutorialTitle" content.extraFields).getD "") ∧
      (content.title = "" →
        (getField "title" content.extraFields).getD "" = "" →
        (getField "postTitle" content.extraFields).getD "" = "" →
        (getField "tutorialTitle" content.extraFields).getD "" = "" →
        hit.title = "Untitled") ∧
      hit.title ≠ "" := by
  have hsrc : ∃ content, content ∈ db ∧ hit = formatContent content := by
    unfold search at hhit
    cases q with
    | none => simp at hhit
    | some query =>
      simp only at hhit
      split_ifs at hhit
      · simp at hhit
      · cases hc : compile query with
        | none => simp [hc] at hhit
        | some test =>
          simp only [hc, List.mem_map, List.mem_filter] at hhit
          obtain ⟨content, ⟨hmem, -⟩, rfl⟩ := hhit
          exact ⟨content, hmem, rfl⟩
  obtain ⟨content, hmem, rfl⟩ := hsrc
  refine ⟨content, hmem, rfl, ?_⟩
  simp only [formatContent, firstTruthy]
  cases h1 : getField "title" content.extraFields <;>
    cases h2 : getField "postTitle" content.extraFields <;>
    cases h3 : getField "tutorialTitle" content.extraFields <;>
    simp only [firstTruthy, Option.getD] <;>
    refine ⟨?_, ?_, ?_, ?_, ?_, ?_⟩ <;>
    intros <;> simp_all <;> split_ifs <;> simp_all

/-- Witness for C17: the search for `tips` finds the post only through its legacy field
`postTitle`, and the hit is titled by that field. -/
theorem search_title_normalised_witness :
    formatContent legacyPost ∈ (search plainTextEngine [] [legacyPost] (some "tips")).contents ∧
    legacyPost.title = "" ∧
    (formatContent legacyPost).title = "Lean tips" ∧
    (formatContent legacyPost).title ≠ "" :=
  have hmem : formatContent legacyPost ∈
      (search plainTextEngine [] [legacyPost] (some "tips")).contents := by decide
  have h := search_title_normalised plainTextEngine [] [legacyPost] (some "tips")
    (formatContent legacyPost) hmem
  ⟨hmem, by decide, by decide, h.elim fun _ hc => hc.2.2.2.2.2.2.2⟩

/-! ## Claims C18 - C20: error statuses and authentication -/

/-- C18 (evaluation at the failing input): for a content id that is no ObjectId, the like,
dislike, save, repost and comment handlers and the lookup by id each respond with status
500, whatever the stored collections and the other request fields: `findById` throws and
the handler's `catch` answers. -/
theorem malformed_id_gives_500 (now : Nat) (users : List User) (db : List Content)
    (newId : ObjectId) (note : Option String) (user : ObjectId) :
    (likeDislike now db .malformed "like" user).status = 500 ∧
    (likeDislike now db .malformed "dislike" user).status = 500 ∧
    (saveContent now db .malformed user).status = 500 ∧
    (repost now newId db .malformed note user).status = 500 ∧
    (postComment now users db .malformed (some "hello") user).status = 500 ∧
    (getContentById users db .malformed).status = 500 := by
  have hb : isBlank (some "hello") = false := by decide
  refine ⟨?_, ?_, rfl, rfl, ?_, rfl⟩
  · simp [likeDislike, findById]
  · simp [likeDislike, findById]
  · simp [postComment, hb, findById]

/-- C19 (evaluation at the failing input): a PDF sent to the upload route is refused by
`imageFileFilter` with a plain `Error`, which is no `MulterError` and carries no
`statusCode`; the error middleware of `app.js` answers it with 500, and so would
`errorHandler`.  An image above the size limit is answered with 413. -/
theorem non_image_upload_gives_500 :
    imageFileFilter pdfFile =
      some { name := "Error", message := "Only image files are allowed!" } ∧
    uploadRoute (some pdfFile) = 500 ∧
    appErrorStatus { name := "Error", message := "Only image files are allowed!" } = 500 ∧
    errorHandlerStatus { name := "Error", message := "Only image files are allowed!" } = 500 ∧
    imageFileFilter hugeImage = none ∧
    uploadRoute (some hugeImage) = 413 := by
  refine ⟨by decide, by decide, by decide, by decide, by decide, by decide⟩

/-- C20: the middleware responds with status 401, and does not call `next`, for every
request whose Authorization header is absent, does not start with `Bearer `, or carries a
token (the text between the first and the second blank) that `jwt.verify` does not accept;
it calls `next` with `req.user` set to a payload exactly when the header starts with
`Bearer ` and `jwt.verify` returns that payload for the token. -/
theorem verifyToken_gate (verify : String → Verification) (authHeader : Option String) :
    ((authHeader = none ∨
        (∃ header, authHeader = some header ∧ hasBearerFormat header = false) ∨
        (∃ header, authHeader = some header ∧
          ∀ payload, verify (bearerToken header) ≠ .verified payload)) →
      ∃ message, verifyToken verify authHeader = .responded 401 message) ∧
    (∀ status message, verifyToken verify authHeader = .responded status message →
      status = 401) ∧
    (∀ user, verifyToken verify authHeader = .next user ↔
      ∃ header, authHeader = some header ∧ hasBearerFormat header = true ∧
        verify (bearerToken header) = .verified user) := by
  cases authHeader with
  | none =>
    refine ⟨fun _ => ⟨_, rfl⟩, ?_, ?_⟩
    · intro status message h
      simp only [verifyToken, AuthOutcome.responded.injEq] at h
      exact h.1.symm
    · intro user
      simp [verifyToken]
  | some header =>
    by_cases hempty : header = ""
    · subst hempty
      refine ⟨fun _ => ⟨_, rfl⟩, ?_, ?_⟩
      · intro status message h
        simp only [verifyToken, beq_self_eq_true, if_true, AuthOutcome.responded.injEq] at h
        exact h.1.symm
      · intro user
        have hfmt : hasBearerFormat "" = false := by decide
        simp [verifyToken, hfmt]
    · have he : (header == "") = false := by simpa using hempty
      cases hfmt : hasBearerFormat header with
      | false =>
        have hres : verifyToken verify (some header) =
            .responded 401 "Invalid token format. Use \"Bearer [token]\"" := by
          simp [verifyToken, he, hfmt]
        rw [hres]
        refine ⟨fun _ => ⟨_, rfl⟩, ?_, ?_⟩
        · intro status message h
          cases h
          rfl
        · intro user
          simp [hfmt]
      | true =>
        cases hv : verify (bearerToken header) with
        | verified payload =>
          refine ⟨?_, ?_, ?_⟩
          · rintro (h | ⟨h1, h, hf⟩ | ⟨h1, h, hn⟩)
            · cases h
            · cases h
              rw [hfmt] at hf
              cases hf
            · cases h
              exact absurd hv (hn payload)
          · intro status message h
            simp [verifyToken, he, hfmt, hv] at h
          · intro user
            simp [verifyToken, he, hfmt, hv]
        | expired =>
          have hres : verifyToken verify (some header) = .responded 401 "Token expired. Please login again." := by
            simp [verifyToken, he, hfmt, hv]
          rw [hres]
          refine ⟨fun _ => ⟨_, rfl⟩, ?_, ?_⟩
          · intro status message h
            cases h
            rfl
          · intro user
            simp [hv]
        | invalid =>
          have hres : verifyToken verify (some header) = .responded 401 "Invalid token." := by
            simp [verifyToken, he, hfmt, hv]
          rw [hres]
          refine ⟨fun _ => ⟨_, rfl⟩, ?_, ?_⟩
          · intro status message h
            cases h
            rfl
          · intro user
            simp [hv]

/-- Witness for C20: with the sample verifier, a header without the `Bearer ` mark is
answered with 401, and the header `Bearer good` lets the request through as `u`. -/
theorem verifyToken_gate_witness :
    hasBearerFormat "Token good" = false ∧
    (∃ message, verifyToken sampleVerify (some "Token good") = .responded 401 message) ∧
    hasBearerFormat "Bearer good" = true ∧
    sampleVerify (bearerToken "Bearer good") = .verified { _id := "u" } ∧
    verifyToken sampleVerify (some "Bearer good") = .next { _id := "u" } :=
  ⟨by decide,
    (verifyToken_gate sampleVerify (some "Token good")).1
      (Or.inr (Or.inl ⟨"Token good", rfl, by decide⟩)),
    by decide, by decide,
    ((verifyToken_gate sampleVerify (some "Bearer good")).2.2 { _id := "u" }).mpr
      ⟨"Bearer good", rfl, by decide, by decide⟩⟩

/-! ## Claim C23: posting a comment -/

theorem dropWhile_all_iff {α : Type} (p : α → Bool) (l : List α) :
    (∀ x ∈ l.dropWhile p, p x = true) ↔ ∀ x ∈ l, p x = true := by
  constructor
  · intro h
    by_cases hnil : l.dropWhile p = []
    · exact List.dropWhile_eq_nil_iff.mp hnil
    · have hhead := List.head_dropWhile_not p l hnil
      rw [h _ (List.head_mem hnil)] at hhead
      cases hhead
  · intro h x hx
    exact h x ((List.dropWhile_sublist p).subset hx)

/-- The trimmed text is empty exactly when every character of the text is white space. -/
theorem jsTrim_eq_empty_iff (text : String) :
    jsTrim text = "" ↔ ∀ ch ∈ text.data, isJsWhitespace ch = true := by
  have hmk : ∀ l : List Char, String.mk l = "" ↔ l = [] := by
    intro l
    constructor
    · intro h
      exact congrArg String.data h
    · rintro rfl
      rfl
  unfold jsTrim
  rw [hmk, List.reverse_eq_nil_iff, List.dropWhile_eq_nil_iff]
  constructor
  · intro h
    apply (dropWhile_all_iff isJsWhitespace text.data).mp
    intro x hx
    exact h x (List.mem_reverse.mpr hx)
  · intro h x hx
    exact (dropWhile_all_iff isJsWhitespace text.data).mpr h x (List.mem_reverse.mp hx)

theorem isBlank_some (text : String) :
    isBlank (some text) = true ↔ ∀ ch ∈ text.data, isJsWhitespace ch = true := by
  simp only [isBlank, beq_iff_eq]
  exact jsTrim_eq_empty_iff text

/-- C23: on a stored content item, for a caller `U` with a user record, a comment whose
text holds a character that is not white space is answered with 200 and appends exactly one
sub-document at the end of `comments`: it carries the id of `U`, the username stored for
`U`, the trimmed text and the schema defaults (`isAnswer` false, `votes` 0,
`acceptedAnswer` false, `votedBy` empty); every earlier comment is where and as it was.  A
text that is absent, empty or all white space is answered with 400 and the collection is
left as it was. -/
theorem comment_appends_one (now : Nat) (users : List User) (db : List Content)
    (id : ObjectId) (c : Content) (U : ObjectId) (author : User) (text : String)
    (hfind : findById db (.wellFormed id) = some (some c))
    (huser : findUserById users U = some author) :
    ((∃ ch ∈ text.data, isJsWhitespace ch = false) →
      (postComment now users db (.wellFormed id) (some text) U).status = 200 ∧
      ∃ c1, findById (postComment now users db (.wellFormed id) (some text) U).db
          (.wellFormed id) = some (some c1) ∧
        c1.comments = c.comments ++
          [{ userId := U, username := author.username, text := jsTrim text, createdAt := now,
             isAnswer := false, votes := 0, acceptedAnswer := false, votedBy := [] }] ∧
        c1.comments.length = c.comments.length + 1 ∧
        (∀ (k : Nat) (cm : Comment), c.comments[k]? = some cm → c1.comments[k]? = some cm) ∧
        (postComment now users db (.wellFormed id) (some text) U).body
          = .comments c1.comments) ∧
    ((∀ ch ∈ text.data, isJsWhitespace ch = true) →
      (postComment now users db (.wellFormed id) (some text) U).status = 400 ∧
      (postComment now users db (.wellFormed id) (some text) U).db = db) ∧
    ((postComment now users db (.wellFormed id) none U).status = 400 ∧
      (postComment now users db (.wellFormed id) none U).db = db) := by
  refine ⟨?_, ?_, ⟨rfl, rfl⟩⟩
  · rintro ⟨ch, hch, hws⟩
    have hb : isBlank (some text) = false := by
      cases hbl : isBlank (some text) with
      | false => rfl
      | true =>
        rw [(isBlank_some text).mp hbl ch hch] at hws
        cases hws
    have hres : postComment now users db (.wellFormed id) (some text) U =
        { status := 200
          message := some "Comment added"
          body := .comments (c.comments ++
            [{ userId := U, username := author.username, text := jsTrim text,
               createdAt := now }])
          db := save now db { c with comments := c.comments ++
            [{ userId := U, username := author.username, text := jsTrim text,
               createdAt := now }] } } := by
      simp [postComment, hb, hfind, huser]
    rw [hres]
    refine ⟨rfl, _, findById_save_same now db _ c id hfind rfl, rfl, ?_, ?_, rfl⟩
    · simp [preSave]
    · intro k cm hk
      have hlt : k < c.comments.length := (List.getElem?_eq_some.mp hk).1
      show (c.comments ++ _)[k]? = some cm
      rw [List.getElem?_append_left hlt, hk]
  · intro hall
    have hb : isBlank (some text) = true := (isBlank_some text).mpr hall
    simp [postComment, hb]

/-- Witness for C23: `v`, stored as `vera`, comments on the post with padded text. -/
theorem comment_appends_one_witness :
    findById [commentedPost] (.wellFormed "c3") = some (some commentedPost) ∧
    findUserById [sampleUser] "v" = some sampleUser ∧
    (∃ ch ∈ "  nice one \n".data, isJsWhitespace ch = false) ∧
    ∃ c1, findById (postComment 9 [sampleUser] [commentedPost] (.wellFormed "c3")
        (some "  nice one \n") "v").db (.wellFormed "c3") = some (some c1) ∧
      c1.comments = commentedPost.comments ++
        [{ userId := "v", username := "vera", text := "nice one", createdAt := 9 }] :=
  have hch : ∃ ch ∈ "  nice one \n".data, isJsWhitespace ch = false :=
    ⟨'n', by decide, by decide⟩
  have h := (comment_appends_one 9 [sampleUser] [commentedPost] "c3" commentedPost "v"
    sampleUser "  nice one \n" (by decide) (by decide)).1 hch
  ⟨by decide, by decide, hch, h.2.imp fun _ hc => ⟨hc.1, hc.2.1.trans (by decide)⟩⟩

/-! ## Claim C27: lookup by id and the author fields -/

/-- C27: for a stored content item the lookup by id responds with status 200 and the item,
whatever the author query does.  When the query throws or finds no user, the response has
neither `authorName` nor `authorAvatar`; when it finds the author, `authorName` is the
username, or the full name if the username is empty, and `authorAvatar` is the profile
image, or "/default-avatar.png" if that is empty.  The same holds when the query is
answered from the stored users. -/
theorem lookup_returns_item (lookupAuthor : ObjectId → Option (Option User))
    (users : List User) (db : List Content) (id : ObjectId) (c : Content)
    (hfind : findById db (.wellFormed id) = some (some c)) :
    (lookupContent lookupAuthor db (.wellFormed id)).status = 200 ∧
    (lookupContent lookupAuthor db (.wellFormed id)).content = some c ∧
    (lookupContent lookupAuthor db (.wellFormed id)).message = none ∧
    ((lookupAuthor c.userId = none ∨ lookupAuthor c.userId = some none) →
      (lookupContent lookupAuthor db (.wellFormed id)).authorName = none ∧
      (lookupContent lookupAuthor db (.wellFormed id)).authorAvatar = none) ∧
    (∀ author : User, lookupAuthor c.userId = some (some author) →
      (lookupContent lookupAuthor db (.wellFormed id)).authorName
        = some (if author.username = "" then author.fullName else author.username) ∧
      (lookupContent lookupAuthor db (.wellFormed id)).authorAvatar
        = some (if author.profileImage = "" then "/default-avatar.png"
            else author.profileImage)) ∧
    (getContentById users db (.wellFormed id)).status = 200 ∧
    (getContentById users db (.wellFormed id)).content = some c ∧
    (findUserById users c.userId = none →
      (getContentById users db (.wellFormed id)).authorName = none ∧
      (getContentById users db (.wellFormed id)).authorAvatar = none) ∧
    (∀ author : User, findUserById users c.userId = some author →
      (getContentById users db (.wellFormed id)).authorName
        = some (if author.username = "" then author.fullName else author.username) ∧
      (getContentById users db (.wellFormed id)).authorAvatar
        = some (if author.profileImage = "" then "/default-avatar.png"
            else author.profileImage)) := by
  have hresolved : ∀ author : User,
      (respondWithAuthor c (some (some author))).authorName
        = some (if author.username = "" then author.fullName else author.username) ∧
      (respondWithAuthor c (some (some author))).authorAvatar
        = some (if author.profileImage = "" then "/default-avatar.png"
            else author.profileImage) := by
    intro author
    constructor
    · show some (firstTruthy author.fullName [some author.username]) = _
      by_cases hu : author.username = "" <;> simp [firstTruthy, hu]
    · show some (firstTruthy "/default-avatar.png" [some author.profileImage]) = _
      by_cases hp : author.profileImage = "" <;> simp [firstTruthy, hp]
  have hstatus : ∀ o, (respondWithAuthor c o).status = 200 ∧
      (respondWithAuthor c o).content = some c ∧ (respondWithAuthor c o).message = none := by
    intro o
    rcases o with _ | _ | author <;> exact ⟨rfl, rfl, rfl⟩
  have hl : lookupContent lookupAuthor db (.wellFormed id)
      = respondWithAuthor c (lookupAuthor c.userId) := by
    simp only [lookupContent, hfind]
  have hg : getContentById users db (.wellFormed id)
      = respondWithAuthor c (some (findUserById users c.userId)) := by
    simp only [getContentById, lookupContent, hfind]
  rw [hl, hg]
  refine ⟨(hstatus _).1, (hstatus _).2.1, (hstatus _).2.2, ?_, ?_, (hstatus _).1,
    (hstatus _).2.1, ?_, ?_⟩
  · rintro (h | h) <;> rw [h] <;> exact ⟨rfl, rfl⟩
  · intro author h
    rw [h]
    exact hresolved author
  · intro h
    rw [h]
    exact ⟨rfl, rfl⟩
  · intro author h
    rw [h]
    exact hresolved author

/-- Witness for C27: a stored post is looked up while the author query throws. -/
theorem lookup_returns_item_witness :
    findById [commentedPost] (.wellFormed "c3") = some (some commentedPost) ∧
    (lookupContent (fun _ => none) [commentedPost] (.wellFormed "c3")).status = 200 ∧
    (lookupContent (fun _ => none) [commentedPost] (.wellFormed "c3")).content
      = some commentedPost :=
  have h := lookup_returns_item (fun _ => none) [sampleUser] [commentedPost] "c3"
    commentedPost (by decide)
  ⟨by decide, h.1, h.2.1⟩

/-! ## Claim C28: the vote count of an answer -/

theorem upVotes_cons (w : Vote) (ws : List Vote) :
    upVotes (w :: ws) = upVotes ws + if w.voteType = .up then 1 else 0 := by
  simp [upVotes, List.countP_cons]

theorem downVotes_cons (w : Vote) (ws : List Vote) :
    downVotes (w :: ws) = downVotes ws + if w.voteType = .down then 1 else 0 := by
  simp [downVotes, List.countP_cons]

theorem upVotes_append_one (l : List Vote) (w : Vote) :
    upVotes (l ++ [w]) = upVotes l + if w.voteType = .up then 1 else 0 := by
  simp [upVotes, List.countP_append, List.countP_cons]

theorem downVotes_append_one (l : List Vote) (w : Vote) :
    downVotes (l ++ [w]) = downVotes l + if w.voteType = .down then 1 else 0 := by
  simp [downVotes, List.countP_append, List.countP_cons]

/-- Rewriting the caller's first entry to the opposite vote type moves the balance of the
list by two. -/
theorem updateExistingVote_balance (U : ObjectId) (t : VoteType) (l : List Vote) (v : Vote)
    (hv : l.find? (fun vote => vote.userId == U) = some v) (hopp : v.voteType ≠ t) :
    (upVotes (updateExistingVote U t l) : Int) - (downVotes (updateExistingVote U t l) : Int)
      = (upVotes l : Int) - (downVotes l : Int) + (if t = .up then 2 else -2) := by
  induction l with
  | nil => simp at hv
  | cons w ws ih =>
    by_cases hw : w.userId = U
    · have hvw : w = v := by simpa [List.find?_cons, hw] using hv
      subst hvw
      have hupd : updateExistingVote U t (w :: ws) = { w with voteType := t } :: ws := by
        simp [updateExistingVote, hw]
      rw [hupd, upVotes_cons, downVotes_cons, upVotes_cons, downVotes_cons]
      obtain ⟨wu, wt⟩ := w
      cases t <;> cases wt <;> simp at hopp ⊢ <;> omega
    · have hbeq : (w.userId == U) = false := by simpa using hw
      have hfind : ws.find? (fun vote => vote.userId == U) = some v := by
        simpa [List.find?_cons, hbeq] using hv
      have hupd : updateExistingVote U t (w :: ws) = w :: updateExistingVote U t ws := by
        simp [updateExistingVote, hw]
      have h := ih hfind
      rw [hupd, upVotes_cons, downVotes_cons, upVotes_cons, downVotes_cons]
      push_cast
      omega

theorem votes_le_length (l : List Vote) : upVotes l + downVotes l ≤ l.length := by
  induction l with
  | nil => decide
  | cons w ws ih =>
    rw [upVotes_cons, downVotes_cons, List.length_cons]
    obtain ⟨wu, wt⟩ := w
    cases wt <;> simp <;> omega

/-- The count of a balanced answer is no larger than the number of its voters. -/
theorem balanced_votes_le_length (a : Comment) (hb : VotesBalanced a) :
    a.votes.natAbs ≤ a.votedBy.length := by
  unfold VotesBalanced at hb
  have h := votes_le_length a.votedBy
  omega

/-- A vote with a valid direction keeps a balanced answer balanced, as long as the number
of voters stays within the whole numbers that the Number type holds exactly. -/
theorem castVote_keeps_balanced (dir : VoteType) (U : ObjectId) (a a1 : Comment)
    (hcast : castVote dir.toString U a = some a1) (hb : VotesBalanced a)
    (hlen : a.votedBy.length + 2 ≤ 2 ^ 53) :
    VotesBalanced a1 := by
  have hsmall := balanced_votes_le_length a hb
  have hp1 : jsAdd a.votes 1 = a.votes + 1 := jsAdd_exact _ _ (by omega)
  have hm1 : jsAdd a.votes (-1) = a.votes - 1 := jsAdd_exact _ _ (by omega)
  have hp2 : jsAdd a.votes 2 = a.votes + 2 := jsAdd_exact _ _ (by omega)
  have hm2 : jsAdd a.votes (-2) = a.votes - 2 := jsAdd_exact _ _ (by omega)
  unfold VotesBalanced at hb ⊢
  cases hf : a.votedBy.find? (fun vote => vote.userId == U) with
  | none =>
    have hnew : ∀ v ∈ a.votedBy, v.userId ≠ U := by
      intro v hv
      simpa using (List.find?_eq_none.mp hf) v hv
    rw [castVote_new _ U a hnew, Option.some.injEq] at hcast
    subst hcast
    simp only [VoteType.ofDirection_toString, upVotes_append_one, downVotes_append_one,
      hp1, hm1]
    cases dir <;> simp [VoteType.toString] <;> omega
  | some v =>
    by_cases hsame : v.voteType = dir
    · rw [castVote_same dir U a v hf hsame] at hcast
      cases hcast
    · rw [castVote_switch dir U a v hf hsame, Option.some.injEq] at hcast
      subst hcast
      have h := updateExistingVote_balance U dir a.votedBy v hf hsame
      simp only [hp2, hm2]
      rw [h]
      cases dir <;> simp <;> omega

/-- The item stored under an id after a `save`: the saved document if it was fetched
under that id, the old item otherwise. -/
theorem findById_save_cases (now : Nat) (db : List Content) (doc t : Content)
    (tid : ObjectId) (ht : findById db (.wellFormed tid) = some (some t))
    (hdoc : doc._id = t._id) (id : ObjectId) (c : Content)
    (hfind : findById db (.wellFormed id) = some (some c)) :
    findById (save now db doc) (.wellFormed id) = some (some c) ∨
    (c = t ∧ findById (save now db doc) (.wellFormed id) = some (some (preSave now doc))) := by
  have h := findById_save_keeps (fun d => d = c ∨ (c = t ∧ d = preSave now doc)) now db doc
    t tid ht hdoc ?_ id c hfind (Or.inl rfl)
  · obtain ⟨c1, hc1, hcase⟩ := h
    rcases hcase with rfl | ⟨hct, rfl⟩
    · exact Or.inl hc1
    · exact Or.inr ⟨hct, hc1⟩
  · rintro (h1 | ⟨h1, -⟩)
    · exact Or.inr ⟨h1.symm, rfl⟩
    · exact Or.inr ⟨h1, rfl⟩

/-- A vote request changes nothing, or stores the target answer after a vote with a
valid direction. -/
theorem voteAnswer_db_valid (now : Nat) (db : List Content) (contentId : IdParam)
    (commentIndex : Option Int) (direction : String) (user : ObjectId) :
    (voteAnswer now db contentId commentIndex direction user).db = db ∨
    ∃ id c i a a1 dir, contentId = .wellFormed id ∧ direction = VoteType.toString dir ∧
      findById db (.wellFormed id) = some (some c) ∧ c.comments[i]? = some a ∧
      castVote direction user a = some a1 ∧
      (voteAnswer now db contentId commentIndex direction user).db =
        save now db { c with comments := c.comments.set i a1 } := by
  by_cases hdir : ["up", "down"].contains direction = true
  · have hvalid : ∃ dir : VoteType, direction = dir.toString := by
      have hmem : direction = "up" ∨ direction = "down" := by simpa using hdir
      rcases hmem with h | h
      · exact ⟨.up, h⟩
      · exact ⟨.down, h⟩
    obtain ⟨dir, hd⟩ := hvalid
    rcases voteAnswer_db now db contentId commentIndex direction user with h | h
    · exact Or.inl h
    · obtain ⟨id, c, i, a, a1, h1, h2, h3, h4, h5⟩ := h
      exact Or.inr ⟨id, c, i, a, a1, dir, h1, hd, h2, h3, h4, h5⟩
  · left
    unfold voteAnswer
    cases commentIndex with
    | none => rfl
    | some n =>
      have hnot : (!(["up", "down"].contains direction)) = true := by simpa using hdir
      simp only
      rw [if_pos hnot]

/-- C28: if an answer (indeed any comment) of a stored item satisfies
`votes = #up entries - #down entries` of its `votedBy`, then after any vote-answer request,
on this or another item, with any index, direction and caller, the comment at the same
position of the stored item satisfies it again.  An answer posted with success is stored
last in `comments` with `votes = 0` and an empty `votedBy`, and satisfies the equality.
`votes` is a Number, which counts exactly up to `2 ^ 53`; `votedBy` is an array, which has
fewer than `2 ^ 32` entries, and the statement is made for a `votedBy` of at most
`2 ^ 53 - 2` entries. -/
theorem vote_keeps_balance (now : Nat) (users : List User) (db : List Content)
    (id : ObjectId) (c : Content) (k : Nat) (a : Comment)
    (hfind : findById db (.wellFormed id) = some (some c))
    (hk : c.comments[k]? = some a) (hb : VotesBalanced a)
    (hlen : a.votedBy.length + 2 ≤ 2 ^ 53) :
    (∀ (contentId : IdParam) (commentIndex : Option Int) (direction : String)
        (user : ObjectId),
      ∃ c1 a1, findById (voteAnswer now db contentId commentIndex direction user).db
          (.wellFormed id) = some (some c1) ∧
        c1.comments[k]? = some a1 ∧ VotesBalanced a1) ∧
    (∀ (text : Option String) (user : ObjectId),
      (postAnswer now users db (.wellFormed id) text user).status = 200 →
      ∃ c1 fresh, findById (postAnswer now users db (.wellFormed id) text user).db
          (.wellFormed id) = some (some c1) ∧
        c1.comments = c.comments ++ [fresh] ∧ fresh.isAnswer = true ∧
        fresh.votes = 0 ∧ fresh.votedBy = [] ∧ VotesBalanced fresh) := by
  constructor
  · intro contentId commentIndex direction user
    rcases voteAnswer_db_valid now db contentId commentIndex direction user with h | h
    · rw [h]
      exact ⟨c, a, hfind, hk, hb⟩
    · obtain ⟨tid, t, i, b, b1, dir, -, hd, ht, hi, hcast, hdb⟩ := h
      rw [hdb]
      rcases findById_save_cases now db { t with comments := t.comments.set i b1 } t tid ht
        rfl id c hfind with hsame | ⟨hct, hnew⟩
      · exact ⟨c, a, hsame, hk, hb⟩
      · subst hct
        rw [hnew]
        show ∃ c1 a1, some (some (preSave now { c with comments := c.comments.set i b1 }))
          = some (some c1) ∧ c1.comments[k]? = some a1 ∧ VotesBalanced a1
        by_cases hik : i = k
        · subst hik
          have hlt : i < c.comments.length := (List.getElem?_eq_some.mp hi).1
          have hba : b = a := by
            rw [hi] at hk
            exact Option.some.inj hk
          subst hba
          rw [hd] at hcast
          exact ⟨_, b1, rfl, getElem?_set_at _ _ _ hlt,
            castVote_keeps_balanced dir user b b1 hcast hb hlen⟩
        · refine ⟨_, a, rfl, ?_, hb⟩
          show (c.comments.set i b1)[k]? = some a
          rw [List.getElem?_set_ne hik]
          exact hk
  · intro text user hstatus
    unfold postAnswer at hstatus ⊢
    rw [hfind] at hstatus ⊢
    simp only at hstatus ⊢
    by_cases hblank : isBlank text = true
    · simp [hblank] at hstatus
    · rw [if_neg hblank] at hstatus ⊢
      by_cases hq : (c.contentType != ContentType.Question) = true
      · simp [hq] at hstatus
      · rw [if_neg hq] at hstatus ⊢
        cases hu : findUserById users user with
        | none => simp [hu] at hstatus
        | some author =>
          simp only
          refine ⟨_, _, findById_save_same now db _ c id hfind rfl, rfl, rfl, rfl, rfl, ?_⟩
          show ((0 : Int) = (upVotes [] : Int) - (downVotes [] : Int))
          rfl

/-- Witness for C28: the answer at index 2 of the sample question is balanced, a balanced
answer exists after a down vote on it, and an answer can be posted with success. -/
theorem vote_keeps_balance_witness :
    findById [sampleQuestion] (.wellFormed "q1") = some (some sampleQuestion) ∧
    sampleQuestion.comments[2]? = some votedAnswer ∧ VotesBalanced votedAnswer ∧
    (∃ c1 a1, findById (voteAnswer 9 [sampleQuestion] (.wellFormed "q1") (some 2) "down"
        "v").db (.wellFormed "q1") = some (some c1) ∧
      c1.comments[2]? = some a1 ∧ VotesBalanced a1) ∧
    (postAnswer 9 [sampleUser] [sampleQuestion] (.wellFormed "q1") (some "try this")
      "v").status = 200 :=
  ⟨by decide, by decide, by decide,
    (vote_keeps_balance 9 [sampleUser] [sampleQuestion] "q1" sampleQuestion 2 votedAnswer
      (by decide) (by decide) (by decide) (by decide)).1 (.wellFormed "q1") (some 2) "down"
      "v",
    by decide⟩

/-! ## Claim C24: update and delete by owner and by others -/

theorem getField_mergeFields_other (key : String) (updates fields : List (String × String))
    (hkey : key ∉ updates.map (fun kv => kv.1)) :
    getField key (mergeFields fields updates) = getField key fields := by
  induction updates generalizing fields with
  | nil => rfl
  | cons kv rest ih =>
    rw [List.map_cons, List.mem_cons, not_or] at hkey
    show getField key (mergeFields (setField kv.1 kv.2 fields) rest) = _
    rw [ih (setField kv.1 kv.2 fields) hkey.2, getField_setField_ne kv.1 kv.2 key fields hkey.1]

theorem getField_append_one (key : String) (l : List (String × String)) (kv : String × String) :
    getField key (l ++ [kv]) =
      match getField key l with
      | some value => some value
      | none => if kv.1 = key then some kv.2 else none := by
  unfold getField
  rw [List.find?_append]
  cases hl : l.find? (fun p => p.1 == key) with
  | some found => rfl
  | none =>
    by_cases hk : kv.1 = key
    · simp [List.find?_cons, hk]
    · simp [List.find?_cons, hk]

/-- The merged object holds, under each key, the last value the update gives it, and the
old value when the update does not name the key. -/
theorem getField_mergeFields (key : String) (updates fields : List (String × String)) :
    getField key (mergeFields fields updates) =
      match getField key updates.reverse with
      | some value => some value
      | none => getField key fields := by
  induction updates generalizing fields with
  | nil => rfl
  | cons kv rest ih =>
    have hstep : mergeFields fields (kv :: rest) = mergeFields (setField kv.1 kv.2 fields) rest :=
      rfl
    rw [hstep, ih (setField kv.1 kv.2 fields), List.reverse_cons, getField_append_one]
    cases hrest : getField key rest.reverse with
    | some value => rfl
    | none =>
      by_cases hk : kv.1 = key
      · simp only [hk, if_true]
        rw [← hk, getField_setField_same]
      · simp only [hk, if_false]
        exact getField_setField_ne kv.1 kv.2 key fields (fun e => hk e.symm)

/-- The assignments of the update handler leave the identity, the type and the engagement
fields of the document alone, and keep every extra field that the request does not name. -/
theorem applyPatch_frame (request : PatchRequest) (c c1 : Content)
    (h : applyPatch request c = some c1) :
    c1._id = c._id ∧ c1.contentType = c.contentType ∧ c1.userId = c.userId ∧
    c1.likes = c.likes ∧ c1.dislikes = c.dislikes ∧ c1.saves = c.saves ∧
    c1.reposts = c.reposts ∧ c1.comments = c.comments ∧
    ∀ key, key ∉ request.extraFields.keys →
      getField key c1.extraFields = getField key c.extraFields := by
  unfold applyPatch at h
  cases hx : patchExtraFields request c with
  | none => simp [hx] at h
  | some extraFields =>
    cases hvis : patchVisibility request c with
    | none => simp [hx, hvis] at h
    | some visibility =>
      simp only [hx, hvis, Option.some.injEq] at h
      subst h
      refine ⟨rfl, rfl, rfl, rfl, rfl, rfl, rfl, rfl, ?_⟩
      intro key hkey
      show getField key extraFields = _
      unfold patchExtraFields at hx
      cases hreq : request.extraFields with
      | absent =>
        simp only [hreq, Option.some.injEq] at hx
        rw [← hx]
      | unparsable => simp [hreq] at hx
      | parsed fields =>
        simp only [hreq, Option.some.injEq] at hx
        rw [← hx]
        rw [hreq] at hkey
        exact getField_mergeFields_other key fields _ hkey

/-- What the assignments of the update handler write: the request's title, visibility and
image where the request gives one, the old value otherwise, and the merged extra fields. -/
theorem applyPatch_writes (request : PatchRequest) (c c1 : Content)
    (h : applyPatch request c = some c1) :
    c1.createdAt = c.createdAt ∧ c1.originalContentId = c.originalContentId ∧
    c1.solved = c.solved ∧ c1.tags = c.tags ∧
    (∀ title, request.title = some title → title ≠ "" → c1.title = title) ∧
    ((request.title = none ∨ request.title = some "") → c1.title = c.title) ∧
    (∀ text, request.visibility = some text → text ≠ "" →
      Visibility.ofString text = some c1.visibility) ∧
    ((request.visibility = none ∨ request.visibility = some "") →
      c1.visibility = c.visibility) ∧
    (∀ filename, request.file = some filename → c1.image = "/uploads/" ++ filename) ∧
    (request.file = none → c1.image = c.image) ∧
    (request.extraFields = .absent → c1.extraFields = c.extraFields) ∧
    (∀ fields, request.extraFields = .parsed fields →
      c1.extraFields = mergeFields c.extraFields fields ∧
      ∀ key, getField key c1.extraFields =
        match getField key fields.reverse with
        | some value => some value
        | none => getField key c.extraFields) := by
  unfold applyPatch at h
  cases hx : patchExtraFields request c with
  | none => simp [hx] at h
  | some extraFields =>
    cases hvis : patchVisibility request c with
    | none => simp [hx, hvis] at h
    | some visibility =>
      simp only [hx, hvis, Option.some.injEq] at h
      subst h
      refine ⟨rfl, rfl, rfl, rfl, ?_, ?_, ?_, ?_, ?_, ?_, ?_, ?_⟩
      · intro title ht hne
        show patchTitle request c = title
        have hb : (title == "") = false := by simpa using hne
        simp only [patchTitle, ht, hb, Bool.false_eq_true, if_false]
      · rintro (ht | ht)
        · show patchTitle request c = c.title
          simp only [patchTitle, ht]
        · show patchTitle request c = c.title
          simp [patchTitle, ht]
      · intro text ht hne
        show Visibility.ofString text = some visibility
        have hb : (text == "") = false := by simpa using hne
        simp only [patchVisibility, ht, hb, Bool.false_eq_true, if_false] at hvis
        exact hvis
      · rintro (ht | ht)
        · show visibility = c.visibility
          simp only [patchVisibility, ht, Option.some.injEq] at hvis
          exact hvis.symm
        · show visibility = c.visibility
          simp [patchVisibility, ht] at hvis
          exact hvis.symm
      · intro filename hf
        show patchImage request c = _
        simp only [patchImage, hf]
      · intro hf
        show patchImage request c = _
        simp only [patchImage, hf]
      · intro hreq
        show extraFields = _
        simp only [patchExtraFields, hreq, Option.some.injEq] at hx
        exact hx.symm
      · intro fields hreq
        show extraFields = _ ∧ ∀ key, getField key extraFields = _
        simp only [patchExtraFields, hreq, Option.some.injEq] at hx
        rw [← hx]
        exact ⟨rfl, fun key => getField_mergeFields key fields c.extraFields⟩

/-- The update is refused exactly when the extra fields do not parse or the visibility
is a text outside the enum. -/
theorem applyPatch_none_iff (request : PatchRequest) (c : Content) :
    applyPatch request c = none ↔
      (request.extraFields = .unparsable ∨
        ∃ text, request.visibility = some text ∧ text ≠ "" ∧
          Visibility.ofString text = none) := by
  unfold applyPatch
  constructor
  · intro h
    cases hx : patchExtraFields request c with
    | none =>
      left
      unfold patchExtraFields at hx
      cases hreq : request.extraFields with
      | absent => simp [hreq] at hx
      | unparsable => rfl
      | parsed fields => simp [hreq] at hx
    | some extraFields =>
      cases hvis : patchVisibility request c with
      | some visibility => simp [hx, hvis] at h
      | none =>
        right
        unfold patchVisibility at hvis
        cases hreq : request.visibility with
        | none => simp [hreq] at hvis
        | some text =>
          by_cases hne : text = ""
          · simp [hreq, hne] at hvis
          · have hb : (text == "") = false := by simpa using hne
            simp only [hreq, hb, Bool.false_eq_true, if_false] at hvis
            exact ⟨text, rfl, hne, hvis⟩
  · rintro (hreq | ⟨text, hreq, hne, hof⟩)
    · simp [patchExtraFields, hreq]
    · have hb : (text == "") = false := by simpa using hne
      have hvis : patchVisibility request c = none := by
        simp only [patchVisibility, hreq, hb, Bool.false_eq_true, if_false]
        exact hof
      rw [hvis]
      cases patchExtraFields request c <;> rfl

/-- C24: for a stored content item and a caller `U` other than its owner, the update
(PATCH) and the delete request are each answered with 403 and leave the collection, hence
the stored item, as it was.  For the owner, whatever the update request carries, the item
stored afterwards under the same id has the `contentType`, `userId`, `likes`, `dislikes`,
`saves`, `reposts` and `comments` it had, and every key of `extraFields` that the request
does not name keeps its value; the answer is 200, or 500 when the request is refused.  The
request is refused, and nothing stored, exactly when its `extraFields` text does not parse
or its `visibility` is a text outside the enum.  Otherwise the answer is 200 and carries
the stored item, in which the title, the visibility and the image are the request's where
the request gives one and the old ones where it does not, `lastUpdatedAt` is the time of
the request, and `extraFields` is the old object merged with the request's: each key the
request names takes the request's value for it (the last one, if the key is named more
than once), each other key keeps its value. -/
theorem update_delete_owner_guard (now : Nat) (db : List Content) (id : ObjectId)
    (c : Content) (U : ObjectId) (request : PatchRequest)
    (hfind : findById db (.wellFormed id) = some (some c)) :
    (c.userId ≠ U →
      (updateContent now db (.wellFormed id) request U).status = 403 ∧
      (updateContent now db (.wellFormed id) request U).db = db ∧
      findById (updateContent now db (.wellFormed id) request U).db (.wellFormed id)
        = some (some c) ∧
      (deleteContent db (.wellFormed id) U).status = 403 ∧
      (deleteContent db (.wellFormed id) U).db = db ∧
      findById (deleteContent db (.wellFormed id) U).db (.wellFormed id) = some (some c)) ∧
    (c.userId = U →
      ((updateContent now db (.wellFormed id) request U).status = 200 ∨
        (updateContent now db (.wellFormed id) request U).status = 500) ∧
      ∃ c1, findById (updateContent now db (.wellFormed id) request U).db (.wellFormed id)
          = some (some c1) ∧
        c1.contentType = c.contentType ∧ c1.userId = c.userId ∧ c1.likes = c.likes ∧
        c1.dislikes = c.dislikes ∧ c1.saves = c.saves ∧ c1.reposts = c.reposts ∧
        c1.comments = c.comments ∧
        ∀ key, key ∉ request.extraFields.keys →
          getField key c1.extraFields = getField key c.extraFields) ∧
    (c.userId = U →
      (request.extraFields = .unparsable ∨
        ∃ text, request.visibility = some text ∧ text ≠ "" ∧
          Visibility.ofString text = none) →
      (updateContent now db (.wellFormed id) request U).status = 500 ∧
      (updateContent now db (.wellFormed id) request U).db = db) ∧
    (c.userId = U →
      ¬ (request.extraFields = .unparsable ∨
        ∃ text, request.visibility = some text ∧ text ≠ "" ∧
          Visibility.ofString text = none) →
      (updateContent now db (.wellFormed id) request U).status = 200 ∧
      ∃ c1, findById (updateContent now db (.wellFormed id) request U).db (.wellFormed id)
          = some (some c1) ∧
        (updateContent now db (.wellFormed id) request U).body = .content c1 ∧
        c1.lastUpdatedAt = now ∧
        c1.createdAt = c.createdAt ∧ c1.originalContentId = c.originalContentId ∧
        c1.solved = c.solved ∧ c1.tags = c.tags ∧
        (∀ title, request.title = some title → title ≠ "" → c1.title = title) ∧
        ((request.title = none ∨ request.title = some "") → c1.title = c.title) ∧
        (∀ text, request.visibility = some text → text ≠ "" →
          Visibility.ofString text = some c1.visibility) ∧
        ((request.visibility = none ∨ request.visibility = some "") →
          c1.visibility = c.visibility) ∧
        (∀ filename, request.file = some filename → c1.image = "/uploads/" ++ filename) ∧
        (request.file = none → c1.image = c.image) ∧
        (request.extraFields = .absent → c1.extraFields = c.extraFields) ∧
        (∀ fields, request.extraFields = .parsed fields →
          c1.extraFields = mergeFields c.extraFields fields ∧
          ∀ key, getField key c1.extraFields =
            match getField key fields.reverse with
            | some value => some value
            | none => getField key c.extraFields)) := by
  have hrefused : c.userId = U → applyPatch request c = none →
      updateContent now db (.wellFormed id) request U =
        { status := 500, message := none, db := db } := by
    intro howner hp
    have hguard : ¬ (c.userId != U) = true := by simp [howner]
    simp only [updateContent, hfind]
    rw [if_neg hguard, hp]
  have haccepted : ∀ c1, c.userId = U → applyPatch request c = some c1 →
      updateContent now db (.wellFormed id) request U =
        { status := 200
          message := some "Content updated"
          body := .content (preSave now c1)
          db := save now db c1 } := by
    intro c1 howner hp
    have hguard : ¬ (c.userId != U) = true := by simp [howner]
    simp only [updateContent, hfind]
    rw [if_neg hguard, hp]
  refine ⟨?_, ?_, ?_, ?_⟩
  · intro hne
    have hguard : (c.userId != U) = true := by simpa using hne
    have hupd : updateContent now db (.wellFormed id) request U =
        { status := 403, message := some "Unauthorized to update this content", db := db } := by
      simp only [updateContent, hfind]
      rw [if_pos hguard]
    have hdel : deleteContent db (.wellFormed id) U =
        { status := 403, message := some "Unauthorized to delete this content", db := db } := by
      simp only [deleteContent, hfind]
      rw [if_pos hguard]
    rw [hupd, hdel]
    exact ⟨rfl, rfl, hfind, rfl, rfl, hfind⟩
  · intro howner
    cases hp : applyPatch request c with
    | none =>
      rw [hrefused howner hp]
      exact ⟨Or.inr rfl, c, hfind, rfl, rfl, rfl, rfl, rfl, rfl, rfl, fun _ _ => rfl⟩
    | some c1 =>
      obtain ⟨h0, h1, h2, h3, h4, h5, h6, h7, h8⟩ := applyPatch_frame request c c1 hp
      rw [haccepted c1 howner hp]
      exact ⟨Or.inl rfl, preSave now c1, findById_save_same now db c1 c id hfind h0,
        h1, h2, h3, h4, h5, h6, h7, h8⟩
  · intro howner hbad
    rw [hrefused howner ((applyPatch_none_iff request c).mpr hbad)]
    exact ⟨rfl, rfl⟩
  · intro howner hgood
    cases hp : applyPatch request c with
    | none => exact absurd ((applyPatch_none_iff request c).mp hp) hgood
    | some c1 =>
      have h0 := (applyPatch_frame request c c1 hp).1
      obtain ⟨w1, w2, w3, w4, w5, w6, w7, w8, w9, w10, w11, w12⟩ :=
        applyPatch_writes request c c1 hp
      rw [haccepted c1 howner hp]
      exact ⟨rfl, preSave now c1, findById_save_same now db c1 c id hfind h0, rfl, rfl,
        w1, w2, w3, w4, w5, w6, w7, w8, w9, w10, w11, w12⟩

/-- Witness for C24: the owner of the private post renames it and sends one new extra
field; the request succeeds, the title and the new field are stored and the field
`description` keeps its value. -/
theorem update_delete_owner_guard_witness :
    findById [privatePost] (.wellFormed "c4") = some (some privatePost) ∧
    (updateContent 9 [privatePost] (.wellFormed "c4")
      { title := some "Week 12", extraFields := .parsed [("summary", "short")] }
      "owner").status = 200 ∧
    ∃ c1, findById (updateContent 9 [privatePost] (.wellFormed "c4")
        { title := some "Week 12", extraFields := .parsed [("summary", "short")] }
        "owner").db (.wellFormed "c4") = some (some c1) ∧
      c1.title = "Week 12" ∧
      getField "summary" c1.extraFields = some "short" ∧
      getField "description" c1.extraFields = getField "description" privatePost.extraFields :=
  have h := (update_delete_owner_guard 9 [privatePost] "c4" privatePost "owner"
    { title := some "Week 12", extraFields := .parsed [("summary", "short")] }
    (by decide)).2.2.2 (by decide) (by decide)
  ⟨by decide, h.1,
    h.2.imp fun _ hc =>
      ⟨hc.1, hc.2.2.2.2.2.2.2.1 "Week 12" rfl (by decide),
        ((hc.2.2.2.2.2.2.2.2.2.2.2.2.2.2 [("summary", "short")] rfl).2 "summary").trans
          (by decide),
        ((hc.2.2.2.2.2.2.2.2.2.2.2.2.2.2 [("summary", "short")] rfl).2 "description").trans
          (by decide)⟩⟩

/-! ## Claim C25: the fields a profile update writes -/

theorem profileUpdates_keys (now : Nat) (body : RequestBody) (kv : String × BodyValue)
    (hkv : kv ∈ profileUpdates now body) : kv.1 ∈ profileFields ++ ["updatedAt"] := by
  have hbase : ∀ kv ∈ profileFields.filterMap (fun key =>
        (bodyField body key).map (fun value => (key, value))) ++
        [("updatedAt", BodyValue.number now)], kv.1 ∈ profileFields ++ ["updatedAt"] := by
    intro kv hkv
    rcases List.mem_append.mp hkv with h | h
    · obtain ⟨key, hkey, hval⟩ := List.mem_filterMap.mp h
      cases hb : bodyField body key with
      | none => simp [hb] at hval
      | some value =>
        simp only [hb, Option.map, Option.some.injEq] at hval
        subst hval
        exact List.mem_append_left _ hkey
    · rw [List.mem_singleton] at h
      subst h
      exact List.mem_append_right _ (List.mem_singleton.mpr rfl)
  unfold profileUpdates at hkv
  simp only at hkv
  split_ifs at hkv
  · exact hbase kv (List.mem_of_mem_filter (List.mem_of_mem_filter hkv))
  · exact hbase kv (List.mem_of_mem_filter hkv)
  · exact hbase kv (List.mem_of_mem_filter hkv)
  · exact hbase kv hkv

theorem castUpdates_keys (cast : String → BodyValue → CastResult BodyValue)
    (updates values : List (String × BodyValue))
    (h : castUpdates cast updates = .accepted values) :
    values.map (fun kv => kv.1) = updates.map (fun kv => kv.1) := by
  induction updates generalizing values with
  | nil =>
    simp only [castUpdates, CastResult.accepted.injEq] at h
    subst h
    rfl
  | cons kv rest ih =>
    unfold castUpdates at h
    cases hc : cast kv.1 kv.2 with
    | refused e => simp [hc] at h
    | accepted value =>
      cases hr : castUpdates cast rest with
      | refused e => simp [hc, hr] at h
      | accepted vs =>
        simp only [hc, hr, CastResult.accepted.injEq] at h
        subst h
        simp only [List.map_cons, ih vs hr]

/-- Writing a path other than `email`, `username` and `password` leaves those three and
the id alone. -/
theorem setPath_frame (key : String) (value : BodyValue) (u : User)
    (he : key ≠ "email") (hu : key ≠ "username") (hp : key ≠ "password") :
    (setPath key value u)._id = u._id ∧ (setPath key value u).email = u.email ∧
    (setPath key value u).username = u.username ∧
    (setPath key value u).password = u.password := by
  unfold setPath
  have h1 : (key == "username") = false := by simpa using hu
  have h2 : (key == "email") = false := by simpa using he
  have h3 : (key == "password") = false := by simpa using hp
  simp only [h1, h2, h3, Bool.false_eq_true, if_false]
  split_ifs <;> exact ⟨rfl, rfl, rfl, rfl⟩

theorem applySet_frame (values : List (String × BodyValue)) (u : User)
    (hkeys : ∀ kv ∈ values, kv.1 ≠ "email" ∧ kv.1 ≠ "username" ∧ kv.1 ≠ "password") :
    (applySet values u)._id = u._id ∧ (applySet values u).email = u.email ∧
    (applySet values u).username = u.username ∧
    (applySet values u).password = u.password := by
  induction values generalizing u with
  | nil => exact ⟨rfl, rfl, rfl, rfl⟩
  | cons kv rest ih =>
    have hkv := hkeys kv (List.mem_cons_self _ _)
    have hstep := setPath_frame kv.1 kv.2 u hkv.1 hkv.2.1 hkv.2.2
    have hrest := ih (setPath kv.1 kv.2 u) (fun w hw => hkeys w (List.mem_cons_of_mem _ hw))
    show (applySet rest (setPath kv.1 kv.2 u))._id = _ ∧ _
    exact ⟨hrest.1.trans hstep.1, hrest.2.1.trans hstep.2.1,
      hrest.2.2.1.trans hstep.2.2.1, hrest.2.2.2.trans hstep.2.2.2⟩

/-- After `findByIdAndUpdate(caller, { $set: values })` every id resolves to a user with
the email, username and password it resolved to before, when `values` names none of those
three paths. -/
theorem findUserById_updateFirstUser (caller : ObjectId) (values : List (String × BodyValue))
    (hkeys : ∀ kv ∈ values, kv.1 ≠ "email" ∧ kv.1 ≠ "username" ∧ kv.1 ≠ "password")
    (users : List User) (id : ObjectId) (u : User)
    (hfind : findUserById users id = some u) :
    ∃ u1, findUserById (updateFirstUser caller values users) id = some u1 ∧
      u1.email = u.email ∧ u1.username = u.username ∧ u1.password = u.password := by
  induction users with
  | nil => simp [findUserById] at hfind
  | cons u0 rest ih =>
    unfold findUserById at hfind ih
    rw [List.find?_cons] at hfind
    unfold updateFirstUser
    by_cases hc : (u0._id == caller) = true
    · rw [if_pos hc]
      have hframe := applySet_frame values u0 hkeys
      unfold findUserById
      rw [List.find?_cons, hframe.1]
      cases hid : (u0._id == id) with
      | true =>
        rw [hid, Option.some.injEq] at hfind
        subst hfind
        exact ⟨_, rfl, hframe.2⟩
      | false =>
        rw [hid] at hfind
        exact ⟨u, hfind, rfl, rfl, rfl⟩
    · rw [if_neg hc]
      unfold findUserById
      rw [List.find?_cons]
      cases hid : (u0._id == id) with
      | true =>
        rw [hid, Option.some.injEq] at hfind
        subst hfind
        exact ⟨_, rfl, rfl, rfl, rfl⟩
      | false =>
        rw [hid] at hfind
        obtain ⟨u1, h1, h2⟩ := ih hfind
        exact ⟨u1, h1, h2⟩

/-- The `$set` document of a profile update names only listed profile fields and the
date. -/
theorem updateProfile_written (isValidUrl : BodyValue → Bool)
    (cast : String → BodyValue → CastResult BodyValue) (now : Nat) (users : List User)
    (body : RequestBody) (caller : ObjectId) (kv : String × BodyValue)
    (hkv : kv ∈ (updateProfile isValidUrl cast now users body caller).written) :
    kv.1 ∈ profileFields ++ ["updatedAt"] := by
  unfold updateProfile at hkv
  simp only at hkv
  split at hkv
  · cases hkv
  · cases hkv
  · split_ifs at hkv
    · cases hkv
    · split at hkv
      · cases hkv
      · cases hkv
      · cases hkv
      · rename_i values hcast
        split at hkv
        · cases hkv
        · have hkeys := castUpdates_keys cast _ values hcast
          have hmem : kv.1 ∈ values.map (fun kv => kv.1) := List.mem_map_of_mem _ hkv
          rw [hkeys] at hmem
          obtain ⟨w, hw, hwk⟩ := List.mem_map.mp hmem
          rw [← hwk]
          exact profileUpdates_keys now body w hw

/-- A profile update changes the collection only by the `$set` document it reports. -/
theorem updateProfile_users (isValidUrl : BodyValue → Bool)
    (cast : String → BodyValue → CastResult BodyValue) (now : Nat) (users : List User)
    (body : RequestBody) (caller : ObjectId) :
    (updateProfile isValidUrl cast now users body caller).users = users ∨
    (updateProfile isValidUrl cast now users body caller).users =
      updateFirstUser caller (updateProfile isValidUrl cast now users body caller).written
        users := by
  unfold updateProfile
  simp only
  split
  · exact Or.inl rfl
  · exact Or.inl rfl
  · split_ifs
    · exact Or.inl rfl
    · split
      · exact Or.inl rfl
      · exact Or.inl rfl
      · exact Or.inl rfl
      · split
        · exact Or.inl rfl
        · exact Or.inr rfl

/-- C25: for every request body sent to `PUT /user/profile`, whatever the URL check and
the schema validation answer, the `$set` document written to the user record names none of
`email`, `username` and `password`, and every stored user, the caller included, has after
the request the email, username and password it had before. -/
theorem profile_update_keeps_credentials (isValidUrl : BodyValue → Bool)
    (cast : String → BodyValue → CastResult BodyValue) (now : Nat) (users : List User)
    (body : RequestBody) (caller id : ObjectId) (u : User)
    (hfind : findUserById users id = some u) :
    (∀ kv ∈ (updateProfile isValidUrl cast now users body caller).written,
      kv.1 ≠ "email" ∧ kv.1 ≠ "username" ∧ kv.1 ≠ "password") ∧
    ∃ u1, findUserById (updateProfile isValidUrl cast now users body caller).users id
        = some u1 ∧
      u1.email = u.email ∧ u1.username = u.username ∧ u1.password = u.password := by
  have hkeys : ∀ kv ∈ (updateProfile isValidUrl cast now users body caller).written,
      kv.1 ≠ "email" ∧ kv.1 ≠ "username" ∧ kv.1 ≠ "password" := by
    intro kv hkv
    have hmem := updateProfile_written isValidUrl cast now users body caller kv hkv
    refine ⟨?_, ?_, ?_⟩ <;> intro heq <;> rw [heq] at hmem <;> revert hmem <;> decide
  refine ⟨hkeys, ?_⟩
  rcases updateProfile_users isValidUrl cast now users body caller with h | h
  · rw [h]
    exact ⟨u, hfind, rfl, rfl, rfl⟩
  · rw [h]
    exact findUserById_updateFirstUser caller _ hkeys users id u hfind

/-- Witness for C25: `v` sends a new full name together with an email, a username and a
password; the request succeeds, the full name is stored and the other three are not. -/
theorem profile_update_keeps_credentials_witness :
    findUserById [sampleUser] "v" = some sampleUser ∧
    (updateProfile sampleIsValidUrl sampleCast 9 [sampleUser]
      [("fullName", .text "Vera L."), ("email", .text "x@example.org"),
       ("username", .text "root"), ("password", .text "1234")] "v").status = 200 ∧
    (updateProfile sampleIsValidUrl sampleCast 9 [sampleUser]
      [("fullName", .text "Vera L."), ("email", .text "x@example.org"),
       ("username", .text "root"), ("password", .text "1234")] "v").written
      = [("fullName", .text "Vera L."), ("updatedAt", .number 9)] ∧
    ∃ u1, findUserById (updateProfile sampleIsValidUrl sampleCast 9 [sampleUser]
        [("fullName", .text "Vera L."), ("email", .text "x@example.org"),
         ("username", .text "root"), ("password", .text "1234")] "v").users "v" = some u1 ∧
      u1.email = sampleUser.email ∧ u1.username = sampleUser.username ∧
      u1.password = sampleUser.password :=
  ⟨by decide, by decide, by decide,
    (profile_update_keeps_credentials sampleIsValidUrl sampleCast 9 [sampleUser]
      [("fullName", .text "Vera L."), ("email", .text "x@example.org"),
       ("username", .text "root"), ("password", .text "1234")] "v" "v" sampleUser
      (by decide)).2⟩

/-! ## Claims C26 and C30: which handler takes a request -/

theorem lowerSegment_api : lowerSegment "api" = "api" := by decide

theorem lowerSegment_contents : lowerSegment "contents" = "contents" := by decide

theorem lowerSegment_questions : lowerSegment "questions" = "questions" := by decide

theorem lowerSegment_answer : lowerSegment "answer" = "answer" := by decide

theorem lowerSegment_accept_answer : lowerSegment "accept-answer" = "accept-answer" := by
  decide

theorem lowerSegment_vote_answer : lowerSegment "vote-answer" = "vote-answer" := by decide

theorem lowerSegment_user : lowerSegment "user" = "user" := by decide

theorem lowerSegment_following : lowerSegment "following" = "following" := by decide

/-- Under the mount path `/questions` a question action reaches its own route. -/
theorem dispatch_question_path (id action : String) (handler : Handler) (hid : id ≠ "")
    (haction : (action = "answer" ∧ handler = .answer) ∨
      (action = "accept-answer" ∧ handler = .acceptAnswer) ∨
      (action = "vote-answer" ∧ handler = .voteAnswer)) :
    dispatch app .POST ["api", "contents", "questions", id, action] =
      some (
        { method := .POST
          pattern := [.literal "api", .literal "contents", .literal "questions",
            .param "contentId", .literal action]
          auth := true
          handler := handler }, [("contentId", id)]) := by
  rcases haction with ⟨rfl, rfl⟩ | ⟨rfl, rfl⟩ | ⟨rfl, rfl⟩ <;>
    simp [dispatch, app, apiRoutes, contentIndex, mount, authRoutes, interactionRoutes,
      questionRoutes, contentRoutes, userRoutes, searchRoutes, uploadRoutes, cvRoutes,
      matchSegments, lowerSegment_api, lowerSegment_contents, lowerSegment_questions,
      lowerSegment_answer, lowerSegment_accept_answer, lowerSegment_vote_answer, hid]

/-- Directly under `/api/contents` a question action is taken by the route
`/:contentId/:action` of the interaction router. -/
theorem dispatch_action_path (id action : String) (hid : id ≠ "")
    (haction : action = "answer" ∨ action = "accept-answer" ∨ action = "vote-answer") :
    dispatch app .POST ["api", "contents", id, action] =
      some (
        { method := .POST
          pattern := [.literal "api", .literal "contents", .param "contentId",
            .param "action"]
          auth := true
          handler := .likeDislike }, [("contentId", id), ("action", action)]) := by
  rcases haction with rfl | rfl | rfl <;>
    simp [dispatch, app, apiRoutes, contentIndex, mount, authRoutes, interactionRoutes,
      questionRoutes, contentRoutes, userRoutes, searchRoutes, uploadRoutes, cvRoutes,
      matchSegments, lowerSegment_api, lowerSegment_contents, lowerSegment_questions,
      lowerSegment_answer, lowerSegment_accept_answer, lowerSegment_vote_answer, hid]

/-- C26 (counterexample): with a valid token, `POST /api/contents/:id/vote-answer` is not
dispatched to the vote-answer handler of the question router.  The interaction router is
mounted first and its route `/:contentId/:action` takes the request with
`action = "vote-answer"`; the like/dislike handler answers 400 "Invalid action" and stores
nothing.  The same happens to `/answer` and `/accept-answer`. -/
theorem vote_answer_path_takes_action_route :
    serve sampleVerify (some "Bearer good") .POST
        ["api", "contents", "64b7f0c2a1d3e4f5a6b7c8d9", "vote-answer"]
      = .handled .likeDislike
          [("contentId", "64b7f0c2a1d3e4f5a6b7c8d9"), ("action", "vote-answer")]
          (some { _id := "u" }) ∧
    serve sampleVerify (some "Bearer good") .POST
        ["api", "contents", "64b7f0c2a1d3e4f5a6b7c8d9", "answer"]
      = .handled .likeDislike
          [("contentId", "64b7f0c2a1d3e4f5a6b7c8d9"), ("action", "answer")]
          (some { _id := "u" }) ∧
    serve sampleVerify (some "Bearer good") .POST
        ["api", "contents", "64b7f0c2a1d3e4f5a6b7c8d9", "accept-answer"]
      = .handled .likeDislike
          [("contentId", "64b7f0c2a1d3e4f5a6b7c8d9"), ("action", "accept-answer")]
          (some { _id := "u" }) ∧
    likeDislike 9 [sampleQuestion] (castObjectId "64b7f0c2a1d3e4f5a6b7c8d9") "vote-answer" "u"
      = { status := 400, message := some "Invalid action", db := [sampleQuestion] } := by
  decide

/-- C26 (amended): with a valid token, a POST request to
`/api/contents/questions/:id/vote-answer` (likewise `.../questions/:id/answer` and
`.../questions/:id/accept-answer`) is dispatched to the vote-answer (respectively answer,
accept-answer) handler of the question router, which `routes/content/index.js` mounts under
`/questions`.  A POST request to `/api/contents/:id/vote-answer` (`/answer`,
`/accept-answer`) is dispatched to the like/dislike handler behind `/:contentId/:action`
of the interaction router, which answers 400 and leaves the collection as it was. -/
theorem question_routes_under_questions (verify : String → Verification)
    (authHeader : Option String) (user : TokenPayload) (id : String)
    (hauth : verifyToken verify authHeader = .next user) (hid : id ≠ "") :
    serve verify authHeader .POST ["api", "contents", "questions", id, "vote-answer"]
      = .handled .voteAnswer [("contentId", id)] (some user) ∧
    serve verify authHeader .POST ["api", "contents", "questions", id, "answer"]
      = .handled .answer [("contentId", id)] (some user) ∧
    serve verify authHeader .POST ["api", "contents", "questions", id, "accept-answer"]
      = .handled .acceptAnswer [("contentId", id)] (some user) ∧
    serve verify authHeader .POST ["api", "contents", id, "vote-answer"]
      = .handled .likeDislike [("contentId", id), ("action", "vote-answer")] (some user) ∧
    serve verify authHeader .POST ["api", "contents", id, "answer"]
      = .handled .likeDislike [("contentId", id), ("action", "answer")] (some user) ∧
    serve verify authHeader .POST ["api", "contents", id, "accept-answer"]
      = .handled .likeDislike [("contentId", id), ("action", "accept-answer")] (some user) ∧
    ∀ (now : Nat) (db : List Content) (action : String),
      action = "vote-answer" ∨ action = "answer" ∨ action = "accept-answer" →
      (likeDislike now db (castObjectId id) action user._id).status = 400 ∧
      (likeDislike now db (castObjectId id) action user._id).db = db := by
  refine ⟨?_, ?_, ?_, ?_, ?_, ?_, ?_⟩
  · simp only [serve, dispatch_question_path id "vote-answer" .voteAnswer hid
      (Or.inr (Or.inr ⟨rfl, rfl⟩)), hauth, if_true]
  · simp only [serve, dispatch_question_path id "answer" .answer hid (Or.inl ⟨rfl, rfl⟩),
      hauth, if_true]
  · simp only [serve, dispatch_question_path id "accept-answer" .acceptAnswer hid
      (Or.inr (Or.inl ⟨rfl, rfl⟩)), hauth, if_true]
  · simp only [serve, dispatch_action_path id "vote-answer" hid (Or.inr (Or.inr rfl)),
      hauth, if_true]
  · simp only [serve, dispatch_action_path id "answer" hid (Or.inl rfl), hauth, if_true]
  · simp only [serve, dispatch_action_path id "accept-answer" hid (Or.inr (Or.inl rfl)),
      hauth, if_true]
  · intro now db action haction
    rcases haction with rfl | rfl | rfl <;> exact ⟨rfl, rfl⟩

/-- Witness for C26 (amended): the token `good` and a 24-digit id. -/
theorem question_routes_under_questions_witness :
    verifyToken sampleVerify (some "Bearer good") = .next { _id := "u" } ∧
    serve sampleVerify (some "Bearer good") .POST
        ["api", "contents", "questions", "64b7f0c2a1d3e4f5a6b7c8d9", "vote-answer"]
      = .handled .voteAnswer [("contentId", "64b7f0c2a1d3e4f5a6b7c8d9")]
          (some { _id := "u" }) :=
  ⟨by decide,
    (question_routes_under_questions sampleVerify (some "Bearer good") { _id := "u" }
      "64b7f0c2a1d3e4f5a6b7c8d9" (by decide) (by decide)).1⟩

/-- The path `/api/user/following` is taken by the route `/:id` of the user router. -/
theorem dispatch_following_path :
    dispatch app .GET ["api", "user", "following"] =
      some (
        { method := .GET
          pattern := [.literal "api", .literal "user", .param "id"]
          auth := true
          handler := .userById }, [("id", "following")]) := by
  decide

/-- C30 (evaluation at the failing input): a GET request to `/api/user/following` with a
valid token is not handled by the handler of the caller's following list.  The route
`GET "/:id"` is declared earlier in `userRoutes.js` and takes the request with
`id = "following"`; that text is no ObjectId, `User.findById` throws, and the response is
500 "Failed to fetch user profile" without any connections, whatever the stored users.
The handler of `GET "/following"` would have answered a stored caller with 200 and the
connections. -/
theorem following_path_taken_by_id_route (verify : String → Verification)
    (authHeader : Option String) (caller : TokenPayload) (users : List User)
    (hauth : verifyToken verify authHeader = .next caller) :
    serve verify authHeader .GET ["api", "user", "following"]
      = .handled .userById [("id", "following")] (some caller) ∧
    serve verify authHeader .GET ["api", "user", "following"]
      ≠ .handled .following [] (some caller) ∧
    userLookupResponse users (serve verify authHeader .GET ["api", "user", "following"])
      = some { status := 500, message := some "Failed to fetch user profile" } ∧
    (∀ user, findUserById users caller._id = some user →
      (getFollowing users caller._id).status = 200 ∧
      (getFollowing users caller._id).connections ≠ none) := by
  have hserve : serve verify authHeader .GET ["api", "user", "following"]
      = .handled .userById [("id", "following")] (some caller) := by
    simp only [serve, dispatch_following_path, hauth, if_true]
  have hcast : castObjectId "following" = .malformed := by decide
  have hlookup : getUserById users "following"
      = { status := 500, message := some "Failed to fetch user profile" } := by
    simp only [getUserById, hcast]
  rw [hserve]
  refine ⟨rfl, by simp, ?_, ?_⟩
  · show some (getUserById users (pathParam [("id", "following")] "id")) = _
    have hparam : pathParam [("id", "following")] "id" = "following" := by decide
    rw [hparam, hlookup]
  · intro user huser
    simp [getFollowing, huser]

/-- Witness for C30: `u`, who follows `v`, asks for the following list with the token
`good`. -/
theorem following_path_taken_by_id_route_witness :
    verifyToken sampleVerify (some "Bearer good") = .next { _id := "u" } ∧
    userLookupResponse [followerUser, sampleUser]
        (serve sampleVerify (some "Bearer good") .GET ["api", "user", "following"])
      = some { status := 500, message := some "Failed to fetch user profile" } ∧
    (getFollowing [followerUser, sampleUser] "u").status = 200 ∧
    (getFollowing [followerUser, sampleUser] "u").connections
      = some [ConnectionSummary.mk "v" "vera" "Vera Lin" ""] :=
  ⟨by decide,
    (following_path_taken_by_id_route sampleVerify (some "Bearer good") { _id := "u" }
      [followerUser, sampleUser] (by decide)).2.2.1,
    by decide, by decide⟩

/-! ## Claim C29: private CV profiles and requests without a token -/

theorem lowerSegment_cv_profile : lowerSegment "cv-profile" = "cv-profile" := by decide

theorem lowerSegment_search : lowerSegment "search" = "search" := by decide

theorem lowerSegment_by_user : lowerSegment "by-user" = "by-user" := by decide

/-- The path `/api/cv-profile/search/by-user/:userId` is taken by the first route of the
CV router, which has no `verifyToken`. -/
theorem dispatch_cv_by_user (userId : String) (hid : userId ≠ "") :
    dispatch app .GET ["api", "cv-profile", "search", "by-user", userId] =
      some (
        { method := .GET
          pattern := [.literal "api", .literal "cv-profile", .literal "search",
            .literal "by-user", .param "userId"]
          auth := false
          handler := .cvByUser }, [("userId", userId)]) := by
  simp [dispatch, app, apiRoutes, contentIndex, mount, authRoutes, interactionRoutes,
    questionRoutes, contentRoutes, userRoutes, searchRoutes, uploadRoutes, cvRoutes,
    matchSegments, lowerSegment_api, lowerSegment_cv_profile, lowerSegment_search,
    lowerSegment_by_user, hid]

/-- C29 (evaluation at the failing input): a GET request to
`/api/cv-profile/search/by-user/:userId` that carries no token reaches its handler, and
when the first stored profile of that user is private (`isPublic` false) the handler
answers 200 with that profile: the route has neither `verifyToken` nor a test of
`isPublic`.  The two sibling routes without a token, `/public/:id` and `/user/:userId`,
answer 404 for the same profile. -/
theorem private_cv_returned_without_token (verify : String → Verification)
    (users : List User) (db : List CVProfile) (userId : String) (owner : ObjectId)
    (cvProfile : CVProfile)
    (hcast : castObjectId userId = .wellFormed owner)
    (hfind : db.find? (fun doc => doc.ownedBy owner) = some cvProfile)
    (hprivate : cvProfile.isPublic = false) :
    serve verify none .GET ["api", "cv-profile", "search", "by-user", userId]
      = .handled .cvByUser [("userId", userId)] none ∧
    (cvByUser db userId).status = 200 ∧
    (cvByUser db userId).profile = some cvProfile ∧
    (cvPublicOfUser users db userId).profile ≠ some cvProfile ∧
    (∀ id, castObjectId id = .wellFormed cvProfile._id →
      db.find? (fun doc => doc._id == cvProfile._id) = some cvProfile →
      (cvPublic users db id).status = 404 ∧ (cvPublic users db id).profile = none) := by
  have hid : userId ≠ "" := by
    rintro rfl
    have hempty : castObjectId "" = .malformed := by decide
    rw [hempty] at hcast
    cases hcast
  refine ⟨?_, ?_, ?_, ?_, ?_⟩
  · simp only [serve, dispatch_cv_by_user userId hid]
    rfl
  · simp only [cvByUser, hcast, hfind]
  · simp only [cvByUser, hcast, hfind]
  · simp only [cvPublicOfUser, hcast]
    cases hq : db.find? (fun doc =>
        doc.ownedBy owner && doc.get "isPublic" == some (.bool true)) with
    | none => simp
    | some found =>
      have hp := List.find?_some hq
      simp only [Bool.and_eq_true, beq_iff_eq] at hp
      intro heq
      simp only [Option.some.injEq] at heq
      subst heq
      have hpub : found.isPublic = true := by
        simp only [CVProfile.isPublic, hp.2]
        rfl
      rw [hpub] at hprivate
      cases hprivate
  · intro id hidcast hfindId
    simp only [cvPublic, hidcast, hfindId, hprivate]
    exact ⟨rfl, rfl⟩

/-- Witness for C29: the first of the five private profiles of `ann` is returned to a
request without a token. -/
theorem private_cv_returned_without_token_witness :
    castObjectId annId = .wellFormed annId ∧
    (sampleCv "74c8f0c2a1d3e4f5a6b7c801" annId "CV 1").isPublic = false ∧
    serve sampleVerify none .GET ["api", "cv-profile", "search", "by-user", annId]
      = .handled .cvByUser [("userId", annId)] none ∧
    (cvByUser fiveCvs annId).status = 200 ∧
    (cvByUser fiveCvs annId).profile = some (sampleCv "74c8f0c2a1d3e4f5a6b7c801" annId "CV 1") :=
  have h := private_cv_returned_without_token sampleVerify [ann, ben] fiveCvs annId annId
    (sampleCv "74c8f0c2a1d3e4f5a6b7c801" annId "CV 1") (by decide) (by decide) (by decide)
  ⟨by decide, by decide, h.1, h.2.1, h.2.2.1⟩

/-! ## Claim C21: the limit of five CV profiles -/

theorem bodyField_setValue_same (key : String) (value : BodyValue)
    (fields : List (String × BodyValue)) :
    bodyField (setValue key value fields) key = some value := by
  induction fields with
  | nil => simp [setValue, bodyField]
  | cons kv rest ih =>
    by_cases h : kv.1 = key
    · simp [setValue, bodyField, h]
    · have ih1 := ih
      simp only [bodyField] at ih1 ⊢
      simp [setValue, h, ih1]

theorem bodyField_setValue_ne (key other : String) (value : BodyValue)
    (fields : List (String × BodyValue)) (hne : other ≠ key) :
    bodyField (setValue key value fields) other = bodyField fields other := by
  induction fields with
  | nil =>
    have h : ¬ key = other := fun e => hne e.symm
    simp [setValue, bodyField, h]
  | cons kv rest ih =>
    by_cases h : kv.1 = key
    · have h1 : ¬ kv.1 = other := fun e => hne (e ▸ h)
      have h2 : ¬ key = other := fun e => hne e.symm
      simp [setValue, bodyField, h, h1, h2]
    · simp only [bodyField] at ih ⊢
      have hb : (kv.1 == key) = false := by simpa using h
      simp only [setValue, hb, Bool.false_eq_true, if_false, List.find?_cons]
      by_cases h1 : kv.1 = other
      · have hb1 : (kv.1 == other) = true := by simpa using h1
        rw [hb1]
      · have hb1 : (kv.1 == other) = false := by simpa using h1
        rw [hb1]
        exact ih

/-- The two handlers that count refuse a caller who owns five profiles or more. -/
theorem cv_limit_refuses (paths : List String)
    (cast : String → BodyValue → CastResult BodyValue) (now : Nat) (newId : ObjectId)
    (users : List User) (db : List CVProfile) (body : RequestBody) (id : String)
    (caller : ObjectId) (hfull : countOwned db caller ≥ 5) :
    createCv paths cast now newId users db body caller
      = { status := 400, message := some cvLimitMessage, db := db } ∧
    duplicateCv paths cast now newId db id caller
      = { status := 400, message := some cvLimitMessage, db := db } := by
  constructor
  · simp only [createCv]
    rw [if_pos hfull]
  · simp only [duplicateCv]
    rw [if_pos hfull]

/-- C21 (evaluation at the failing input): the create handler spreads `req.body` over the
`userId` it took from the token, so a body with the key `userId` names the owner of the
new profile, while the count is taken for the caller.  When `victim` owns five profiles
and the caller fewer than five, the caller's `POST /cv-profile` with the body
`{ userId: victim }` is answered with 200 and stores a sixth profile of `victim`: the
invariant of at most five profiles per user is lost.  A caller who owns five is refused
with 400 and nothing is stored. -/
theorem create_with_foreign_userId_exceeds_limit
    (cast : String → BodyValue → CastResult BodyValue) (now : Nat) (newId : ObjectId)
    (users : List User) (db : List CVProfile) (caller victim : ObjectId) (user : User)
    (hvictim : countOwned db victim = 5) (hcaller : countOwned db caller < 5)
    (huser : findUserById users caller = some user)
    (hfresh : db.any (fun other => other._id == newId) = false)
    (hcastOwner : cast "userId" (.text victim) = .accepted (.text victim))
    (hcastName : ∀ value, ∃ stored, cast "fullName" value = .accepted stored)
    (hcastTitle : ∀ value, ∃ stored, cast "title" value = .accepted stored) :
    (createCv cvSchemaPaths cast now newId users db [("userId", .text victim)]
      caller).status = 200 ∧
    countOwned (createCv cvSchemaPaths cast now newId users db [("userId", .text victim)]
      caller).db victim = 6 ∧
    (createCv cvSchemaPaths cast now newId users db [("userId", .text victim)]
      victim).status = 400 ∧
    (createCv cvSchemaPaths cast now newId users db [("userId", .text victim)]
      victim).db = db := by
  have hrefused := (cv_limit_refuses cvSchemaPaths cast now newId users db
    [("userId", .text victim)] "" victim (by omega)).1
  obtain ⟨name, hname⟩ := hcastName
    (.text (firstTruthy user.username [some user.fullName]))
  obtain ⟨title, htitle⟩ := hcastTitle
    (.text ("CV " ++ toString (countOwned db caller + 1)))
  have hnot : ¬ countOwned db caller ≥ 5 := by omega
  have hnotitle : bodyField [("userId", BodyValue.text victim)] "title" = none := by
    simp [bodyField]
  have hbase : applyValues [("userId", BodyValue.text victim)]
      [("userId", .text caller),
       ("fullName", .text (firstTruthy user.username [some user.fullName])),
       ("title", .text ("CV " ++ toString (countOwned db caller + 1))),
       ("isDefault", .bool (countOwned db caller == 0))]
      = [("userId", .text victim),
         ("fullName", .text (firstTruthy user.username [some user.fullName])),
         ("title", .text ("CV " ++ toString (countOwned db caller + 1))),
         ("isDefault", .bool (countOwned db caller == 0))] := by
    simp [applyValues, setValue]
  have hdoc : newCVProfile cvSchemaPaths cast now newId
      [("userId", .text victim),
       ("fullName", .text (firstTruthy user.username [some user.fullName])),
       ("title", .text ("CV " ++ toString (countOwned db caller + 1))),
       ("isDefault", .bool (countOwned db caller == 0))]
      = .accepted
        { _id := newId
          fields := applyValues
            ([("userId", .text victim), ("fullName", name), ("title", title)] ++
              [("createdAt", .number now), ("updatedAt", .number now)])
            (cvDefaults now) } := by
    have hid : documentId newId
        [("userId", .text victim),
         ("fullName", .text (firstTruthy user.username [some user.fullName])),
         ("title", .text ("CV " ++ toString (countOwned db caller + 1))),
         ("isDefault", .bool (countOwned db caller == 0))] = .accepted newId := by
      simp [documentId, bodyField]
    have hstrict : strictFields cvSchemaPaths
        [("userId", .text victim),
         ("fullName", .text (firstTruthy user.username [some user.fullName])),
         ("title", .text ("CV " ++ toString (countOwned db caller + 1))),
         ("isDefault", .bool (countOwned db caller == 0))]
        = [("userId", .text victim),
           ("fullName", .text (firstTruthy user.username [some user.fullName])),
           ("title", .text ("CV " ++ toString (countOwned db caller + 1)))] := by
      simp [strictFields, cvSchemaPaths]
    simp only [newCVProfile, hid, hstrict, castUpdates, hcastOwner, hname, htitle]
  have hprop : ∀ fields, propertyTruthy cvSchemaPaths { _id := newId, fields := fields }
      "isDefault" = false := by
    intro fields
    simp [propertyTruthy, readProperty, cvSchemaPaths]
  have hres : createCv cvSchemaPaths cast now newId users db [("userId", .text victim)]
      caller =
      { status := 200
        profile := some
          { _id := newId
            fields := applyValues
              ([("userId", .text victim), ("fullName", name), ("title", title)] ++
                [("createdAt", .number now), ("updatedAt", .number now)])
              (cvDefaults now) }
        db := db ++
          [{ _id := newId
             fields := applyValues
               ([("userId", .text victim), ("fullName", name), ("title", title)] ++
                 [("createdAt", .number now), ("updatedAt", .number now)])
               (cvDefaults now) }] } := by
    simp only [createCv]
    rw [if_neg hnot]
    simp only [huser, hnotitle, hbase, insertCv, hdoc, hfresh, hprop, cvPreSave,
      Bool.false_eq_true, if_false]
  have howned : CVProfile.ownedBy
      { _id := newId
        fields := applyValues
          ([("userId", .text victim), ("fullName", name), ("title", title)] ++
            [("createdAt", .number now), ("updatedAt", .number now)])
          (cvDefaults now) } victim = true := by
    simp [CVProfile.ownedBy, CVProfile.get, applyValues, setValue, cvDefaults, bodyField]
  rw [hres, hrefused]
  refine ⟨rfl, ?_, rfl, rfl⟩
  simp only [countOwned, List.countP_append, List.countP_cons, List.countP_nil, howned]
  simp only [countOwned] at hvictim
  rw [hvictim]
  rfl

/-- Witness for C21: `ben`, who owns no profile, creates a sixth profile for `ann`. -/
theorem create_with_foreign_userId_exceeds_limit_witness :
    countOwned fiveCvs annId = 5 ∧ countOwned fiveCvs benId < 5 ∧
    (createCv cvSchemaPaths sampleCvCast 9 "74c8f0c2a1d3e4f5a6b7c806" [ann, ben] fiveCvs
      [("userId", .text annId)] benId).status = 200 ∧
    countOwned (createCv cvSchemaPaths sampleCvCast 9 "74c8f0c2a1d3e4f5a6b7c806" [ann, ben]
      fiveCvs [("userId", .text annId)] benId).db annId = 6 :=
  have h := create_with_foreign_userId_exceeds_limit sampleCvCast 9
    "74c8f0c2a1d3e4f5a6b7c806" [ann, ben] fiveCvs benId annId ben (by decide) (by decide)
    (by decide) (by decide) (by decide) (fun value => ⟨value, rfl⟩)
    (fun value => ⟨value, rfl⟩)
  ⟨by decide, by decide, h.1, h.2.1⟩

/-! ## Claim C22: the default CV profile -/

/-- Under the schema of the source the key `isDefault` is dropped from every update. -/
theorem strictFields_isDefault (value : BodyValue) :
    strictFields cvSchemaPaths [("isDefault", value)] = [] := by
  simp [strictFields, cvSchemaPaths]

/-- The document a `save` hook's `updateMany` leaves under the schema of the source: only
`updatedAt` is touched. -/
theorem touched_get (doc : CVProfile) (now : Nat) (key : String) (hkey : key ≠ "updatedAt") :
    CVProfile.get { doc with fields := applyValues [("updatedAt", .number now)] doc.fields } key
      = doc.get key := by
  show bodyField (setValue "updatedAt" (.number now) doc.fields) key = bodyField doc.fields key
  exact bodyField_setValue_ne "updatedAt" key _ doc.fields hkey

/-- The handler of `PUT /default/:id` under the schema of the source: the collection after
the request is the old one with `updatedAt` touched on the other profiles of the owner. -/
theorem setDefaultCv_db (now : Nat) (db : List CVProfile) (id : String)
    (oid caller : ObjectId) (cvProfile : CVProfile)
    (hcast : castObjectId id = .wellFormed oid)
    (hfind : db.find? (fun doc => doc._id == oid && doc.ownedBy caller) = some cvProfile) :
    (setDefaultCv cvSchemaPaths now db id caller).status = 200 ∧
    (setDefaultCv cvSchemaPaths now db id caller).db =
      db.map (fun doc =>
        if (doc.get "userId" == cvProfile.get "userId" && doc._id != cvProfile._id) = true then
          { doc with fields := applyValues [("updatedAt", .number now)] doc.fields }
        else doc) := by
  constructor
  · simp only [setDefaultCv, hcast, hfind]
  · simp only [setDefaultCv, hcast, hfind, cvPreSave, cvUpdateMany, saveAssigned,
      strictFields_isDefault, if_true, List.nil_append]

/-- C22 (evaluation at the failing input): `CVProfileSchema` declares no path `isDefault`,
so under strict mode the flag is never written.  A request `PUT /cv-profile/default/:id`
of the owner for a stored profile `P` is answered with 200, but every stored profile keeps
the value of `isDefault` it had: when `P` was not the default before, it is not the default
afterwards, and nothing the handler or the `save` hook does can make it so.  Had the schema
declared the path, the hook would keep the invariant on the `save` paths, and then
`PUT /cv-profile/:id` with the body `{ isDefault: true }`, which goes through
`findOneAndUpdate` and runs no hook, would leave the owner with two default profiles. -/
theorem set_default_stores_no_flag (now : Nat) (db : List CVProfile) (id : String)
    (oid caller : ObjectId) (cvProfile : CVProfile)
    (hcast : castObjectId id = .wellFormed oid)
    (hfind : db.find? (fun doc => doc._id == oid && doc.ownedBy caller) = some cvProfile) :
    (setDefaultCv cvSchemaPaths now db id caller).status = 200 ∧
    (setDefaultCv cvSchemaPaths now db id caller).db.map (fun doc => (doc._id, doc.isDefault))
      = db.map (fun doc => (doc._id, doc.isDefault)) ∧
    (∃ stored, (setDefaultCv cvSchemaPaths now db id caller).db.find?
        (fun doc => doc._id == oid && doc.ownedBy caller) = some stored ∧
      stored._id = cvProfile._id ∧ stored.isDefault = cvProfile.isDefault) ∧
    (setDefaultCv (cvSchemaPaths ++ ["isDefault"]) 9 twoCvsOneDefault
        "74c8f0c2a1d3e4f5a6b7c802" annId).db.map (fun doc => doc.isDefault)
      = [false, true] ∧
    (updateCv (cvSchemaPaths ++ ["isDefault"]) sampleCvCast 9 twoCvsOneDefault
        "74c8f0c2a1d3e4f5a6b7c802" [("isDefault", .bool true)] annId).status = 200 ∧
    (updateCv (cvSchemaPaths ++ ["isDefault"]) sampleCvCast 9 twoCvsOneDefault
        "74c8f0c2a1d3e4f5a6b7c802" [("isDefault", .bool true)] annId).db.map
        (fun doc => (doc.ownedBy annId, doc.isDefault))
      = [(true, true), (true, true)] := by
  obtain ⟨hstatus, hdb⟩ := setDefaultCv_db now db id oid caller cvProfile hcast hfind
  have hflag : ∀ doc : CVProfile,
      CVProfile.isDefault
        (if (doc.get "userId" == cvProfile.get "userId" && doc._id != cvProfile._id) = true
          then { doc with fields := applyValues [("updatedAt", .number now)] doc.fields }
          else doc) = doc.isDefault := by
    intro doc
    split_ifs
    · simp only [CVProfile.isDefault, touched_get doc now "isDefault" (by decide)]
    · rfl
  have hidkeep : ∀ doc : CVProfile,
      CVProfile._id
        (if (doc.get "userId" == cvProfile.get "userId" && doc._id != cvProfile._id) = true
          then { doc with fields := applyValues [("updatedAt", .number now)] doc.fields }
          else doc) = doc._id := by
    intro doc
    split_ifs <;> rfl
  have hown : ∀ doc : CVProfile,
      CVProfile.ownedBy
        (if (doc.get "userId" == cvProfile.get "userId" && doc._id != cvProfile._id) = true
          then { doc with fields := applyValues [("updatedAt", .number now)] doc.fields }
          else doc) caller = doc.ownedBy caller := by
    intro doc
    split_ifs
    · simp only [CVProfile.ownedBy, touched_get doc now "userId" (by decide)]
    · rfl
  refine ⟨hstatus, ?_, ?_, by decide, by decide, by decide⟩
  · rw [hdb, List.map_map]
    apply List.map_congr_left
    intro doc _
    simp only [Function.comp, hflag doc, hidkeep doc]
  · rw [hdb, List.find?_map]
    have hpred : ((fun doc : CVProfile => doc._id == oid && doc.ownedBy caller) ∘
        (fun doc : CVProfile =>
          if (doc.get "userId" == cvProfile.get "userId" && doc._id != cvProfile._id) = true
          then { doc with fields := applyValues [("updatedAt", .number now)] doc.fields }
          else doc)) = (fun doc : CVProfile => doc._id == oid && doc.ownedBy caller) := by
      funext doc
      simp only [Function.comp, hidkeep doc, hown doc]
    rw [hpred, hfind]
    exact ⟨_, rfl, hidkeep cvProfile, hflag cvProfile⟩

/-- Witness for C22: `ann` asks to make the second of her two profiles the default. -/
theorem set_default_stores_no_flag_witness :
    castObjectId "74c8f0c2a1d3e4f5a6b7c802" = .wellFormed "74c8f0c2a1d3e4f5a6b7c802" ∧
    (setDefaultCv cvSchemaPaths 9 twoCvs "74c8f0c2a1d3e4f5a6b7c802" annId).status = 200 ∧
    (setDefaultCv cvSchemaPaths 9 twoCvs "74c8f0c2a1d3e4f5a6b7c802" annId).db.map
        (fun doc => (doc._id, doc.isDefault))
      = [("74c8f0c2a1d3e4f5a6b7c801", false), ("74c8f0c2a1d3e4f5a6b7c802", false)] :=
  have h := set_default_stores_no_flag 9 twoCvs "74c8f0c2a1d3e4f5a6b7c802"
    "74c8f0c2a1d3e4f5a6b7c802" annId (sampleCv "74c8f0c2a1d3e4f5a6b7c802" annId "CV 2")
    (by decide) (by decide)
  ⟨by decide, h.1, h.2.1.trans (by decide)⟩

end HackGrad
